import Mathlib

/-!
# Shipping fee calculator (Practicals/Practical_3)

A shallow embedding of `shipping.go` and `shipping_V2.go`.

Modelling conventions.
* A Go `float64` is modelled by the type `F64`: NaN, the two infinities, or a
  finite value carried as the rational number it denotes.  Every arithmetic
  operation computes the exact rational result and rounds it to the nearest
  binary64 value, ties to even (`F64.rnd`), overflowing to an infinity.  Each
  operation is rounded on its own, as on amd64 (no fused multiply-add).  The
  two zeros are identified: the program only adds, subtracts, multiplies,
  divides by the constant 100 and compares, and none of these tells them apart.
* The finite part of `F64` also holds rationals that are not binary64 values;
  `F64.IsFloat` singles out the binary64 values.  The statements hold for every
  `F64` argument unless they ask for `IsFloat`, and every counterexample is
  built from binary64 values.
* Comparisons follow IEEE 754: every comparison with NaN is false.
* A Go `map[string]float64` is modelled by a function `String → Option F64`
  (`none` = key absent).  Writing `m[k] = v` is the pointwise update.
* A Go `(float64, error)` result is modelled by `Except String F64`, the error
  being its message.
* A method that mutates its receiver takes the configuration and returns the
  new one.
-/

namespace Shipping

/-! ## binary64 arithmetic -/

/-- A binary64 value: NaN, an infinity with its sign, or a finite value. -/
inductive F64
  | nan
  | inf (negative : Bool)
  | fin (q : ℚ)
  deriving DecidableEq

namespace F64

/-- Rounding to the nearest integer, a tie going to the even neighbour. -/
def roundHalfEven (x : ℚ) : ℤ :=
  if x - ⌊x⌋ < 1 / 2 then ⌊x⌋
  else if 1 / 2 < x - ⌊x⌋ then ⌊x⌋ + 1
  else if ⌊x⌋ % 2 = 0 then ⌊x⌋ else ⌊x⌋ + 1

/-- The binary exponent of `q`: the `e` with `2^e ≤ |q| < 2^(e+1)`, and -1022
(the smallest exponent of binary64) for every smaller `q`. -/
def expo (q : ℚ) : ℤ := max (Int.log 2 |q|) (-1022)

/-- The unit in the last place of the binade of `q`: 53 significant bits,
so `2^(e-52)` in the binade of exponent `e`. -/
def ulp (q : ℚ) : ℚ := (2 : ℚ) ^ (expo q - 52)

/-- The multiple of `ulp q` nearest to `q`, ties to even. -/
def roundToUlp (q : ℚ) : ℚ := (roundHalfEven (q / ulp q) : ℚ) * ulp q

/-- Rounding of an exact result to binary64: round to nearest, ties to even,
overflow to the infinity of the same sign. -/
def rnd (q : ℚ) : F64 :=
  if (2 : ℚ) ^ (1024 : ℕ) ≤ |roundToUlp q| then inf (decide (q < 0)) else fin (roundToUlp q)

/-- Negation. -/
def neg : F64 → F64
  | nan => nan
  | inf s => inf (!s)
  | fin q => fin (-q)

/-- Addition. -/
def add : F64 → F64 → F64
  | fin a, fin b => rnd (a + b)
  | fin _, inf s => inf s
  | inf s, fin _ => inf s
  | inf s, inf t => if s = t then inf s else nan
  | _, _ => nan

/-- Subtraction. -/
def sub (x y : F64) : F64 := add x (neg y)

/-- Multiplication. -/
def mul : F64 → F64 → F64
  | fin a, fin b => rnd (a * b)
  | fin a, inf s => if a = 0 then nan else inf (xor s (decide (a < 0)))
  | inf s, fin b => if b = 0 then nan else inf (xor s (decide (b < 0)))
  | inf s, inf t => inf (xor s t)
  | _, _ => nan

/-- Division.  A zero divisor is taken as the positive zero; the program
divides only by the constant 100. -/
def div : F64 → F64 → F64
  | fin a, fin b =>
    if b = 0 then (if a = 0 then nan else inf (decide (a < 0))) else rnd (a / b)
  | fin _, inf _ => fin 0
  | inf s, fin b => inf (xor s (decide (b < 0)))
  | _, _ => nan

instance : Add F64 := ⟨add⟩
instance : Sub F64 := ⟨sub⟩
instance : Mul F64 := ⟨mul⟩
instance : Div F64 := ⟨div⟩

/-- The comparison `x <= y`; false when either side is NaN. -/
def le : F64 → F64 → Prop
  | fin a, fin b => a ≤ b
  | fin _, inf t => t = false
  | inf s, fin _ => s = true
  | inf s, inf t => s = true ∨ t = false
  | _, _ => False

/-- The comparison `x < y`; false when either side is NaN. -/
def lt : F64 → F64 → Prop
  | fin a, fin b => a < b
  | fin _, inf t => t = false
  | inf s, fin _ => s = true
  | inf s, inf t => s = true ∧ t = false
  | _, _ => False

instance : LE F64 := ⟨le⟩
instance : LT F64 := ⟨lt⟩

instance decLe (x y : F64) : Decidable (x ≤ y) := by
  cases x <;> cases y <;> simp only [LE.le, le] <;> infer_instance

instance decLt (x y : F64) : Decidable (x < y) := by
  cases x <;> cases y <;> simp only [LT.lt, lt] <;> infer_instance

/-- A value that binary64 can hold: NaN, an infinity, or a finite value that
rounding leaves unchanged. -/
def IsFloat : F64 → Prop
  | fin q => rnd q = fin q
  | _ => True

instance decIsFloat (x : F64) : Decidable (IsFloat x) := by
  cases x <;> simp only [IsFloat] <;> infer_instance

/-- A value that is `+Inf` or finite and non-negative. -/
def Nonneg : F64 → Prop
  | fin q => 0 ≤ q
  | inf s => s = false
  | nan => False

instance decNonneg (x : F64) : Decidable (Nonneg x) := by
  cases x <;> simp only [Nonneg] <;> infer_instance

/-- Two finite values with `0 ≤ x ≤ y ≤ 2^k`. -/
def BoundedLe (k : ℕ) (x y : F64) : Prop :=
  ∃ a b, x = fin a ∧ y = fin b ∧ 0 ≤ a ∧ a ≤ b ∧ b ≤ (2 : ℚ) ^ k

end F64

/-! ## Go library function -/

/-- Go `math.Round` on a finite value: the nearest integer, halves rounded
away from zero. -/
def mathRound (x : ℚ) : ℚ :=
  if 0 ≤ x then ((⌊x + 1 / 2⌋ : ℤ) : ℚ) else -((⌊-x + 1 / 2⌋ : ℤ) : ℚ)

/-- Go `math.Round`: NaN and the infinities are returned unchanged; the
rounded value of a binary64 is again a binary64, so no rounding error arises. -/
def F64.round : F64 → F64
  | F64.fin q => F64.fin (mathRound q)
  | x => x

/-! ## shipping.go -/

open F64 in
/-- The function `CalculateShippingFee` of shipping.go. -/
def CalculateShippingFee (weight : F64) (zone : String) : Except String F64 :=
  if weight ≤ fin 0 ∨ weight > fin 50 then
    .error "invalid weight: must be between 0 and 50 kg"
  else if zone = "Domestic" then
    .ok (fin 5 + (weight * fin 1))
  else if zone = "Express" then
    .ok (fin 30 + (weight * fin 5))
  else if zone = "International" then
    .error "international shipping not implemented"
  else
    .error ("invalid zone: " ++ zone)

/-! ## shipping_V2.go -/

/-- The configuration record `ShippingCalculator`. -/
structure ShippingCalculator where
  domesticBaseRate : F64
  domesticPerKgRate : F64
  expressBaseRate : F64
  expressPerKgRate : F64
  internationalRates : String → Option F64
  volumeDiscounts : String → Option F64
  insuranceThreshold : F64
  insuranceRate : F64

open F64 in
/-- The constructor `NewShippingCalculator`: the default configuration.  The
constants 5, 1, 30 and 20 are binary64 values; 0.10, 0.20 and 0.05 are not and
stand for the binary64 values nearest to them. -/
def NewShippingCalculator : ShippingCalculator where
  domesticBaseRate := fin 5
  domesticPerKgRate := fin 1
  expressBaseRate := fin 30
  expressPerKgRate := fin 5
  internationalRates := fun _ => none
  volumeDiscounts := fun k =>
    if k = "SUMMER10" then some (rnd (1 / 10)) else if k = "BULK20" then some (rnd (1 / 5))
    else none
  insuranceThreshold := fin 20
  insuranceRate := rnd (1 / 20)

open F64 in
/-- The method `CalculateShippingFeeV2`: weight check, base fee by zone, insurance
surcharge, discount, rounding to two decimals. -/
def CalculateShippingFeeV2 (sc : ShippingCalculator) (weight : F64) (zone : String)
    (discountCode : String) : Except String F64 :=
  if weight ≤ fin 0 ∨ weight > fin 50 then
    .error "invalid weight: must be between 0 and 50 kg"
  else
    let base : Except String F64 :=
      if zone = "Domestic" then
        .ok (sc.domesticBaseRate + (weight * sc.domesticPerKgRate))
      else if zone = "Express" then
        .ok (sc.expressBaseRate + (weight * sc.expressPerKgRate))
      else if zone = "International" then
        match sc.internationalRates zone with
        | some rate => .ok (rate * weight)
        | none => .error ("shipping rate not available for zone: " ++ zone)
      else
        .error ("invalid zone: " ++ zone)
    match base with
    | .error e => .error e
    | .ok baseFee =>
      let baseFee := if weight > sc.insuranceThreshold then baseFee + baseFee * sc.insuranceRate
        else baseFee
      match sc.volumeDiscounts discountCode with
      | some discount => .ok (F64.round (baseFee * (fin 1 - discount) * fin 100) / fin 100)
      | none =>
        if discountCode ≠ "" then
          .error ("invalid discount code: " ++ discountCode)
        else
          .ok (F64.round (baseFee * fin 100) / fin 100)

/-- The method `SetInternationalRate`: `sc.internationalRates[zone] = ratePerKg`. -/
def SetInternationalRate (sc : ShippingCalculator) (zone : String) (ratePerKg : F64) :
    ShippingCalculator :=
  { sc with internationalRates := fun k => if k = zone then some ratePerKg
      else sc.internationalRates k }

open F64 in
/-- The method `AddDiscountCode`: the configuration after the call, and the
error returned (`none` for Go's `nil`). -/
def AddDiscountCode (sc : ShippingCalculator) (code : String) (discountPercentage : F64) :
    ShippingCalculator × Option String :=
  if discountPercentage ≤ fin 0 ∨ discountPercentage ≥ fin 1 then
    (sc, some "discount percentage must be between 0 and 1")
  else
    ({ sc with volumeDiscounts := fun k => if k = code then some discountPercentage
        else sc.volumeDiscounts k }, none)

/-- Configurations obtained from `NewShippingCalculator` by any sequence of
`SetInternationalRate` and `AddDiscountCode` calls, failing calls included. -/
inductive Reachable : ShippingCalculator → Prop
  | init : Reachable NewShippingCalculator
  | setRate (sc : ShippingCalculator) (zone : String) (ratePerKg : F64) :
      Reachable sc → Reachable (SetInternationalRate sc zone ratePerKg)
  | addCode (sc : ShippingCalculator) (code : String) (discountPercentage : F64) :
      Reachable sc → Reachable (AddDiscountCode sc code discountPercentage).1

/-- Reachable configurations in whose history every `SetInternationalRate`
call was given a non-negative rate. -/
inductive ReachableNonnegRates : ShippingCalculator → Prop
  | init : ReachableNonnegRates NewShippingCalculator
  | setRate (sc : ShippingCalculator) (zone : String) (ratePerKg : F64) :
      F64.fin 0 ≤ ratePerKg → ReachableNonnegRates sc →
      ReachableNonnegRates (SetInternationalRate sc zone ratePerKg)
  | addCode (sc : ShippingCalculator) (code : String) (discountPercentage : F64) :
      ReachableNonnegRates sc → ReachableNonnegRates (AddDiscountCode sc code discountPercentage).1

/-! ## Vocabulary of the statements -/

/-- Rounding to two decimals as done on the last line of
`CalculateShippingFeeV2`: `math.Round(x*100) / 100`, in binary64. -/
def round2 (x : F64) : F64 := F64.round (x * F64.fin 100) / F64.fin 100

/-- The base fee computed by the zone switch of `CalculateShippingFeeV2`, when
the switch yields one. -/
def zoneBaseFee (sc : ShippingCalculator) (weight : F64) (zone : String) : Option F64 :=
  if zone = "Domestic" then some (sc.domesticBaseRate + weight * sc.domesticPerKgRate)
  else if zone = "Express" then some (sc.expressBaseRate + weight * sc.expressPerKgRate)
  else if zone = "International" then
    (sc.internationalRates "International").map fun rate => rate * weight
  else none

/-- The base fee after the insurance step of `CalculateShippingFeeV2`. -/
def insuredFee (sc : ShippingCalculator) (weight : F64) (baseFee : F64) : F64 :=
  if weight > sc.insuranceThreshold then baseFee + baseFee * sc.insuranceRate else baseFee

/-- Rounding of an exact amount to two decimals, halves away from zero, in
exact arithmetic: the reading of "rounded to 2 decimals" without binary64. -/
def exactRound2 (a : ℚ) : ℚ := mathRound (a * 100) / 100

open F64 in
/-- The amount of the other order, in the words of the claim
`base*(1-d) + base*(1-d)*insuranceRate`: discount first, surcharge second. -/
def discountThenInsurance (base rate d : F64) : F64 :=
  base * (fin 1 - d) + base * (fin 1 - d) * rate

namespace F64

/-! ## Evaluating the rounding -/

theorem roundHalfEven_of_near (x : ℚ) (n : ℤ) (h : |x - n| < 1 / 2) : roundHalfEven x = n := by
  rw [abs_lt] at h
  obtain ⟨h1, h2⟩ := h
  have hf1 := Int.floor_le x
  have hf2 := Int.lt_floor_add_one x
  have hle : ⌊x⌋ ≤ n := by
    have h3 : ((⌊x⌋ : ℤ) : ℚ) < ((n + 1 : ℤ) : ℚ) := by push_cast; linarith
    have h4 : ⌊x⌋ < n + 1 := by exact_mod_cast h3
    omega
  have hge : n - 1 ≤ ⌊x⌋ := by
    have h3 : ((n - 1 : ℤ) : ℚ) < ((⌊x⌋ + 1 : ℤ) : ℚ) := by push_cast; linarith
    have h4 : n - 1 < ⌊x⌋ + 1 := by exact_mod_cast h3
    omega
  unfold roundHalfEven
  by_cases hfn : ⌊x⌋ = n
  · rw [hfn, if_pos (by linarith)]
  · have hfn' : ⌊x⌋ = n - 1 := by omega
    rw [hfn']
    push_cast
    rw [if_neg (by linarith), if_pos (by linarith)]
    ring

theorem roundHalfEven_of_tie (x : ℚ) (n : ℤ) (h : |x - n| = 1 / 2) (hn : n % 2 = 0) :
    roundHalfEven x = n := by
  unfold roundHalfEven
  rcases abs_eq (by norm_num : (0 : ℚ) ≤ 1 / 2) |>.mp h with h | h
  · have hx : x = (n : ℚ) + 1 / 2 := by linarith
    have hfl : ⌊x⌋ = n := by
      rw [Int.floor_eq_iff]
      constructor <;> linarith
    rw [hfl, if_neg (by linarith), if_neg (by linarith), if_pos hn]
  · have hx : x = (n : ℚ) - 1 / 2 := by linarith
    have hfl : ⌊x⌋ = n - 1 := by
      rw [Int.floor_eq_iff]
      push_cast
      constructor <;> linarith
    rw [hfl]
    push_cast
    rw [if_neg (by linarith), if_neg (by linarith), if_neg (by omega)]
    ring

theorem log_eq_of_bounds {q : ℚ} {e : ℤ} (hlo : (2 : ℚ) ^ e ≤ q) (hhi : q < (2 : ℚ) ^ (e + 1)) :
    Int.log 2 q = e := by
  have hpos : 0 < q := lt_of_lt_of_le (by positivity) hlo
  apply le_antisymm
  · have h1 : Int.log 2 q < e + 1 := by
      rw [← Int.lt_zpow_iff_log_lt (by norm_num) hpos]
      exact_mod_cast hhi
    omega
  · rw [← Int.zpow_le_iff_le_log (by norm_num) hpos]
    exact_mod_cast hlo

theorem ulp_eq_of_bounds {q : ℚ} {e : ℤ} (he : -1022 ≤ e) (hlo : (2 : ℚ) ^ e ≤ |q|)
    (hhi : |q| < (2 : ℚ) ^ (e + 1)) : ulp q = (2 : ℚ) ^ (e - 52) := by
  unfold ulp expo
  rw [log_eq_of_bounds hlo hhi, max_eq_left he]

/-- No overflow below the binade of exponent 1023. -/
theorem rnd_of_roundToUlp {q : ℚ} {e : ℤ} {n : ℤ} (he : -1022 ≤ e) (he' : e ≤ 1022)
    (hlo : (2 : ℚ) ^ e ≤ |q|) (hhi : |q| < (2 : ℚ) ^ (e + 1))
    (hn : roundHalfEven (q / (2 : ℚ) ^ (e - 52)) = n)
    (hnear : |q / (2 : ℚ) ^ (e - 52) - n| ≤ 1 / 2) :
    rnd q = fin ((n : ℚ) * (2 : ℚ) ^ (e - 52)) := by
  have hu := ulp_eq_of_bounds he hlo hhi
  have hupos : (0 : ℚ) < (2 : ℚ) ^ (e - 52) := by positivity
  have hr : roundToUlp q = (n : ℚ) * (2 : ℚ) ^ (e - 52) := by
    unfold roundToUlp
    rw [hu, hn]
  unfold rnd
  rw [hr, if_neg]
  rw [not_le, abs_mul, abs_of_pos hupos]
  -- |n| ≤ |q / u| + 1/2 < 2^53 + 1/2
  have hx : |q / (2 : ℚ) ^ (e - 52)| < (2 : ℚ) ^ (53 : ℕ) := by
    rw [abs_div, abs_of_pos hupos, div_lt_iff₀ hupos]
    have h2 : (2 : ℚ) ^ (53 : ℕ) * (2 : ℚ) ^ (e - 52) = (2 : ℚ) ^ (e + 1) := by
      rw [← zpow_natCast, ← zpow_add₀ (by norm_num)]
      congr 1
      push_cast
      ring
    rw [h2]
    exact hhi
  have hnabs : |(n : ℚ)| < (2 : ℚ) ^ (54 : ℕ) := by
    have h3 : |(n : ℚ)| ≤ |q / (2 : ℚ) ^ (e - 52)| + |q / (2 : ℚ) ^ (e - 52) - n| := by
      have := abs_sub_abs_le_abs_sub (n : ℚ) (q / (2 : ℚ) ^ (e - 52))
      rw [abs_sub_comm] at this
      linarith
    have h4 : (2 : ℚ) ^ (53 : ℕ) + 1 / 2 < (2 : ℚ) ^ (54 : ℕ) := by norm_num
    linarith
  calc |(n : ℚ)| * (2 : ℚ) ^ (e - 52) < (2 : ℚ) ^ (54 : ℕ) * (2 : ℚ) ^ (e - 52) :=
        mul_lt_mul_of_pos_right hnabs hupos
    _ = (2 : ℚ) ^ (e + 2) := by
        rw [← zpow_natCast, ← zpow_add₀ (by norm_num)]
        congr 1
        push_cast
        ring
    _ ≤ (2 : ℚ) ^ ((1024 : ℕ) : ℤ) := zpow_le_zpow_right₀ (by norm_num) (by push_cast; omega)
    _ = (2 : ℚ) ^ (1024 : ℕ) := zpow_natCast _ _

/-- Evaluation of a rounding: `q` lies in the binade of exponent `e` and `n`
is the integer nearest to `q / 2^(e-52)`. -/
theorem rnd_of_near (q : ℚ) (e n : ℤ) (r : ℚ)
    (h : -1022 ≤ e ∧ e ≤ 1022 ∧ (2 : ℚ) ^ e ≤ |q| ∧ |q| < (2 : ℚ) ^ (e + 1) ∧
      |q / (2 : ℚ) ^ (e - 52) - n| < 1 / 2 ∧ r = (n : ℚ) * (2 : ℚ) ^ (e - 52)) :
    rnd q = fin r := by
  obtain ⟨he, he', hlo, hhi, hn, hr⟩ := h
  rw [hr]
  exact rnd_of_roundToUlp he he' hlo hhi (roundHalfEven_of_near _ _ hn) (le_of_lt hn)

/-- Evaluation of a rounding at a tie: `q / 2^(e-52)` lies halfway between
two integers and `n` is the even one. -/
theorem rnd_of_tie (q : ℚ) (e n : ℤ) (r : ℚ)
    (h : -1022 ≤ e ∧ e ≤ 1022 ∧ (2 : ℚ) ^ e ≤ |q| ∧ |q| < (2 : ℚ) ^ (e + 1) ∧
      |q / (2 : ℚ) ^ (e - 52) - n| = 1 / 2 ∧ n % 2 = 0 ∧ r = (n : ℚ) * (2 : ℚ) ^ (e - 52)) :
    rnd q = fin r := by
  obtain ⟨he, he', hlo, hhi, hn, hev, hr⟩ := h
  rw [hr]
  exact rnd_of_roundToUlp he he' hlo hhi (roundHalfEven_of_tie _ _ hn hev) (le_of_eq hn)

/-- Evaluation of the rounding of a positive number. -/
theorem rnd_pos_eval (q : ℚ) (e n : ℤ) (r : ℚ)
    (h : -1022 ≤ e ∧ e ≤ 1022 ∧ (2 : ℚ) ^ e ≤ q ∧ q < (2 : ℚ) ^ (e + 1) ∧
      (n : ℚ) - 1 / 2 < q / (2 : ℚ) ^ (e - 52) ∧ q / (2 : ℚ) ^ (e - 52) < (n : ℚ) + 1 / 2 ∧
      r = (n : ℚ) * (2 : ℚ) ^ (e - 52)) :
    rnd q = fin r := by
  obtain ⟨he, he', hlo, hhi, hn1, hn2, hr⟩ := h
  have hpos : 0 < q := lt_of_lt_of_le (by positivity) hlo
  refine rnd_of_near q e n r ⟨he, he', ?_, ?_, ?_, hr⟩
  · rwa [abs_of_pos hpos]
  · rwa [abs_of_pos hpos]
  · rw [abs_lt]
    constructor <;> linarith

/-- Evaluation of the rounding of a negative number `-q`. -/
theorem rnd_neg_eval (q : ℚ) (e n : ℤ) (r : ℚ)
    (h : -1022 ≤ e ∧ e ≤ 1022 ∧ (2 : ℚ) ^ e ≤ q ∧ q < (2 : ℚ) ^ (e + 1) ∧
      (n : ℚ) - 1 / 2 < q / (2 : ℚ) ^ (e - 52) ∧ q / (2 : ℚ) ^ (e - 52) < (n : ℚ) + 1 / 2 ∧
      r = (n : ℚ) * (2 : ℚ) ^ (e - 52)) :
    rnd (-q) = fin (-r) := by
  obtain ⟨he, he', hlo, hhi, hn1, hn2, hr⟩ := h
  have hpos : 0 < q := lt_of_lt_of_le (by positivity) hlo
  refine rnd_of_near (-q) e (-n) (-r) ⟨he, he', ?_, ?_, ?_, ?_⟩
  · rwa [abs_neg, abs_of_pos hpos]
  · rwa [abs_neg, abs_of_pos hpos]
  · rw [abs_lt, neg_div]
    push_cast
    constructor <;> linarith
  · rw [hr]
    push_cast
    ring

/-- Evaluation of the rounding of a positive number at a tie. -/
theorem rnd_pos_tie (q : ℚ) (e n : ℤ) (r : ℚ)
    (h : -1022 ≤ e ∧ e ≤ 1022 ∧ (2 : ℚ) ^ e ≤ q ∧ q < (2 : ℚ) ^ (e + 1) ∧
      (q / (2 : ℚ) ^ (e - 52) = (n : ℚ) + 1 / 2 ∨ q / (2 : ℚ) ^ (e - 52) = (n : ℚ) - 1 / 2) ∧
      n % 2 = 0 ∧ r = (n : ℚ) * (2 : ℚ) ^ (e - 52)) :
    rnd q = fin r := by
  obtain ⟨he, he', hlo, hhi, hn, hev, hr⟩ := h
  have hpos : 0 < q := lt_of_lt_of_le (by positivity) hlo
  refine rnd_of_tie q e n r ⟨he, he', ?_, ?_, ?_, hev, hr⟩
  · rwa [abs_of_pos hpos]
  · rwa [abs_of_pos hpos]
  · rcases hn with hn | hn
    · rw [hn]
      norm_num
    · rw [hn]
      norm_num

theorem rnd_zero : rnd 0 = fin 0 := by
  unfold rnd roundToUlp roundHalfEven
  simp

end F64

/-! ## Helper lemmas: comparisons and operations of `F64` -/

namespace F64

theorem fin_le_fin (a b : ℚ) : (fin a ≤ fin b) ↔ a ≤ b := Iff.rfl

theorem fin_lt_fin (a b : ℚ) : (fin a < fin b) ↔ a < b := Iff.rfl

theorem not_nan_le (x : F64) : ¬ (nan ≤ x) := by
  cases x <;> exact fun h => h

theorem not_le_nan (x : F64) : ¬ (x ≤ nan) := by
  cases x <;> exact fun h => h

theorem not_nan_lt (x : F64) : ¬ (nan < x) := by
  cases x <;> exact fun h => h

theorem not_lt_nan (x : F64) : ¬ (x < nan) := by
  cases x <;> exact fun h => h

theorem not_le_of_lt {x y : F64} (h : x < y) : ¬ (y ≤ x) := by
  intro h'
  cases x with
  | nan => exact not_nan_lt _ h
  | inf s =>
    cases y with
    | nan => exact not_lt_nan _ h
    | inf t =>
      have h1 : s = true ∧ t = false := h
      have h2 : t = true ∨ s = false := h'
      rcases h2 with h2 | h2 <;> simp_all
    | fin b =>
      have h1 : s = true := h
      have h2 : s = false := h'
      simp_all
  | fin a =>
    cases y with
    | nan => exact not_lt_nan _ h
    | inf t =>
      have h1 : t = false := h
      have h2 : t = true := h'
      simp_all
    | fin b =>
      have h1 : a < b := h
      have h2 : b ≤ a := h'
      exact absurd h1 (not_lt.mpr h2)

theorem not_lt_of_le {x y : F64} (h : x ≤ y) : ¬ (y < x) :=
  fun h' => not_le_of_lt h' h

/-- Away from NaN the order is total. -/
theorem lt_of_not_le {x y : F64} (hx : x ≠ nan) (hy : y ≠ nan) (h : ¬ (x ≤ y)) : y < x := by
  cases x with
  | nan => exact absurd rfl hx
  | inf s =>
    cases y with
    | nan => exact absurd rfl hy
    | inf t =>
      have h1 : ¬ (s = true ∨ t = false) := h
      show t = true ∧ s = false
      cases s <;> cases t <;> simp_all
    | fin b =>
      have h1 : ¬ (s = true) := h
      show s = false
      cases s <;> simp_all
  | fin a =>
    cases y with
    | nan => exact absurd rfl hy
    | inf t =>
      have h1 : ¬ (t = false) := h
      show t = true
      cases t <;> simp_all
    | fin b =>
      have h1 : ¬ (a ≤ b) := h
      show b < a
      exact not_le.mp h1

theorem le_of_not_lt {x y : F64} (hx : x ≠ nan) (hy : y ≠ nan) (h : ¬ (x < y)) : y ≤ x := by
  cases x with
  | nan => exact absurd rfl hx
  | inf s =>
    cases y with
    | nan => exact absurd rfl hy
    | inf t =>
      have h1 : ¬ (s = true ∧ t = false) := h
      show t = true ∨ s = false
      cases s <;> cases t <;> simp_all
    | fin b =>
      have h1 : ¬ (s = true) := h
      show s = false
      cases s <;> simp_all
  | fin a =>
    cases y with
    | nan => exact absurd rfl hy
    | inf t =>
      have h1 : ¬ (t = false) := h
      show t = true
      cases t <;> simp_all
    | fin b =>
      have h1 : ¬ (a < b) := h
      show b ≤ a
      exact not_lt.mp h1

theorem add_fin (a b : ℚ) : fin a + fin b = rnd (a + b) := rfl

theorem mul_fin (a b : ℚ) : fin a * fin b = rnd (a * b) := rfl

theorem sub_fin (a b : ℚ) : fin a - fin b = rnd (a + -b) := rfl

theorem div_fin (a b : ℚ) (hb : b ≠ 0) : fin a / fin b = rnd (a / b) := by
  show div (fin a) (fin b) = rnd (a / b)
  simp only [div, if_neg hb]

theorem round_fin (a : ℚ) : F64.round (fin a) = fin (mathRound a) := rfl

theorem nan_mul (x : F64) : nan * x = nan := by
  cases x <;> rfl

theorem nan_add (x : F64) : nan + x = nan := by
  cases x <;> rfl

theorem add_nan (x : F64) : x + nan = nan := by
  cases x <;> rfl

theorem mul_nan (x : F64) : x * nan = nan := by
  cases x <;> rfl

theorem nan_div (x : F64) : nan / x = nan := by
  cases x <;> rfl

theorem sub_nan (x : F64) : x - nan = nan := by
  cases x <;> rfl

end F64

/-! ## Helper lemmas: the two fee functions -/

theorem weight_guard_false {weight : F64} (h0 : F64.fin 0 < weight) (h50 : weight ≤ F64.fin 50) :
    ¬(weight ≤ F64.fin 0 ∨ weight > F64.fin 50) := by
  rintro (h | h)
  · exact F64.not_le_of_lt h0 h
  · exact F64.not_lt_of_le h50 h

/-- A weight that is a number and passes the guard lies in `(0, 50]`. -/
theorem valid_of_guard_false {weight : F64} (hn : weight ≠ F64.nan)
    (h : ¬(weight ≤ F64.fin 0 ∨ weight > F64.fin 50)) :
    F64.fin 0 < weight ∧ weight ≤ F64.fin 50 := by
  constructor
  · exact F64.lt_of_not_le hn (by intro h'; cases h') (fun hc => h (Or.inl hc))
  · exact F64.le_of_not_lt (by intro h'; cases h') hn (fun hc => h (Or.inr hc))

/-- Unfolding of `CalculateShippingFeeV2` once weight and zone are accepted. -/
theorem feeV2_of_guard (sc : ShippingCalculator) (weight : F64) (zone code : String) (b : F64)
    (hw : ¬(weight ≤ F64.fin 0 ∨ weight > F64.fin 50))
    (hb : zoneBaseFee sc weight zone = some b) :
    CalculateShippingFeeV2 sc weight zone code =
      match sc.volumeDiscounts code with
      | some discount => .ok (round2 (insuredFee sc weight b * (F64.fin 1 - discount)))
      | none =>
        if code ≠ "" then .error ("invalid discount code: " ++ code)
        else .ok (round2 (insuredFee sc weight b)) := by
  unfold zoneBaseFee at hb
  unfold CalculateShippingFeeV2
  rw [if_neg hw]
  by_cases hD : zone = "Domestic"
  · subst hD
    simp only [if_true] at hb
    cases hb
    simp only [if_true, insuredFee, round2]
  · by_cases hE : zone = "Express"
    · subst hE
      simp only [if_neg hD, if_true] at hb
      cases hb
      simp only [if_neg hD, if_true, insuredFee, round2]
    · by_cases hI : zone = "International"
      · subst hI
        simp only [if_neg hD, if_neg hE, if_true] at hb
        cases hr : sc.internationalRates "International" with
        | none => simp [hr] at hb
        | some r =>
          simp only [hr, Option.map_some'] at hb
          cases hb
          simp only [if_neg hD, if_neg hE, if_true, hr, insuredFee, round2]
      · simp [if_neg hD, if_neg hE, if_neg hI] at hb

theorem feeV2_of_base (sc : ShippingCalculator) (weight : F64) (zone code : String) (b : F64)
    (h0 : F64.fin 0 < weight) (h50 : weight ≤ F64.fin 50)
    (hb : zoneBaseFee sc weight zone = some b) :
    CalculateShippingFeeV2 sc weight zone code =
      match sc.volumeDiscounts code with
      | some discount => .ok (round2 (insuredFee sc weight b * (F64.fin 1 - discount)))
      | none =>
        if code ≠ "" then .error ("invalid discount code: " ++ code)
        else .ok (round2 (insuredFee sc weight b)) :=
  feeV2_of_guard sc weight zone code b (weight_guard_false h0 h50) hb

theorem feeV2_invalid_weight (sc : ShippingCalculator) (weight : F64) (zone code : String)
    (h : weight ≤ F64.fin 0 ∨ weight > F64.fin 50) :
    CalculateShippingFeeV2 sc weight zone code =
      .error "invalid weight: must be between 0 and 50 kg" := by
  unfold CalculateShippingFeeV2
  rw [if_pos h]

/-- With a weight that passes the guard and no base fee for the zone, the call
fails in the zone switch, before the discount code is looked at. -/
theorem feeV2_zone_error (sc : ShippingCalculator) (weight : F64) (zone code : String)
    (hw : ¬(weight ≤ F64.fin 0 ∨ weight > F64.fin 50))
    (hb : zoneBaseFee sc weight zone = none) :
    CalculateShippingFeeV2 sc weight zone code =
      .error (if zone = "International" then "shipping rate not available for zone: " ++ zone
        else "invalid zone: " ++ zone) := by
  unfold zoneBaseFee at hb
  unfold CalculateShippingFeeV2
  rw [if_neg hw]
  by_cases hD : zone = "Domestic"
  · rw [if_pos hD] at hb
    cases hb
  · by_cases hE : zone = "Express"
    · rw [if_neg hD, if_pos hE] at hb
      cases hb
    · by_cases hI : zone = "International"
      · subst hI
        simp only [if_neg hD, if_neg hE, if_true] at hb
        cases hr : sc.internationalRates "International" with
        | none => simp only [if_neg hD, if_neg hE, if_true, hr]
        | some r => simp [hr] at hb
      · simp only [if_neg hD, if_neg hE, if_neg hI]

theorem zoneBaseFee_isSome_iff (sc : ShippingCalculator) (weight : F64) (zone : String) :
    (∃ b, zoneBaseFee sc weight zone = some b) ↔
      (zone = "Domestic" ∨ zone = "Express" ∨
        (zone = "International" ∧ ∃ r, sc.internationalRates "International" = some r)) := by
  unfold zoneBaseFee
  by_cases hD : zone = "Domestic"
  · rw [if_pos hD]
    exact ⟨fun _ => Or.inl hD, fun _ => ⟨_, rfl⟩⟩
  · by_cases hE : zone = "Express"
    · rw [if_neg hD, if_pos hE]
      exact ⟨fun _ => Or.inr (Or.inl hE), fun _ => ⟨_, rfl⟩⟩
    · by_cases hI : zone = "International"
      · rw [if_neg hD, if_neg hE, if_pos hI]
        cases hr : sc.internationalRates "International" with
        | none =>
          constructor
          · rintro ⟨b, hb⟩
            cases hb
          · rintro (h | h | ⟨_, r, hr'⟩)
            · exact absurd h hD
            · exact absurd h hE
            · cases hr'
        | some r =>
          exact ⟨fun _ => Or.inr (Or.inr ⟨hI, r, rfl⟩), fun _ => ⟨_, rfl⟩⟩
      · rw [if_neg hD, if_neg hE, if_neg hI]
        constructor
        · rintro ⟨b, hb⟩
          cases hb
        · rintro (h | h | ⟨h, _⟩)
          · exact absurd h hD
          · exact absurd h hE
          · exact absurd h hI

/-- Every successful call passed the guard and went through all four steps. -/
theorem feeV2_ok_inv (sc : ShippingCalculator) (weight : F64) (zone code : String) (fee : F64)
    (h : CalculateShippingFeeV2 sc weight zone code = .ok fee) :
    ¬(weight ≤ F64.fin 0 ∨ weight > F64.fin 50) ∧ ∃ b, zoneBaseFee sc weight zone = some b ∧
      ((∃ d, sc.volumeDiscounts code = some d ∧
          fee = round2 (insuredFee sc weight b * (F64.fin 1 - d))) ∨
        (sc.volumeDiscounts code = none ∧ code = "" ∧ fee = round2 (insuredFee sc weight b))) := by
  by_cases hw : weight ≤ F64.fin 0 ∨ weight > F64.fin 50
  · rw [feeV2_invalid_weight sc weight zone code hw] at h
    cases h
  · refine ⟨hw, ?_⟩
    cases hb : zoneBaseFee sc weight zone with
    | none =>
      rw [feeV2_zone_error sc weight zone code hw hb] at h
      cases h
    | some b =>
      refine ⟨b, rfl, ?_⟩
      rw [feeV2_of_guard sc weight zone code b hw hb] at h
      cases hd : sc.volumeDiscounts code with
      | some d =>
        rw [hd] at h
        left
        refine ⟨d, rfl, ?_⟩
        injection h with h
        exact h.symm
      | none =>
        rw [hd] at h
        right
        by_cases hc : code = ""
        · refine ⟨rfl, hc, ?_⟩
          simp only [hc, ne_eq, not_true_eq_false, if_false] at h
          injection h with h
          exact h.symm
        · simp only [ne_eq, hc, not_false_eq_true, if_true] at h
          cases h

/-- Two configurations that agree on the scalar fields, on the discount
entry of the code and, for zone "International", on the rate entry
"International", give the same result. -/
theorem feeV2_congr (sc1 sc2 : ShippingCalculator) (weight : F64) (zone code : String)
    (h1 : sc1.domesticBaseRate = sc2.domesticBaseRate)
    (h2 : sc1.domesticPerKgRate = sc2.domesticPerKgRate)
    (h3 : sc1.expressBaseRate = sc2.expressBaseRate)
    (h4 : sc1.expressPerKgRate = sc2.expressPerKgRate)
    (h5 : sc1.insuranceThreshold = sc2.insuranceThreshold)
    (h6 : sc1.insuranceRate = sc2.insuranceRate)
    (hI : zone = "International" →
      sc1.internationalRates "International" = sc2.internationalRates "International")
    (hd : sc1.volumeDiscounts code = sc2.volumeDiscounts code) :
    CalculateShippingFeeV2 sc1 weight zone code = CalculateShippingFeeV2 sc2 weight zone code := by
  unfold CalculateShippingFeeV2
  rw [h1, h2, h3, h4, h5, h6, hd]
  by_cases hz : zone = "International"
  · subst hz
    rw [hI rfl]
  · simp only [if_neg hz]

/-- The scalar fields are never written after construction. -/
theorem reachable_scalars {sc : ShippingCalculator} (h : Reachable sc) :
    sc.domesticBaseRate = F64.fin 5 ∧ sc.domesticPerKgRate = F64.fin 1 ∧
    sc.expressBaseRate = F64.fin 30 ∧ sc.expressPerKgRate = F64.fin 5 ∧
    sc.insuranceThreshold = F64.fin 20 ∧ sc.insuranceRate = F64.rnd (1 / 20) := by
  induction h with
  | init => exact ⟨rfl, rfl, rfl, rfl, rfl, rfl⟩
  | setRate sc zone r _ ih => exact ih
  | addCode sc code p _ ih =>
    unfold AddDiscountCode
    split
    · exact ih
    · exact ih

theorem reachable_of_nonnegRates {sc : ShippingCalculator} (h : ReachableNonnegRates sc) :
    Reachable sc := by
  induction h with
  | init => exact Reachable.init
  | setRate sc zone r _ _ ih => exact Reachable.setRate sc zone r ih
  | addCode sc code p _ ih => exact Reachable.addCode sc code p ih

theorem nonnegRates_stored {sc : ShippingCalculator} (h : ReachableNonnegRates sc) :
    ∀ k r, sc.internationalRates k = some r → F64.fin 0 ≤ r := by
  induction h with
  | init =>
    intro k r hk
    simp [NewShippingCalculator] at hk
  | setRate sc zone r0 hr0 _ ih =>
    intro k r hk
    simp only [SetInternationalRate] at hk
    by_cases hkz : k = zone
    · rw [if_pos hkz] at hk
      cases hk
      exact hr0
    · rw [if_neg hkz] at hk
      exact ih k r hk
  | addCode sc code p _ ih =>
    intro k r hk
    unfold AddDiscountCode at hk
    split at hk
    · exact ih k r hk
    · exact ih k r hk

/-! ## Helper lemmas: the configuration after a mutator -/

theorem addDiscountCode_scalars (sc : ShippingCalculator) (code : String) (p : F64) :
    (AddDiscountCode sc code p).1.domesticBaseRate = sc.domesticBaseRate ∧
    (AddDiscountCode sc code p).1.domesticPerKgRate = sc.domesticPerKgRate ∧
    (AddDiscountCode sc code p).1.expressBaseRate = sc.expressBaseRate ∧
    (AddDiscountCode sc code p).1.expressPerKgRate = sc.expressPerKgRate ∧
    (AddDiscountCode sc code p).1.insuranceThreshold = sc.insuranceThreshold ∧
    (AddDiscountCode sc code p).1.insuranceRate = sc.insuranceRate ∧
    (AddDiscountCode sc code p).1.internationalRates = sc.internationalRates := by
  unfold AddDiscountCode
  split <;> exact ⟨rfl, rfl, rfl, rfl, rfl, rfl, rfl⟩

theorem addDiscountCode_accepted (sc : ShippingCalculator) (code : String) (p : F64)
    (hp : ¬(p ≤ F64.fin 0 ∨ p ≥ F64.fin 1)) :
    (AddDiscountCode sc code p).2 = none ∧
    (AddDiscountCode sc code p).1.volumeDiscounts code = some p ∧
    ∀ k, k ≠ code → (AddDiscountCode sc code p).1.volumeDiscounts k = sc.volumeDiscounts k := by
  unfold AddDiscountCode
  rw [if_neg hp]
  refine ⟨rfl, ?_, ?_⟩
  · simp only [if_true]
  · intro k hk
    simp only [if_neg hk]

theorem addDiscountCode_rejected (sc : ShippingCalculator) (code : String) (p : F64)
    (hp : p ≤ F64.fin 0 ∨ p ≥ F64.fin 1) :
    AddDiscountCode sc code p = (sc, some "discount percentage must be between 0 and 1") := by
  unfold AddDiscountCode
  rw [if_pos hp]

theorem zoneBaseFee_addDiscountCode (sc : ShippingCalculator) (code : String) (p : F64)
    (weight : F64) (zone : String) :
    zoneBaseFee (AddDiscountCode sc code p).1 weight zone = zoneBaseFee sc weight zone := by
  obtain ⟨h1, h2, h3, h4, -, -, h7⟩ := addDiscountCode_scalars sc code p
  unfold zoneBaseFee
  rw [h1, h2, h3, h4, h7]

theorem insuredFee_addDiscountCode (sc : ShippingCalculator) (code : String) (p : F64)
    (weight b : F64) :
    insuredFee (AddDiscountCode sc code p).1 weight b = insuredFee sc weight b := by
  obtain ⟨-, -, -, -, h5, h6, -⟩ := addDiscountCode_scalars sc code p
  unfold insuredFee
  rw [h5, h6]

/-! ## Helper lemmas: evaluating a call step by step -/

/-- A call with a registered discount code, one binary64 operation at a time:
the result is the binary64 nearest to `n / 100`, `n` the rounded number of
cents. -/
theorem feeV2_steps_discount (sc : ShippingCalculator) (weight : F64) (zone code : String)
    (b ins d m x : F64) (y n : ℚ)
    (hw : ¬(weight ≤ F64.fin 0 ∨ weight > F64.fin 50))
    (hb : zoneBaseFee sc weight zone = some b) (hins : insuredFee sc weight b = ins)
    (hd : sc.volumeDiscounts code = some d) (hm : F64.fin 1 - d = m) (hx : ins * m = x)
    (hy : x * F64.fin 100 = F64.fin y) (hn : mathRound y = n) :
    CalculateShippingFeeV2 sc weight zone code = .ok (F64.rnd (n / 100)) := by
  rw [feeV2_of_guard sc weight zone code b hw hb, hd]
  simp only [round2, hins, hm, hx, hy, F64.round_fin, hn]
  rw [F64.div_fin _ _ (by norm_num)]

/-- A call with the empty code, not registered, one binary64 operation at a
time. -/
theorem feeV2_steps_plain (sc : ShippingCalculator) (weight : F64) (zone : String)
    (b ins : F64) (y n : ℚ)
    (hw : ¬(weight ≤ F64.fin 0 ∨ weight > F64.fin 50))
    (hb : zoneBaseFee sc weight zone = some b) (hins : insuredFee sc weight b = ins)
    (hd : sc.volumeDiscounts "" = none)
    (hy : ins * F64.fin 100 = F64.fin y) (hn : mathRound y = n) :
    CalculateShippingFeeV2 sc weight zone "" = .ok (F64.rnd (n / 100)) := by
  rw [feeV2_of_guard sc weight zone "" b hw hb, hd]
  simp only [ne_eq, not_true_eq_false, if_false, round2, hins, hy, F64.round_fin, hn]
  rw [F64.div_fin _ _ (by norm_num)]

theorem mathRound_eval_nonneg (y r : ℚ) (n : ℤ)
    (h : 0 ≤ y ∧ (n : ℚ) ≤ y + 1 / 2 ∧ y + 1 / 2 < (n : ℚ) + 1 ∧ r = (n : ℚ)) :
    mathRound y = r := by
  obtain ⟨h0, h1, h2, hr⟩ := h
  unfold mathRound
  rw [if_pos h0, hr]
  have hfl : ⌊y + 1 / 2⌋ = n := by
    rw [Int.floor_eq_iff]
    exact ⟨h1, h2⟩
  rw [hfl]

theorem mathRound_eval_neg (y r : ℚ) (n : ℤ)
    (h : y < 0 ∧ (n : ℚ) ≤ -y + 1 / 2 ∧ -y + 1 / 2 < (n : ℚ) + 1 ∧ r = -(n : ℚ)) :
    mathRound y = r := by
  obtain ⟨h0, h1, h2, hr⟩ := h
  unfold mathRound
  rw [if_neg (not_le.mpr h0), hr]
  have hfl : ⌊-y + 1 / 2⌋ = n := by
    rw [Int.floor_eq_iff]
    exact ⟨h1, h2⟩
  rw [hfl]

theorem discount_guard_false_fin (p : ℚ) (h0 : 0 < p) (h1 : p < 1) :
    ¬(F64.fin p ≤ F64.fin 0 ∨ F64.fin p ≥ F64.fin 1) := by
  rintro (h | h)
  · exact absurd ((F64.fin_le_fin p 0).1 h) (not_le.mpr h0)
  · exact absurd ((F64.fin_le_fin 1 p).1 h) (not_le.mpr h1)

theorem guard_false_fin (w : ℚ) (h0 : 0 < w) (h50 : w ≤ 50) :
    ¬(F64.fin w ≤ F64.fin 0 ∨ F64.fin w > F64.fin 50) :=
  weight_guard_false ((F64.fin_lt_fin 0 w).2 h0) ((F64.fin_le_fin w 50).2 h50)

theorem zoneBaseFee_domestic (sc : ShippingCalculator) (weight : F64) :
    zoneBaseFee sc weight "Domestic" =
      some (sc.domesticBaseRate + weight * sc.domesticPerKgRate) := by
  unfold zoneBaseFee
  rw [if_pos rfl]

theorem zoneBaseFee_express (sc : ShippingCalculator) (weight : F64) :
    zoneBaseFee sc weight "Express" =
      some (sc.expressBaseRate + weight * sc.expressPerKgRate) := by
  unfold zoneBaseFee
  rw [if_neg (by decide), if_pos rfl]

theorem zoneBaseFee_international (sc : ShippingCalculator) (weight rate : F64)
    (h : sc.internationalRates "International" = some rate) :
    zoneBaseFee sc weight "International" = some (rate * weight) := by
  unfold zoneBaseFee
  rw [if_neg (by decide), if_neg (by decide), if_pos rfl, h]
  rfl

theorem insuredFee_above (sc : ShippingCalculator) (weight b : F64)
    (h : weight > sc.insuranceThreshold) :
    insuredFee sc weight b = b + b * sc.insuranceRate := by
  unfold insuredFee
  rw [if_pos h]

theorem insuredFee_not_above (sc : ShippingCalculator) (weight b : F64)
    (h : ¬ (weight > sc.insuranceThreshold)) : insuredFee sc weight b = b := by
  unfold insuredFee
  rw [if_neg h]

/-! ## The binary64 constants of the default configuration -/

theorem rnd_one_twentieth : F64.rnd (1 / 20) = F64.fin (3602879701896397 / 72057594037927936) :=
  F64.rnd_pos_eval _ (-5) 7205759403792794 _ (by norm_num)

theorem rnd_one_tenth : F64.rnd (1 / 10) = F64.fin (3602879701896397 / 36028797018963968) :=
  F64.rnd_pos_eval _ (-4) 7205759403792794 _ (by norm_num)

theorem rnd_one_fifth : F64.rnd (1 / 5) = F64.fin (3602879701896397 / 18014398509481984) :=
  F64.rnd_pos_eval _ (-3) 7205759403792794 _ (by norm_num)

theorem default_summer10 :
    NewShippingCalculator.volumeDiscounts "SUMMER10" =
      some (F64.fin (3602879701896397 / 36028797018963968)) := by
  show (if "SUMMER10" = "SUMMER10" then some (F64.rnd (1 / 10))
    else if "SUMMER10" = "BULK20" then some (F64.rnd (1 / 5)) else none) = _
  rw [if_pos rfl, rnd_one_tenth]

theorem default_bulk20 :
    NewShippingCalculator.volumeDiscounts "BULK20" =
      some (F64.fin (3602879701896397 / 18014398509481984)) := by
  show (if "BULK20" = "SUMMER10" then some (F64.rnd (1 / 10))
    else if "BULK20" = "BULK20" then some (F64.rnd (1 / 5)) else none) = _
  rw [if_neg (by decide), if_pos rfl, rnd_one_fifth]

theorem default_no_empty_code : NewShippingCalculator.volumeDiscounts "" = none := by
  show (if "" = "SUMMER10" then some (F64.rnd (1 / 10))
    else if "" = "BULK20" then some (F64.rnd (1 / 5)) else none) = _
  rw [if_neg (by decide), if_neg (by decide)]

/-! ## Helper lemmas: rounding is monotone and idempotent -/

namespace F64

theorem roundHalfEven_floor_or (x : ℚ) :
    roundHalfEven x = ⌊x⌋ ∨ roundHalfEven x = ⌊x⌋ + 1 := by
  unfold roundHalfEven
  split_ifs <;> simp

theorem roundHalfEven_mono {x y : ℚ} (h : x ≤ y) : roundHalfEven x ≤ roundHalfEven y := by
  have hfl : ⌊x⌋ ≤ ⌊y⌋ := Int.floor_mono h
  rcases lt_or_eq_of_le hfl with hlt | heq
  · have h1 : roundHalfEven x ≤ ⌊x⌋ + 1 := by
      rcases roundHalfEven_floor_or x with h | h <;> omega
    have h2 : ⌊y⌋ ≤ roundHalfEven y := by
      rcases roundHalfEven_floor_or y with h | h <;> omega
    omega
  · unfold roundHalfEven
    rw [← heq]
    split_ifs <;> first | omega | (exfalso; linarith)

theorem roundHalfEven_intCast (n : ℤ) : roundHalfEven (n : ℚ) = n :=
  roundHalfEven_of_near _ _ (by simp)

theorem le_roundHalfEven {n : ℤ} {x : ℚ} (h : (n : ℚ) ≤ x) : n ≤ roundHalfEven x := by
  have h1 := roundHalfEven_mono h
  rwa [roundHalfEven_intCast] at h1

theorem roundHalfEven_le {n : ℤ} {x : ℚ} (h : x ≤ (n : ℚ)) : roundHalfEven x ≤ n := by
  have h1 := roundHalfEven_mono h
  rwa [roundHalfEven_intCast] at h1

theorem expo_ge (q : ℚ) : -1022 ≤ expo q := le_max_right _ _

theorem ulp_pos (q : ℚ) : 0 < ulp q := by
  unfold ulp
  positivity

theorem lt_pow_expo_succ {q : ℚ} (hq : 0 < q) : q < (2 : ℚ) ^ (expo q + 1) := by
  have h1 : q < ((2 : ℕ) : ℚ) ^ (Int.log 2 q + 1) := Int.lt_zpow_succ_log_self (by norm_num) q
  have h2 : ((2 : ℕ) : ℚ) ^ (Int.log 2 q + 1) ≤ ((2 : ℕ) : ℚ) ^ (expo q + 1) := by
    apply zpow_le_zpow_right₀ (by norm_num)
    unfold expo
    rw [abs_of_pos hq]
    have := le_max_left (Int.log 2 q) (-1022)
    omega
  have h3 := lt_of_lt_of_le h1 h2
  exact_mod_cast h3

theorem pow_expo_le {q : ℚ} (hq : 0 < q) (he : -1022 < expo q) : (2 : ℚ) ^ expo q ≤ q := by
  have hlog : expo q = Int.log 2 q := by
    unfold expo at he ⊢
    rw [abs_of_pos hq] at he ⊢
    rcases max_cases (Int.log 2 q) (-1022) with ⟨h1, _⟩ | ⟨h1, _⟩
    · exact h1
    · rw [h1] at he
      exact absurd he (lt_irrefl _)
  rw [hlog]
  have h1 : ((2 : ℕ) : ℚ) ^ Int.log 2 q ≤ q := Int.zpow_log_le_self (by norm_num) hq
  exact_mod_cast h1

theorem expo_mono {q1 q2 : ℚ} (h1 : 0 < q1) (h12 : q1 ≤ q2) : expo q1 ≤ expo q2 := by
  unfold expo
  rw [abs_of_pos h1, abs_of_pos (lt_of_lt_of_le h1 h12)]
  exact max_le_max (Int.log_mono_right h1 h12) (le_refl _)

theorem pow53_mul_ulp (q : ℚ) : (2 : ℚ) ^ (53 : ℕ) * ulp q = (2 : ℚ) ^ (expo q + 1) := by
  unfold ulp
  rw [← zpow_natCast, ← zpow_add₀ (by norm_num)]
  congr 1
  push_cast
  ring

theorem pow52_mul_ulp (q : ℚ) : (2 : ℚ) ^ (52 : ℕ) * ulp q = (2 : ℚ) ^ expo q := by
  unfold ulp
  rw [← zpow_natCast, ← zpow_add₀ (by norm_num)]
  congr 1
  push_cast
  ring

theorem roundToUlp_zero : roundToUlp 0 = 0 := by
  unfold roundToUlp
  rw [zero_div]
  have h : roundHalfEven 0 = 0 := by
    have := roundHalfEven_intCast 0
    simpa using this
  rw [h]
  simp

theorem roundToUlp_nonneg {q : ℚ} (hq : 0 ≤ q) : 0 ≤ roundToUlp q := by
  unfold roundToUlp
  have hx : ((0 : ℤ) : ℚ) ≤ q / ulp q := by
    push_cast
    exact div_nonneg hq (le_of_lt (ulp_pos q))
  have h1 : (0 : ℤ) ≤ roundHalfEven (q / ulp q) := le_roundHalfEven hx
  have h2 : (0 : ℚ) ≤ (roundHalfEven (q / ulp q) : ℚ) := by exact_mod_cast h1
  exact mul_nonneg h2 (le_of_lt (ulp_pos q))

theorem roundToUlp_le_pow {q : ℚ} (hq : 0 < q) : roundToUlp q ≤ (2 : ℚ) ^ (expo q + 1) := by
  unfold roundToUlp
  have hu := ulp_pos q
  have h53 : (((2 : ℤ) ^ (53 : ℕ) : ℤ) : ℚ) = (2 : ℚ) ^ (53 : ℕ) := by norm_num
  have hx : q / ulp q ≤ (((2 : ℤ) ^ (53 : ℕ) : ℤ) : ℚ) := by
    rw [h53, div_le_iff₀ hu, pow53_mul_ulp]
    exact le_of_lt (lt_pow_expo_succ hq)
  have h1 : roundHalfEven (q / ulp q) ≤ (2 : ℤ) ^ (53 : ℕ) := roundHalfEven_le hx
  have h2 : (roundHalfEven (q / ulp q) : ℚ) ≤ (2 : ℚ) ^ (53 : ℕ) := by exact_mod_cast h1
  calc (roundHalfEven (q / ulp q) : ℚ) * ulp q ≤ (2 : ℚ) ^ (53 : ℕ) * ulp q :=
        mul_le_mul_of_nonneg_right h2 (le_of_lt hu)
    _ = (2 : ℚ) ^ (expo q + 1) := pow53_mul_ulp q

theorem pow_le_roundToUlp {q : ℚ} (hq : 0 < q) (he : -1022 < expo q) :
    (2 : ℚ) ^ expo q ≤ roundToUlp q := by
  unfold roundToUlp
  have hu := ulp_pos q
  have h52 : (((2 : ℤ) ^ (52 : ℕ) : ℤ) : ℚ) = (2 : ℚ) ^ (52 : ℕ) := by norm_num
  have hx : (((2 : ℤ) ^ (52 : ℕ) : ℤ) : ℚ) ≤ q / ulp q := by
    rw [h52, le_div_iff₀ hu, pow52_mul_ulp]
    exact pow_expo_le hq he
  have h1 : (2 : ℤ) ^ (52 : ℕ) ≤ roundHalfEven (q / ulp q) := le_roundHalfEven hx
  have h2 : (2 : ℚ) ^ (52 : ℕ) ≤ (roundHalfEven (q / ulp q) : ℚ) := by exact_mod_cast h1
  calc (2 : ℚ) ^ expo q = (2 : ℚ) ^ (52 : ℕ) * ulp q := (pow52_mul_ulp q).symm
    _ ≤ (roundHalfEven (q / ulp q) : ℚ) * ulp q := mul_le_mul_of_nonneg_right h2 (le_of_lt hu)

theorem roundToUlp_mono_pos {q1 q2 : ℚ} (h1 : 0 < q1) (h12 : q1 ≤ q2) :
    roundToUlp q1 ≤ roundToUlp q2 := by
  have h2 : 0 < q2 := lt_of_lt_of_le h1 h12
  rcases lt_or_eq_of_le (expo_mono h1 h12) with hlt | heq
  · have ha := roundToUlp_le_pow h1
    have hb := pow_le_roundToUlp h2 (lt_of_le_of_lt (expo_ge q1) hlt)
    have hc : (2 : ℚ) ^ (expo q1 + 1) ≤ (2 : ℚ) ^ expo q2 :=
      zpow_le_zpow_right₀ (by norm_num) (by omega)
    linarith
  · have hu : ulp q1 = ulp q2 := by
      unfold ulp
      rw [heq]
    unfold roundToUlp
    rw [hu]
    have hpos := ulp_pos q2
    have hx : q1 / ulp q2 ≤ q2 / ulp q2 := div_le_div_of_nonneg_right h12 (le_of_lt hpos)
    have hn : (roundHalfEven (q1 / ulp q2) : ℚ) ≤ (roundHalfEven (q2 / ulp q2) : ℚ) := by
      exact_mod_cast roundHalfEven_mono hx
    exact mul_le_mul_of_nonneg_right hn (le_of_lt hpos)

theorem roundToUlp_mono {q1 q2 : ℚ} (h1 : 0 ≤ q1) (h12 : q1 ≤ q2) :
    roundToUlp q1 ≤ roundToUlp q2 := by
  rcases lt_or_eq_of_le h1 with hpos | hzero
  · exact roundToUlp_mono_pos hpos h12
  · rw [← hzero, roundToUlp_zero]
    exact roundToUlp_nonneg (le_trans h1 h12)

theorem expo_pow (k : ℤ) (hk : -1022 ≤ k) : expo ((2 : ℚ) ^ k) = k := by
  unfold expo
  rw [abs_of_pos (by positivity)]
  have h : Int.log 2 (((2 : ℕ) : ℚ) ^ k) = k := Int.log_zpow (by norm_num) k
  have h' : Int.log 2 ((2 : ℚ) ^ k) = k := by exact_mod_cast h
  rw [h', max_eq_left hk]

theorem roundToUlp_pow (k : ℤ) (hk : -1022 ≤ k) : roundToUlp ((2 : ℚ) ^ k) = (2 : ℚ) ^ k := by
  have hu := ulp_pos ((2 : ℚ) ^ k)
  have h52 := pow52_mul_ulp ((2 : ℚ) ^ k)
  rw [expo_pow k hk] at h52
  have hc : (((2 : ℤ) ^ (52 : ℕ) : ℤ) : ℚ) = (2 : ℚ) ^ (52 : ℕ) := by norm_num
  have hx : (2 : ℚ) ^ k / ulp ((2 : ℚ) ^ k) = (((2 : ℤ) ^ (52 : ℕ) : ℤ) : ℚ) := by
    rw [hc, div_eq_iff (ne_of_gt hu)]
    exact h52.symm
  unfold roundToUlp
  rw [hx, roundHalfEven_intCast, hc]
  exact h52

theorem roundToUlp_le_of_le_pow {q : ℚ} {k : ℤ} (h0 : 0 ≤ q) (hq : q ≤ (2 : ℚ) ^ k)
    (hk : -1022 ≤ k) : roundToUlp q ≤ (2 : ℚ) ^ k := by
  have h := roundToUlp_mono h0 hq
  rwa [roundToUlp_pow k hk] at h

/-- No overflow for a non-negative number up to `2^k`, `k ≤ 1023`. -/
theorem rnd_of_bounded {q : ℚ} {k : ℕ} (h0 : 0 ≤ q) (hq : q ≤ (2 : ℚ) ^ k) (hk : k ≤ 1023) :
    rnd q = fin (roundToUlp q) := by
  have hq' : q ≤ (2 : ℚ) ^ (k : ℤ) := by rwa [zpow_natCast]
  have hr := roundToUlp_le_of_le_pow h0 hq' (by omega)
  have hr0 := roundToUlp_nonneg h0
  unfold rnd
  rw [if_neg]
  rw [not_le, abs_of_nonneg hr0]
  calc roundToUlp q ≤ (2 : ℚ) ^ (k : ℤ) := hr
    _ ≤ (2 : ℚ) ^ ((1023 : ℕ) : ℤ) := zpow_le_zpow_right₀ (by norm_num) (by exact_mod_cast hk)
    _ = (2 : ℚ) ^ (1023 : ℕ) := zpow_natCast _ _
    _ < (2 : ℚ) ^ (1024 : ℕ) := pow_lt_pow_right₀ (by norm_num) (by norm_num)

theorem roundToUlp_idem {q : ℚ} (hq : 0 ≤ q) : roundToUlp (roundToUlp q) = roundToUlp q := by
  rcases lt_or_eq_of_le (roundToUlp_nonneg hq) with hrpos | hrzero
  · have hqpos : 0 < q := by
      rcases lt_or_eq_of_le hq with h | h
      · exact h
      · rw [← h, roundToUlp_zero] at hrpos
        exact absurd hrpos (lt_irrefl _)
    have hle := roundToUlp_le_pow hqpos
    -- the exponent of the result is that of `q`, or one more
    by_cases hE : expo (roundToUlp q) ≤ expo q
    · -- the result is a whole multiple of its own unit
      obtain ⟨j, hj⟩ : ∃ j : ℕ, expo q = expo (roundToUlp q) + j :=
        ⟨(expo q - expo (roundToUlp q)).toNat, by omega⟩
      have hu : ulp q = (2 : ℚ) ^ j * ulp (roundToUlp q) := by
        unfold ulp
        rw [hj, ← zpow_natCast, ← zpow_add₀ (by norm_num)]
        congr 1
        ring
      have hr : roundToUlp q = (roundHalfEven (q / ulp q) : ℚ) * ulp q := rfl
      generalize roundHalfEven (q / ulp q) = n at hr
      generalize roundToUlp q = r at hr hu
      have hupos := ulp_pos r
      have hxx : r / ulp r = ((n * (2 : ℤ) ^ j : ℤ) : ℚ) := by
        rw [div_eq_iff (ne_of_gt hupos)]
        push_cast
        calc r = (n : ℚ) * ulp q := hr
          _ = (n : ℚ) * ((2 : ℚ) ^ j * ulp r) := by rw [hu]
          _ = (n : ℚ) * (2 : ℚ) ^ j * ulp r := by ring
      have hgoal : roundToUlp r = (roundHalfEven (r / ulp r) : ℚ) * ulp r := rfl
      rw [hgoal, hxx, roundHalfEven_intCast, ← hxx]
      exact div_mul_cancel₀ _ (ne_of_gt hupos)
    · have hE' : expo q < expo (roundToUlp q) := not_le.mp hE
      have hlow := pow_expo_le hrpos (lt_of_le_of_lt (expo_ge q) hE')
      have hup : (2 : ℚ) ^ (expo q + 1) ≤ (2 : ℚ) ^ expo (roundToUlp q) :=
        zpow_le_zpow_right₀ (by norm_num) (by omega)
      have heq : roundToUlp q = (2 : ℚ) ^ expo (roundToUlp q) := by linarith
      have hpow := roundToUlp_pow (expo (roundToUlp q)) (expo_ge _)
      rw [← heq] at hpow
      exact hpow
  · rw [← hrzero, roundToUlp_zero]

end F64

/-! ## Helper lemmas: rounding `math.Round` -/

theorem mathRound_mono {x y : ℚ} (h : x ≤ y) : mathRound x ≤ mathRound y := by
  unfold mathRound
  by_cases hx : 0 ≤ x
  · have hy : 0 ≤ y := le_trans hx h
    rw [if_pos hx, if_pos hy]
    have hfl : ⌊x + 1 / 2⌋ ≤ ⌊y + 1 / 2⌋ := Int.floor_mono (by linarith)
    exact_mod_cast hfl
  · have hx' : x < 0 := not_le.mp hx
    by_cases hy : 0 ≤ y
    · rw [if_neg hx, if_pos hy]
      have h1 : (0 : ℤ) ≤ ⌊-x + 1 / 2⌋ := Int.floor_nonneg.mpr (by linarith)
      have h2 : (0 : ℤ) ≤ ⌊y + 1 / 2⌋ := Int.floor_nonneg.mpr (by linarith)
      have h1' : (0 : ℚ) ≤ ((⌊-x + 1 / 2⌋ : ℤ) : ℚ) := by exact_mod_cast h1
      have h2' : (0 : ℚ) ≤ ((⌊y + 1 / 2⌋ : ℤ) : ℚ) := by exact_mod_cast h2
      linarith
    · rw [if_neg hx, if_neg hy]
      have hfl : ⌊-y + 1 / 2⌋ ≤ ⌊-x + 1 / 2⌋ := Int.floor_mono (by linarith)
      have hfl' : ((⌊-y + 1 / 2⌋ : ℤ) : ℚ) ≤ ((⌊-x + 1 / 2⌋ : ℤ) : ℚ) := by exact_mod_cast hfl
      linarith

theorem mathRound_isInt (x : ℚ) : ∃ n : ℤ, mathRound x = (n : ℚ) := by
  unfold mathRound
  by_cases hx : 0 ≤ x
  · exact ⟨⌊x + 1 / 2⌋, by rw [if_pos hx]⟩
  · exact ⟨-⌊-x + 1 / 2⌋, by rw [if_neg hx]; push_cast; rfl⟩

theorem mathRound_abs_sub_le (x : ℚ) : |mathRound x - x| ≤ 1 / 2 := by
  unfold mathRound
  by_cases hx : 0 ≤ x
  · rw [if_pos hx, abs_le]
    have h1 := Int.floor_le (x + 1 / 2)
    have h2 := Int.lt_floor_add_one (x + 1 / 2)
    constructor <;> linarith
  · rw [if_neg hx, abs_le]
    have h1 := Int.floor_le (-x + 1 / 2)
    have h2 := Int.lt_floor_add_one (-x + 1 / 2)
    constructor <;> linarith

theorem mathRound_half (x : ℚ) (k : ℤ) (hk : x = (k : ℚ) + 1 / 2) :
    |mathRound x| = |x| + 1 / 2 := by
  unfold mathRound
  by_cases hx : 0 ≤ x
  · rw [if_pos hx]
    have hfl : ⌊x + 1 / 2⌋ = k + 1 := by
      rw [Int.floor_eq_iff]
      push_cast
      constructor <;> linarith
    rw [hfl, abs_of_nonneg hx]
    push_cast
    rw [abs_of_nonneg (by linarith)]
    linarith
  · have hx' : x < 0 := not_le.mp hx
    rw [if_neg hx]
    have hfl : ⌊-x + 1 / 2⌋ = -k := by
      rw [Int.floor_eq_iff]
      push_cast
      constructor <;> linarith
    rw [hfl, abs_of_neg hx']
    push_cast
    rw [neg_neg]
    have hk1 : (k : ℚ) < 0 := by linarith
    rw [abs_of_neg hk1]
    linarith

theorem mathRound_nonneg {x : ℚ} (hx : 0 ≤ x) : 0 ≤ mathRound x := by
  unfold mathRound
  rw [if_pos hx]
  have h1 : (0 : ℤ) ≤ ⌊x + 1 / 2⌋ := Int.floor_nonneg.mpr (by linarith)
  exact_mod_cast h1

theorem mathRound_le_add_half {x : ℚ} (hx : 0 ≤ x) : mathRound x ≤ x + 1 / 2 := by
  unfold mathRound
  rw [if_pos hx]
  exact Int.floor_le (x + 1 / 2)

/-! ## Helper lemmas: bounded and non-negative binary64 values -/

namespace F64

theorem roundToUlp_le_npow {q : ℚ} {k : ℕ} (h0 : 0 ≤ q) (hq : q ≤ (2 : ℚ) ^ k) :
    roundToUlp q ≤ (2 : ℚ) ^ k := by
  have hq' : q ≤ (2 : ℚ) ^ (k : ℤ) := by rwa [zpow_natCast]
  have h := roundToUlp_le_of_le_pow h0 hq' (by omega)
  rwa [zpow_natCast] at h

theorem BoundedLe.le {k : ℕ} {x y : F64} (h : BoundedLe k x y) : x ≤ y := by
  obtain ⟨a, b, rfl, rfl, -, hab, -⟩ := h
  exact (fin_le_fin a b).2 hab

theorem boundedLe_refl (a : ℚ) (k : ℕ) (h0 : 0 ≤ a) (hk : a ≤ (2 : ℚ) ^ k) :
    BoundedLe k (fin a) (fin a) :=
  ⟨a, a, rfl, rfl, h0, le_refl a, hk⟩

theorem BoundedLe.weaken {k j : ℕ} {x y : F64} (hkj : k ≤ j) (h : BoundedLe k x y) :
    BoundedLe j x y := by
  obtain ⟨a, b, hx, hy, ha, hab, hb⟩ := h
  exact ⟨a, b, hx, hy, ha, hab, le_trans hb (pow_le_pow_right₀ (by norm_num) hkj)⟩

theorem BoundedLe.left {k : ℕ} {x y : F64} (h : BoundedLe k x y) : BoundedLe k x x := by
  obtain ⟨a, b, hx, -, ha, hab, hb⟩ := h
  exact ⟨a, a, hx, hx, ha, le_refl a, le_trans hab hb⟩

theorem BoundedLe.right {k : ℕ} {x y : F64} (h : BoundedLe k x y) : BoundedLe k y y := by
  obtain ⟨a, b, -, hy, ha, hab, hb⟩ := h
  exact ⟨b, b, hy, hy, le_trans ha hab, le_refl b, hb⟩

theorem BoundedLe.trans {k : ℕ} {x y z : F64} (h1 : BoundedLe k x y) (h2 : BoundedLe k y z) :
    BoundedLe k x z := by
  obtain ⟨a, b, hx, hy, ha, hab, -⟩ := h1
  obtain ⟨b', c, hy', hz, -, hbc, hc⟩ := h2
  rw [hy] at hy'
  injection hy' with hbb
  exact ⟨a, c, hx, hz, ha, le_trans hab (hbb ▸ hbc), hc⟩

theorem BoundedLe.add {k : ℕ} {x y u v : F64} (h1 : BoundedLe k x y) (h2 : BoundedLe k u v)
    (hk : k + 1 ≤ 1023) : BoundedLe (k + 1) (x + u) (y + v) := by
  obtain ⟨a, b, rfl, rfl, ha, hab, hb⟩ := h1
  obtain ⟨c, d, rfl, rfl, hc, hcd, hd⟩ := h2
  have hs2 : b + d ≤ (2 : ℚ) ^ (k + 1) := by rw [pow_succ]; linarith
  have hs1 : a + c ≤ (2 : ℚ) ^ (k + 1) := by linarith
  refine ⟨roundToUlp (a + c), roundToUlp (b + d), ?_, ?_, roundToUlp_nonneg (by linarith),
    roundToUlp_mono (by linarith) (by linarith), roundToUlp_le_npow (by linarith) hs2⟩
  · rw [add_fin]
    exact rnd_of_bounded (by linarith) hs1 hk
  · rw [add_fin]
    exact rnd_of_bounded (by linarith) hs2 hk

theorem BoundedLe.mul {k j : ℕ} {x y u v : F64} (h1 : BoundedLe k x y) (h2 : BoundedLe j u v)
    (hk : k + j ≤ 1023) : BoundedLe (k + j) (x * u) (y * v) := by
  obtain ⟨a, b, rfl, rfl, ha, hab, hb⟩ := h1
  obtain ⟨c, d, rfl, rfl, hc, hcd, hd⟩ := h2
  have hb0 : 0 ≤ b := le_trans ha hab
  have hd0 : 0 ≤ d := le_trans hc hcd
  have hs0 : 0 ≤ a * c := mul_nonneg ha hc
  have hs12 : a * c ≤ b * d := mul_le_mul hab hcd hc hb0
  have hs2 : b * d ≤ (2 : ℚ) ^ (k + j) := by
    rw [pow_add]
    exact mul_le_mul hb hd hd0 (by positivity)
  refine ⟨roundToUlp (a * c), roundToUlp (b * d), ?_, ?_, roundToUlp_nonneg hs0,
    roundToUlp_mono hs0 hs12, roundToUlp_le_npow (le_trans hs0 hs12) hs2⟩
  · rw [mul_fin]
    exact rnd_of_bounded hs0 (le_trans hs12 hs2) hk
  · rw [mul_fin]
    exact rnd_of_bounded (le_trans hs0 hs12) hs2 hk

theorem BoundedLe.round {k : ℕ} {x y : F64} (h : BoundedLe k x y) :
    BoundedLe (k + 1) (F64.round x) (F64.round y) := by
  obtain ⟨a, b, rfl, rfl, ha, hab, hb⟩ := h
  refine ⟨mathRound a, mathRound b, rfl, rfl, mathRound_nonneg ha, mathRound_mono hab, ?_⟩
  have h1 := mathRound_le_add_half (le_trans ha hab)
  have h2 : (1 : ℚ) ≤ (2 : ℚ) ^ k := one_le_pow₀ (by norm_num)
  rw [pow_succ]
  linarith

theorem BoundedLe.div100 {k : ℕ} {x y : F64} (h : BoundedLe k x y) (hk : k ≤ 1023) :
    BoundedLe k (x / fin 100) (y / fin 100) := by
  obtain ⟨a, b, rfl, rfl, ha, hab, hb⟩ := h
  have hb0 : 0 ≤ b := le_trans ha hab
  have hs0 : 0 ≤ a / 100 := div_nonneg ha (by norm_num)
  have hs12 : a / 100 ≤ b / 100 := div_le_div_of_nonneg_right hab (by norm_num)
  have hs2 : b / 100 ≤ (2 : ℚ) ^ k := by
    have : b / 100 ≤ b := div_le_self hb0 (by norm_num)
    linarith
  refine ⟨roundToUlp (a / 100), roundToUlp (b / 100), ?_, ?_, roundToUlp_nonneg hs0,
    roundToUlp_mono hs0 hs12, roundToUlp_le_npow (le_trans hs0 hs12) hs2⟩
  · rw [div_fin _ _ (by norm_num)]
    exact rnd_of_bounded hs0 (le_trans hs12 hs2) hk
  · rw [div_fin _ _ (by norm_num)]
    exact rnd_of_bounded (le_trans hs0 hs12) hs2 hk

theorem BoundedLe.fin_of_self {k : ℕ} {x : F64} (h : BoundedLe k x x) :
    ∃ a, x = fin a ∧ 0 ≤ a ∧ a ≤ (2 : ℚ) ^ k := by
  obtain ⟨a, b, hx, hy, ha, -, hb⟩ := h
  rw [hx] at hy
  injection hy with hab
  exact ⟨a, hx, ha, hab ▸ hb⟩

/-- Adding a non-negative amount to the sum `y + v`, itself the result of a
rounding, does not take it below `x ≤ y + v`. -/
theorem BoundedLe.add_right_of_sum {k : ℕ} {x y v t : F64} (h : BoundedLe k x (y + v))
    (hy : BoundedLe k y y) (hv : BoundedLe k v v) (ht : BoundedLe k t t) (hk : k + 1 ≤ 1023) :
    BoundedLe (k + 1) x (y + v + t) := by
  obtain ⟨b, rfl, hb, hbk⟩ := hy.fin_of_self
  obtain ⟨d, rfl, hd, hdk⟩ := hv.fin_of_self
  obtain ⟨c, rfl, hc, hck⟩ := ht.fin_of_self
  obtain ⟨a, s, rfl, hs, ha, has, hsk⟩ := h
  have hbd : b + d ≤ (2 : ℚ) ^ (k + 1) := by rw [pow_succ]; linarith
  have hsum : fin b + fin d = fin (roundToUlp (b + d)) := by
    rw [add_fin]
    exact rnd_of_bounded (by linarith) hbd hk
  rw [hsum] at hs
  injection hs with hs
  have hs0 : 0 ≤ s := le_trans ha has
  have hsc : s + c ≤ (2 : ℚ) ^ (k + 1) := by rw [pow_succ]; linarith
  have hidem : roundToUlp s = s := by
    rw [← hs]
    exact roundToUlp_idem (by linarith)
  refine ⟨a, roundToUlp (s + c), rfl, ?_, ha, ?_, roundToUlp_le_npow (by linarith) hsc⟩
  · rw [hsum, hs, add_fin]
    exact rnd_of_bounded (by linarith) hsc hk
  · calc a ≤ s := has
      _ = roundToUlp s := hidem.symm
      _ ≤ roundToUlp (s + c) := roundToUlp_mono hs0 (by linarith)

theorem Nonneg.zero_le {x : F64} (h : Nonneg x) : fin 0 ≤ x := by
  cases x with
  | nan => exact h
  | inf s => exact h
  | fin q => exact h

theorem nonneg_of_zero_le {x : F64} (h : fin 0 ≤ x) : Nonneg x := by
  cases x with
  | nan => exact h
  | inf s => exact h
  | fin q => exact h

theorem rnd_nonneg {q : ℚ} (hq : 0 ≤ q) : Nonneg (rnd q) := by
  unfold rnd
  split
  · show decide (q < 0) = false
    exact decide_eq_false (not_lt.mpr hq)
  · exact roundToUlp_nonneg hq

theorem Nonneg.add_nonneg {x y : F64} (hx : Nonneg x) (hy : Nonneg y) : Nonneg (x + y) := by
  cases x with
  | nan => exact absurd hx id
  | inf s =>
    have hs : s = false := hx
    subst hs
    cases y with
    | nan => exact absurd hy id
    | inf t =>
      have ht : t = false := hy
      subst ht
      show Nonneg (F64.add (inf false) (inf false))
      simp [F64.add, Nonneg]
    | fin b => exact rfl
  | fin a =>
    cases y with
    | nan => exact absurd hy id
    | inf t => exact hy
    | fin b =>
      have ha : 0 ≤ a := hx
      have hb : 0 ≤ b := hy
      rw [add_fin]
      exact rnd_nonneg (by linarith)

/-- The product of a non-negative value and a finite positive one. -/
theorem Nonneg.mul_pos {x : F64} {c : ℚ} (hx : Nonneg x) (hc : 0 < c) : Nonneg (x * fin c) := by
  cases x with
  | nan => exact absurd hx id
  | inf s =>
    have hs : s = false := hx
    subst hs
    show Nonneg (F64.mul (inf false) (fin c))
    simp [F64.mul, Nonneg, ne_of_gt hc, not_lt.mpr (le_of_lt hc)]
  | fin a =>
    have ha : 0 ≤ a := hx
    rw [mul_fin]
    exact rnd_nonneg (mul_nonneg ha (le_of_lt hc))

/-- The product of a finite non-negative value and a finite one. -/
theorem nonneg_fin_mul {a c : ℚ} (ha : 0 ≤ a) (hc : 0 ≤ c) : Nonneg (fin a * fin c) := by
  rw [mul_fin]
  exact rnd_nonneg (mul_nonneg ha hc)

theorem Nonneg.round_nonneg {x : F64} (hx : Nonneg x) : Nonneg (F64.round x) := by
  cases x with
  | nan => exact absurd hx id
  | inf s => exact hx
  | fin a => exact mathRound_nonneg hx

theorem Nonneg.div100_nonneg {x : F64} (hx : Nonneg x) : Nonneg (x / fin 100) := by
  cases x with
  | nan => exact absurd hx id
  | inf s =>
    have hs : s = false := hx
    subst hs
    show Nonneg (F64.div (inf false) (fin 100))
    simp [F64.div, Nonneg]
  | fin a =>
    have ha : 0 ≤ a := hx
    rw [div_fin _ _ (by norm_num)]
    exact rnd_nonneg (div_nonneg ha (by norm_num))

/-- A binary64 value strictly between 0 and 1 is at most `1 - 2^-53`, so
`1 - d` is computed exactly enough to stay positive. -/
theorem one_sub_pos (d : ℚ) (hf : IsFloat (fin d)) (h0 : 0 < d) (h1 : d < 1) :
    ∃ m, fin 1 - fin d = fin m ∧ 0 < m ∧ m ≤ 1 := by
  have hd1 : d ≤ (2 : ℚ) ^ (0 : ℕ) := by norm_num; exact le_of_lt h1
  have hq0 : 0 ≤ 1 + -d := by linarith
  have hq1 : 1 + -d ≤ (2 : ℚ) ^ (0 : ℕ) := by norm_num; exact le_of_lt h0
  have hsub : fin 1 - fin d = fin (roundToUlp (1 + -d)) := by
    rw [sub_fin]
    exact rnd_of_bounded hq0 hq1 (by norm_num)
  refine ⟨roundToUlp (1 + -d), hsub, ?_, ?_⟩
  · -- 1 - d ≥ 2^-53
    have hg : (2 : ℚ) ^ (-53 : ℤ) = 1 / 9007199254740992 := by norm_num
    have hgap : (1 : ℚ) / 9007199254740992 ≤ 1 + -d := by
      by_cases hhalf : d < 1 / 2
      · linarith
      · have hhalf' : (1 : ℚ) / 2 ≤ d := not_lt.mp hhalf
        have hfix : roundToUlp d = d := by
          have h := rnd_of_bounded (le_of_lt h0) hd1 (by norm_num)
          have hf' : rnd d = fin d := hf
          rw [hf'] at h
          injection h with h
          exact h.symm
        have hu : ulp d = 1 / 9007199254740992 := by
          have := ulp_eq_of_bounds (q := d) (e := -1) (by norm_num)
            (by rw [abs_of_pos h0]; norm_num; linarith)
            (by rw [abs_of_pos h0]; norm_num; exact h1)
          rw [this]
          norm_num
        have hd : roundToUlp d = (roundHalfEven (d / ulp d) : ℚ) * ulp d := rfl
        rw [hfix, hu] at hd
        generalize roundHalfEven (d / (1 / 9007199254740992)) = n at hd
        have hn : (n : ℚ) < ((9007199254740992 : ℤ) : ℚ) := by
          push_cast
          linarith
        have hn' : n < 9007199254740992 := by exact_mod_cast hn
        have hn'' : n ≤ 9007199254740991 := by omega
        have hn3 : (n : ℚ) ≤ 9007199254740991 := by exact_mod_cast hn''
        linarith
    have hmono := roundToUlp_mono (by norm_num : (0 : ℚ) ≤ 1 / 9007199254740992) hgap
    have hpow := roundToUlp_pow (-53) (by norm_num)
    rw [hg] at hpow
    rw [hpow] at hmono
    have hpos : (0 : ℚ) < 1 / 9007199254740992 := by norm_num
    linarith
  · have := roundToUlp_le_npow hq0 hq1
    simpa using this

end F64

/-! ## Evaluations: binary64 constants -/

theorem rnd_cents_750 : F64.rnd (750 / 100) = F64.fin (15 / 2) :=
  F64.rnd_pos_eval _ (2) 8444249301319680 _ (by norm_num)

theorem rnd_cents_1125 : F64.rnd (1125 / 100) = F64.fin (45 / 4) :=
  F64.rnd_pos_eval _ (3) 6333186975989760 _ (by norm_num)

theorem rnd_cents_1350 : F64.rnd (1350 / 100) = F64.fin (27 / 2) :=
  F64.rnd_pos_eval _ (3) 7599824371187712 _ (by norm_num)

theorem rnd_cents_1500 : F64.rnd (1500 / 100) = F64.fin 15 :=
  F64.rnd_pos_eval _ (3) 8444249301319680 _ (by norm_num)

theorem rnd_cents_2500 : F64.rnd (2500 / 100) = F64.fin 25 :=
  F64.rnd_pos_eval _ (4) 7036874417766400 _ (by norm_num)

theorem rnd_cents_3000 : F64.rnd (3000 / 100) = F64.fin 30 :=
  F64.rnd_pos_eval _ (4) 8444249301319680 _ (by norm_num)

theorem rnd_cents_3150 : F64.rnd (3150 / 100) = F64.fin (63 / 2) :=
  F64.rnd_pos_eval _ (4) 8866461766385664 _ (by norm_num)

theorem rnd_cents_1627 : F64.rnd (1627 / 100) = F64.fin (4579597871082373 / 281474976710656) :=
  F64.rnd_pos_eval _ (4) 4579597871082373 _ (by norm_num)

theorem rnd_cents_1628 : F64.rnd (1628 / 100) = F64.fin (572801577606185 / 35184372088832) :=
  F64.rnd_pos_eval _ (4) 4582412620849480 _ (by norm_num)

theorem rnd_cents_3517 : F64.rnd (3517 / 100) = F64.fin (2474868732728443 / 70368744177664) :=
  F64.rnd_pos_eval _ (5) 4949737465456886 _ (by norm_num)

theorem rnd_cents_3518 : F64.rnd (3518 / 100) = F64.fin (4951144840340439 / 140737488355328) :=
  F64.rnd_pos_eval _ (5) 4951144840340439 _ (by norm_num)

theorem rnd_cents_2929 : F64.rnd (2929 / 100) = F64.fin (4122201033927557 / 140737488355328) :=
  F64.rnd_pos_eval _ (4) 8244402067855114 _ (by norm_num)

theorem rnd_cents_2930 : F64.rnd (2930 / 100) = F64.fin (8247216817622221 / 281474976710656) :=
  F64.rnd_pos_eval _ (4) 8247216817622221 _ (by norm_num)

theorem rnd_cents_3349 : F64.rnd (3349 / 100) = F64.fin (4713298485019935 / 140737488355328) :=
  F64.rnd_pos_eval _ (5) 4713298485019935 _ (by norm_num)

theorem rnd_cents_3350 : F64.rnd (3350 / 100) = F64.fin (67 / 2) :=
  F64.rnd_pos_eval _ (5) 4714705859903488 _ (by norm_num)

theorem rnd_cents_8000 : F64.rnd (8000 / 100) = F64.fin 80 :=
  F64.rnd_pos_eval _ (6) 5629499534213120 _ (by norm_num)

theorem rnd_cents_5500 : F64.rnd (5500 / 100) = F64.fin 55 :=
  F64.rnd_pos_eval _ (5) 7740561859543040 _ (by norm_num)

theorem rnd_5001_hundredths : F64.rnd (5001 / 100) = F64.fin (7038281792649953 / 140737488355328) :=
  F64.rnd_pos_eval _ (5) 7038281792649953 _ (by norm_num)

theorem rnd_9999_tenthousandths : F64.rnd (9999 / 10000) =
    F64.fin (4503149267407759 / 4503599627370496) :=
  F64.rnd_pos_eval _ (-1) 9006298534815518 _ (by norm_num)

theorem rnd_105_hundredths : F64.rnd (105 / 100) = F64.fin (4728779608739021 / 4503599627370496) :=
  F64.rnd_pos_eval _ (0) 4728779608739021 _ (by norm_num)

/-! ## Evaluations: calls of `CalculateShippingFeeV2` -/

/-- Default configuration, (26, "Domestic", "SUMMER10"): 29.30. -/
theorem fee_default_26_summer10 :
    CalculateShippingFeeV2 NewShippingCalculator (F64.fin 26) "Domestic" "SUMMER10" =
      .ok (F64.rnd (2930 / 100)) := by
  have hperkg : F64.fin 26 * F64.fin 1 = F64.fin 26 := by
    rw [F64.mul_fin]
    exact F64.rnd_pos_eval _ (4) 7318349394477056 _ (by norm_num)
  have hbase : F64.fin 5 + F64.fin 26 = F64.fin 31 := by
    rw [F64.add_fin]
    exact F64.rnd_pos_eval _ (4) 8725724278030336 _ (by norm_num)
  have hsur : F64.fin 31 * F64.fin (3602879701896397 / 72057594037927936) =
      F64.fin (6980579422424269 / 4503599627370496) := by
    rw [F64.mul_fin]
    exact F64.rnd_pos_eval _ (0) 6980579422424269 _ (by norm_num)
  have hins : F64.fin 31 + F64.fin (6980579422424269 / 4503599627370496) =
      F64.fin (2290502622982963 / 70368744177664) := by
    rw [F64.add_fin]
    exact F64.rnd_pos_eval _ (5) 4581005245965926 _ (by norm_num)
  have hm : F64.fin 1 - F64.fin (3602879701896397 / 36028797018963968) =
      F64.fin (8106479329266893 / 9007199254740992) := by
    rw [F64.sub_fin]
    exact F64.rnd_pos_eval _ (-1) 8106479329266893 _ (by norm_num)
  have hx : F64.fin (2290502622982963 / 70368744177664) * F64.fin (8106479329266893 / 9007199254740992) =
      F64.fin (8245809442738667 / 281474976710656) := by
    rw [F64.mul_fin]
    exact F64.rnd_pos_eval _ (4) 8245809442738667 _ (by norm_num)
  have hy : F64.fin (8245809442738667 / 281474976710656) * F64.fin 100 = F64.fin (5859 / 2) := by
    rw [F64.mul_fin]
    exact F64.rnd_pos_eval _ (11) 6442038627139584 _ (by norm_num)
  have hround : mathRound (5859 / 2) = 2930 :=
    mathRound_eval_nonneg _ _ 2930 (by norm_num)
  exact feeV2_steps_discount NewShippingCalculator (F64.fin 26) "Domestic" "SUMMER10"
    (F64.fin 31) (F64.fin (2290502622982963 / 70368744177664)) (F64.fin (3602879701896397 / 36028797018963968)) (F64.fin (8106479329266893 / 9007199254740992)) (F64.fin (8245809442738667 / 281474976710656)) (5859 / 2) 2930
    (guard_false_fin 26 (by norm_num) (by norm_num))
    (by
    rw [zoneBaseFee_domestic]
    show some (F64.fin 5 + F64.fin 26 * F64.fin 1) = some (F64.fin 31)
    rw [hperkg, hbase])
    (by
    rw [insuredFee_above _ _ _ ((F64.fin_lt_fin 20 26).2 (by norm_num))]
    show F64.fin 31 + F64.fin 31 * F64.rnd (1 / 20) = F64.fin (2290502622982963 / 70368744177664)
    rw [rnd_one_twentieth, hsur, hins])
    default_summer10 hm hx hy hround

/-- Default configuration, (28.5, "Domestic", ""): 35.17. -/
theorem fee_default_28_5 :
    CalculateShippingFeeV2 NewShippingCalculator (F64.fin (57 / 2)) "Domestic" "" =
      .ok (F64.rnd (3517 / 100)) := by
  have hperkg : F64.fin (57 / 2) * F64.fin 1 = F64.fin (57 / 2) := by
    rw [F64.mul_fin]
    exact F64.rnd_pos_eval _ (4) 8022036836253696 _ (by norm_num)
  have hbase : F64.fin 5 + F64.fin (57 / 2) = F64.fin (67 / 2) := by
    rw [F64.add_fin]
    exact F64.rnd_pos_eval _ (5) 4714705859903488 _ (by norm_num)
  have hsur : F64.fin (67 / 2) * F64.fin (3602879701896397 / 72057594037927936) =
      F64.fin (7543529375845581 / 4503599627370496) := by
    rw [F64.mul_fin]
    exact F64.rnd_pos_eval _ (0) 7543529375845581 _ (by norm_num)
  have hins : F64.fin (67 / 2) + F64.fin (7543529375845581 / 4503599627370496) =
      F64.fin (2475220576449331 / 70368744177664) := by
    rw [F64.add_fin]
    exact F64.rnd_pos_eval _ (5) 4950441152898662 _ (by norm_num)
  have hy : F64.fin (2475220576449331 / 70368744177664) * F64.fin 100 =
      F64.fin (7735064301404159 / 2199023255552) := by
    rw [F64.mul_fin]
    exact F64.rnd_pos_eval _ (11) 7735064301404159 _ (by norm_num)
  have hround : mathRound (7735064301404159 / 2199023255552) = 3517 :=
    mathRound_eval_nonneg _ _ 3517 (by norm_num)
  exact feeV2_steps_plain NewShippingCalculator (F64.fin (57 / 2)) "Domestic"
    (F64.fin (67 / 2)) (F64.fin (2475220576449331 / 70368744177664)) (7735064301404159 / 2199023255552) 3517
    (guard_false_fin (57 / 2) (by norm_num) (by norm_num))
    (by
    rw [zoneBaseFee_domestic]
    show some (F64.fin 5 + F64.fin (57 / 2) * F64.fin 1) = some (F64.fin (67 / 2))
    rw [hperkg, hbase])
    (by
    rw [insuredFee_above _ _ _ ((F64.fin_lt_fin 20 (57 / 2)).2 (by norm_num))]
    show F64.fin (67 / 2) + F64.fin (67 / 2) * F64.rnd (1 / 20) =
        F64.fin (2475220576449331 / 70368744177664)
    rw [rnd_one_twentieth, hsur, hins])
    default_no_empty_code hy hround

/-- Default configuration, (25, "Domestic", ""): 31.5. -/
theorem fee_default_25 :
    CalculateShippingFeeV2 NewShippingCalculator (F64.fin 25) "Domestic" "" =
      .ok (F64.rnd (3150 / 100)) := by
  have hperkg : F64.fin 25 * F64.fin 1 = F64.fin 25 := by
    rw [F64.mul_fin]
    exact F64.rnd_pos_eval _ (4) 7036874417766400 _ (by norm_num)
  have hbase : F64.fin 5 + F64.fin 25 = F64.fin 30 := by
    rw [F64.add_fin]
    exact F64.rnd_pos_eval _ (4) 8444249301319680 _ (by norm_num)
  have hsur : F64.fin 30 * F64.fin (3602879701896397 / 72057594037927936) = F64.fin (3 / 2) := by
    rw [F64.mul_fin]
    exact F64.rnd_pos_eval _ (0) 6755399441055744 _ (by norm_num)
  have hins : F64.fin 30 + F64.fin (3 / 2) = F64.fin (63 / 2) := by
    rw [F64.add_fin]
    exact F64.rnd_pos_eval _ (4) 8866461766385664 _ (by norm_num)
  have hy : F64.fin (63 / 2) * F64.fin 100 = F64.fin 3150 := by
    rw [F64.mul_fin]
    exact F64.rnd_pos_eval _ (11) 6926923254988800 _ (by norm_num)
  have hround : mathRound 3150 = 3150 :=
    mathRound_eval_nonneg _ _ 3150 (by norm_num)
  exact feeV2_steps_plain NewShippingCalculator (F64.fin 25) "Domestic"
    (F64.fin 30) (F64.fin (63 / 2)) 3150 3150
    (guard_false_fin 25 (by norm_num) (by norm_num))
    (by
    rw [zoneBaseFee_domestic]
    show some (F64.fin 5 + F64.fin 25 * F64.fin 1) = some (F64.fin 30)
    rw [hperkg, hbase])
    (by
    rw [insuredFee_above _ _ _ ((F64.fin_lt_fin 20 25).2 (by norm_num))]
    show F64.fin 30 + F64.fin 30 * F64.rnd (1 / 20) = F64.fin (63 / 2)
    rw [rnd_one_twentieth, hsur, hins])
    default_no_empty_code hy hround

/-- Default configuration, (20, "Domestic", ""): 25. -/
theorem fee_default_20 :
    CalculateShippingFeeV2 NewShippingCalculator (F64.fin 20) "Domestic" "" =
      .ok (F64.rnd (2500 / 100)) := by
  have hperkg : F64.fin 20 * F64.fin 1 = F64.fin 20 := by
    rw [F64.mul_fin]
    exact F64.rnd_pos_eval _ (4) 5629499534213120 _ (by norm_num)
  have hbase : F64.fin 5 + F64.fin 20 = F64.fin 25 := by
    rw [F64.add_fin]
    exact F64.rnd_pos_eval _ (4) 7036874417766400 _ (by norm_num)
  have hy : F64.fin 25 * F64.fin 100 = F64.fin 2500 := by
    rw [F64.mul_fin]
    exact F64.rnd_pos_eval _ (11) 5497558138880000 _ (by norm_num)
  have hround : mathRound 2500 = 2500 :=
    mathRound_eval_nonneg _ _ 2500 (by norm_num)
  exact feeV2_steps_plain NewShippingCalculator (F64.fin 20) "Domestic"
    (F64.fin 25) (F64.fin 25) 2500 2500
    (guard_false_fin 20 (by norm_num) (by norm_num))
    (by
    rw [zoneBaseFee_domestic]
    show some (F64.fin 5 + F64.fin 20 * F64.fin 1) = some (F64.fin 25)
    rw [hperkg, hbase])
    (by
    rw [insuredFee_not_above _ _ _ (F64.not_lt_of_le ((F64.fin_le_fin 20 20).2 (by norm_num)))])
    default_no_empty_code hy hround

/-- Default configuration, (10, "Domestic", ""): 15. -/
theorem fee_default_10 :
    CalculateShippingFeeV2 NewShippingCalculator (F64.fin 10) "Domestic" "" =
      .ok (F64.rnd (1500 / 100)) := by
  have hperkg : F64.fin 10 * F64.fin 1 = F64.fin 10 := by
    rw [F64.mul_fin]
    exact F64.rnd_pos_eval _ (3) 5629499534213120 _ (by norm_num)
  have hbase : F64.fin 5 + F64.fin 10 = F64.fin 15 := by
    rw [F64.add_fin]
    exact F64.rnd_pos_eval _ (3) 8444249301319680 _ (by norm_num)
  have hy : F64.fin 15 * F64.fin 100 = F64.fin 1500 := by
    rw [F64.mul_fin]
    exact F64.rnd_pos_eval _ (10) 6597069766656000 _ (by norm_num)
  have hround : mathRound 1500 = 1500 :=
    mathRound_eval_nonneg _ _ 1500 (by norm_num)
  exact feeV2_steps_plain NewShippingCalculator (F64.fin 10) "Domestic"
    (F64.fin 15) (F64.fin 15) 1500 1500
    (guard_false_fin 10 (by norm_num) (by norm_num))
    (by
    rw [zoneBaseFee_domestic]
    show some (F64.fin 5 + F64.fin 10 * F64.fin 1) = some (F64.fin 15)
    rw [hperkg, hbase])
    (by
    rw [insuredFee_not_above _ _ _ (F64.not_lt_of_le ((F64.fin_le_fin 10 20).2 (by norm_num)))])
    default_no_empty_code hy hround

/-- Default configuration, (10, "Domestic", "SUMMER10"): 13.5. -/
theorem fee_default_10_summer10 :
    CalculateShippingFeeV2 NewShippingCalculator (F64.fin 10) "Domestic" "SUMMER10" =
      .ok (F64.rnd (1350 / 100)) := by
  have hperkg : F64.fin 10 * F64.fin 1 = F64.fin 10 := by
    rw [F64.mul_fin]
    exact F64.rnd_pos_eval _ (3) 5629499534213120 _ (by norm_num)
  have hbase : F64.fin 5 + F64.fin 10 = F64.fin 15 := by
    rw [F64.add_fin]
    exact F64.rnd_pos_eval _ (3) 8444249301319680 _ (by norm_num)
  have hm : F64.fin 1 - F64.fin (3602879701896397 / 36028797018963968) =
      F64.fin (8106479329266893 / 9007199254740992) := by
    rw [F64.sub_fin]
    exact F64.rnd_pos_eval _ (-1) 8106479329266893 _ (by norm_num)
  have hx : F64.fin 15 * F64.fin (8106479329266893 / 9007199254740992) = F64.fin (27 / 2) := by
    rw [F64.mul_fin]
    exact F64.rnd_pos_eval _ (3) 7599824371187712 _ (by norm_num)
  have hy : F64.fin (27 / 2) * F64.fin 100 = F64.fin 1350 := by
    rw [F64.mul_fin]
    exact F64.rnd_pos_eval _ (10) 5937362789990400 _ (by norm_num)
  have hround : mathRound 1350 = 1350 :=
    mathRound_eval_nonneg _ _ 1350 (by norm_num)
  exact feeV2_steps_discount NewShippingCalculator (F64.fin 10) "Domestic" "SUMMER10"
    (F64.fin 15) (F64.fin 15) (F64.fin (3602879701896397 / 36028797018963968)) (F64.fin (8106479329266893 / 9007199254740992)) (F64.fin (27 / 2)) 1350 1350
    (guard_false_fin 10 (by norm_num) (by norm_num))
    (by
    rw [zoneBaseFee_domestic]
    show some (F64.fin 5 + F64.fin 10 * F64.fin 1) = some (F64.fin 15)
    rw [hperkg, hbase])
    (by
    rw [insuredFee_not_above _ _ _ (F64.not_lt_of_le ((F64.fin_le_fin 10 20).2 (by norm_num)))])
    default_summer10 hm hx hy hround

/-- Default configuration, (34.875, "Domestic", "BULK20"): 33.49. -/
theorem fee_default_279_8_bulk20 :
    CalculateShippingFeeV2 NewShippingCalculator (F64.fin (279 / 8)) "Domestic" "BULK20" =
      .ok (F64.rnd (3349 / 100)) := by
  have hperkg : F64.fin (279 / 8) * F64.fin 1 = F64.fin (279 / 8) := by
    rw [F64.mul_fin]
    exact F64.rnd_pos_eval _ (5) 4908219906392064 _ (by norm_num)
  have hbase : F64.fin 5 + F64.fin (279 / 8) = F64.fin (319 / 8) := by
    rw [F64.add_fin]
    exact F64.rnd_pos_eval _ (5) 5611907348168704 _ (by norm_num)
  have hsur : F64.fin (319 / 8) * F64.fin (3602879701896397 / 72057594037927936) =
      F64.fin (8979051757069927 / 4503599627370496) := by
    rw [F64.mul_fin]
    exact F64.rnd_pos_eval _ (0) 8979051757069927 _ (by norm_num)
  have hins : F64.fin (319 / 8) + F64.fin (8979051757069927 / 4503599627370496) =
      F64.fin (5892502715577139 / 140737488355328) := by
    rw [F64.add_fin]
    exact F64.rnd_pos_eval _ (5) 5892502715577139 _ (by norm_num)
  have hm : F64.fin 1 - F64.fin (3602879701896397 / 18014398509481984) =
      F64.fin (3602879701896397 / 4503599627370496) := by
    rw [F64.sub_fin]
    exact F64.rnd_pos_tie _ (-1) 7205759403792794 _ (by norm_num)
  have hx : F64.fin (5892502715577139 / 140737488355328) * F64.fin (3602879701896397 / 4503599627370496) =
      F64.fin (4714002172461711 / 140737488355328) := by
    rw [F64.mul_fin]
    exact F64.rnd_pos_eval _ (5) 4714002172461711 _ (by norm_num)
  have hy : F64.fin (4714002172461711 / 140737488355328) * F64.fin 100 =
      F64.fin (7365628394471423 / 2199023255552) := by
    rw [F64.mul_fin]
    exact F64.rnd_pos_eval _ (11) 7365628394471423 _ (by norm_num)
  have hround : mathRound (7365628394471423 / 2199023255552) = 3349 :=
    mathRound_eval_nonneg _ _ 3349 (by norm_num)
  exact feeV2_steps_discount NewShippingCalculator (F64.fin (279 / 8)) "Domestic" "BULK20"
    (F64.fin (319 / 8)) (F64.fin (5892502715577139 / 140737488355328)) (F64.fin (3602879701896397 / 18014398509481984)) (F64.fin (3602879701896397 / 4503599627370496)) (F64.fin (4714002172461711 / 140737488355328)) (7365628394471423 / 2199023255552) 3349
    (guard_false_fin (279 / 8) (by norm_num) (by norm_num))
    (by
    rw [zoneBaseFee_domestic]
    show some (F64.fin 5 + F64.fin (279 / 8) * F64.fin 1) = some (F64.fin (319 / 8))
    rw [hperkg, hbase])
    (by
    rw [insuredFee_above _ _ _ ((F64.fin_lt_fin 20 (279 / 8)).2 (by norm_num))]
    show F64.fin (319 / 8) + F64.fin (319 / 8) * F64.rnd (1 / 20) =
        F64.fin (5892502715577139 / 140737488355328)
    rw [rnd_one_twentieth, hsur, hins])
    default_bulk20 hm hx hy hround

/-- After `AddDiscountCode("VIP", 0.5)`, (26, "Domestic", "VIP"): 16.27. -/
theorem fee_vip_half_26 :
    CalculateShippingFeeV2 (AddDiscountCode NewShippingCalculator "VIP" (F64.fin (1 / 2))).1 (F64.fin 26) "Domestic" "VIP" =
      .ok (F64.rnd (1627 / 100)) := by
  have hperkg : F64.fin 26 * F64.fin 1 = F64.fin 26 := by
    rw [F64.mul_fin]
    exact F64.rnd_pos_eval _ (4) 7318349394477056 _ (by norm_num)
  have hbase : F64.fin 5 + F64.fin 26 = F64.fin 31 := by
    rw [F64.add_fin]
    exact F64.rnd_pos_eval _ (4) 8725724278030336 _ (by norm_num)
  have hsur : F64.fin 31 * F64.fin (3602879701896397 / 72057594037927936) =
      F64.fin (6980579422424269 / 4503599627370496) := by
    rw [F64.mul_fin]
    exact F64.rnd_pos_eval _ (0) 6980579422424269 _ (by norm_num)
  have hins : F64.fin 31 + F64.fin (6980579422424269 / 4503599627370496) =
      F64.fin (2290502622982963 / 70368744177664) := by
    rw [F64.add_fin]
    exact F64.rnd_pos_eval _ (5) 4581005245965926 _ (by norm_num)
  have hm : F64.fin 1 - F64.fin (1 / 2) = F64.fin (1 / 2) := by
    rw [F64.sub_fin]
    exact F64.rnd_pos_eval _ (-1) 4503599627370496 _ (by norm_num)
  have hx : F64.fin (2290502622982963 / 70368744177664) * F64.fin (1 / 2) =
      F64.fin (2290502622982963 / 140737488355328) := by
    rw [F64.mul_fin]
    exact F64.rnd_pos_eval _ (4) 4581005245965926 _ (by norm_num)
  have hy : F64.fin (2290502622982963 / 140737488355328) * F64.fin 100 =
      F64.fin (7157820696821759 / 4398046511104) := by
    rw [F64.mul_fin]
    exact F64.rnd_pos_eval _ (10) 7157820696821759 _ (by norm_num)
  have hround : mathRound (7157820696821759 / 4398046511104) = 1627 :=
    mathRound_eval_nonneg _ _ 1627 (by norm_num)
  exact feeV2_steps_discount (AddDiscountCode NewShippingCalculator "VIP" (F64.fin (1 / 2))).1 (F64.fin 26) "Domestic" "VIP"
    (F64.fin 31) (F64.fin (2290502622982963 / 70368744177664)) (F64.fin (1 / 2)) (F64.fin (1 / 2)) (F64.fin (2290502622982963 / 140737488355328)) (7157820696821759 / 4398046511104) 1627
    (guard_false_fin 26 (by norm_num) (by norm_num))
    (by
    rw [zoneBaseFee_addDiscountCode, zoneBaseFee_domestic]
    show some (F64.fin 5 + F64.fin 26 * F64.fin 1) = some (F64.fin 31)
    rw [hperkg, hbase])
    (by
    rw [insuredFee_addDiscountCode, insuredFee_above _ _ _ ((F64.fin_lt_fin 20 26).2 (by norm_num))]
    show F64.fin 31 + F64.fin 31 * F64.rnd (1 / 20) = F64.fin (2290502622982963 / 70368744177664)
    rw [rnd_one_twentieth, hsur, hins])
    (addDiscountCode_accepted _ _ _ (discount_guard_false_fin (1 / 2) (by norm_num) (by norm_num))).2.1 hm hx hy hround

/-- After `AddDiscountCode("", 0.5)`, (10, "Domestic", ""): 7.5. -/
theorem fee_empty_half_10 :
    CalculateShippingFeeV2 (AddDiscountCode NewShippingCalculator "" (F64.fin (1 / 2))).1 (F64.fin 10) "Domestic" "" =
      .ok (F64.rnd (750 / 100)) := by
  have hperkg : F64.fin 10 * F64.fin 1 = F64.fin 10 := by
    rw [F64.mul_fin]
    exact F64.rnd_pos_eval _ (3) 5629499534213120 _ (by norm_num)
  have hbase : F64.fin 5 + F64.fin 10 = F64.fin 15 := by
    rw [F64.add_fin]
    exact F64.rnd_pos_eval _ (3) 8444249301319680 _ (by norm_num)
  have hm : F64.fin 1 - F64.fin (1 / 2) = F64.fin (1 / 2) := by
    rw [F64.sub_fin]
    exact F64.rnd_pos_eval _ (-1) 4503599627370496 _ (by norm_num)
  have hx : F64.fin 15 * F64.fin (1 / 2) = F64.fin (15 / 2) := by
    rw [F64.mul_fin]
    exact F64.rnd_pos_eval _ (2) 8444249301319680 _ (by norm_num)
  have hy : F64.fin (15 / 2) * F64.fin 100 = F64.fin 750 := by
    rw [F64.mul_fin]
    exact F64.rnd_pos_eval _ (9) 6597069766656000 _ (by norm_num)
  have hround : mathRound 750 = 750 :=
    mathRound_eval_nonneg _ _ 750 (by norm_num)
  exact feeV2_steps_discount (AddDiscountCode NewShippingCalculator "" (F64.fin (1 / 2))).1 (F64.fin 10) "Domestic" ""
    (F64.fin 15) (F64.fin 15) (F64.fin (1 / 2)) (F64.fin (1 / 2)) (F64.fin (15 / 2)) 750 750
    (guard_false_fin 10 (by norm_num) (by norm_num))
    (by
    rw [zoneBaseFee_addDiscountCode, zoneBaseFee_domestic]
    show some (F64.fin 5 + F64.fin 10 * F64.fin 1) = some (F64.fin 15)
    rw [hperkg, hbase])
    (by
    rw [insuredFee_addDiscountCode, insuredFee_not_above _ _ _ (F64.not_lt_of_le ((F64.fin_le_fin 10 20).2 (by norm_num)))])
    (addDiscountCode_accepted _ _ _ (discount_guard_false_fin (1 / 2) (by norm_num) (by norm_num))).2.1 hm hx hy hround

/-- After `AddDiscountCode("VIP", 0.25)`, (10, "Domestic", "VIP"): 11.25. -/
theorem fee_vip_quarter_10 :
    CalculateShippingFeeV2 (AddDiscountCode NewShippingCalculator "VIP" (F64.fin (1 / 4))).1 (F64.fin 10) "Domestic" "VIP" =
      .ok (F64.rnd (1125 / 100)) := by
  have hperkg : F64.fin 10 * F64.fin 1 = F64.fin 10 := by
    rw [F64.mul_fin]
    exact F64.rnd_pos_eval _ (3) 5629499534213120 _ (by norm_num)
  have hbase : F64.fin 5 + F64.fin 10 = F64.fin 15 := by
    rw [F64.add_fin]
    exact F64.rnd_pos_eval _ (3) 8444249301319680 _ (by norm_num)
  have hm : F64.fin 1 - F64.fin (1 / 4) = F64.fin (3 / 4) := by
    rw [F64.sub_fin]
    exact F64.rnd_pos_eval _ (-1) 6755399441055744 _ (by norm_num)
  have hx : F64.fin 15 * F64.fin (3 / 4) = F64.fin (45 / 4) := by
    rw [F64.mul_fin]
    exact F64.rnd_pos_eval _ (3) 6333186975989760 _ (by norm_num)
  have hy : F64.fin (45 / 4) * F64.fin 100 = F64.fin 1125 := by
    rw [F64.mul_fin]
    exact F64.rnd_pos_eval _ (10) 4947802324992000 _ (by norm_num)
  have hround : mathRound 1125 = 1125 :=
    mathRound_eval_nonneg _ _ 1125 (by norm_num)
  exact feeV2_steps_discount (AddDiscountCode NewShippingCalculator "VIP" (F64.fin (1 / 4))).1 (F64.fin 10) "Domestic" "VIP"
    (F64.fin 15) (F64.fin 15) (F64.fin (1 / 4)) (F64.fin (3 / 4)) (F64.fin (45 / 4)) 1125 1125
    (guard_false_fin 10 (by norm_num) (by norm_num))
    (by
    rw [zoneBaseFee_addDiscountCode, zoneBaseFee_domestic]
    show some (F64.fin 5 + F64.fin 10 * F64.fin 1) = some (F64.fin 15)
    rw [hperkg, hbase])
    (by
    rw [insuredFee_addDiscountCode, insuredFee_not_above _ _ _ (F64.not_lt_of_le ((F64.fin_le_fin 10 20).2 (by norm_num)))])
    (addDiscountCode_accepted _ _ _ (discount_guard_false_fin (1 / 4) (by norm_num) (by norm_num))).2.1 hm hx hy hround

/-- After `AddDiscountCode("VIP", 0.25)` and `AddDiscountCode("VIP", 0.5)`, (10, "Domestic", "VIP"): 7.5. -/
theorem fee_vip_quarter_half_10 :
    CalculateShippingFeeV2 (AddDiscountCode (AddDiscountCode NewShippingCalculator "VIP" (F64.fin (1 / 4))).1 "VIP" (F64.fin (1 / 2))).1 (F64.fin 10) "Domestic" "VIP" =
      .ok (F64.rnd (750 / 100)) := by
  have hperkg : F64.fin 10 * F64.fin 1 = F64.fin 10 := by
    rw [F64.mul_fin]
    exact F64.rnd_pos_eval _ (3) 5629499534213120 _ (by norm_num)
  have hbase : F64.fin 5 + F64.fin 10 = F64.fin 15 := by
    rw [F64.add_fin]
    exact F64.rnd_pos_eval _ (3) 8444249301319680 _ (by norm_num)
  have hm : F64.fin 1 - F64.fin (1 / 2) = F64.fin (1 / 2) := by
    rw [F64.sub_fin]
    exact F64.rnd_pos_eval _ (-1) 4503599627370496 _ (by norm_num)
  have hx : F64.fin 15 * F64.fin (1 / 2) = F64.fin (15 / 2) := by
    rw [F64.mul_fin]
    exact F64.rnd_pos_eval _ (2) 8444249301319680 _ (by norm_num)
  have hy : F64.fin (15 / 2) * F64.fin 100 = F64.fin 750 := by
    rw [F64.mul_fin]
    exact F64.rnd_pos_eval _ (9) 6597069766656000 _ (by norm_num)
  have hround : mathRound 750 = 750 :=
    mathRound_eval_nonneg _ _ 750 (by norm_num)
  exact feeV2_steps_discount (AddDiscountCode (AddDiscountCode NewShippingCalculator "VIP" (F64.fin (1 / 4))).1 "VIP" (F64.fin (1 / 2))).1 (F64.fin 10) "Domestic" "VIP"
    (F64.fin 15) (F64.fin 15) (F64.fin (1 / 2)) (F64.fin (1 / 2)) (F64.fin (15 / 2)) 750 750
    (guard_false_fin 10 (by norm_num) (by norm_num))
    (by
    rw [zoneBaseFee_addDiscountCode, zoneBaseFee_addDiscountCode, zoneBaseFee_domestic]
    show some (F64.fin 5 + F64.fin 10 * F64.fin 1) = some (F64.fin 15)
    rw [hperkg, hbase])
    (by
    rw [insuredFee_addDiscountCode, insuredFee_addDiscountCode, insuredFee_not_above _ _ _ (F64.not_lt_of_le ((F64.fin_le_fin 10 20).2 (by norm_num)))])
    (addDiscountCode_accepted _ _ _ (discount_guard_false_fin (1 / 2) (by norm_num) (by norm_num))).2.1 hm hx hy hround

/-- With the rate 3 registered under "International", (10, "International", ""): 30. -/
theorem fee_intl3_10 :
    CalculateShippingFeeV2 (SetInternationalRate NewShippingCalculator "International" (F64.fin 3)) (F64.fin 10) "International" "" =
      .ok (F64.rnd (3000 / 100)) := by
  have hbase : F64.fin 3 * F64.fin 10 = F64.fin 30 := by
    rw [F64.mul_fin]
    exact F64.rnd_pos_eval _ (4) 8444249301319680 _ (by norm_num)
  have hy : F64.fin 30 * F64.fin 100 = F64.fin 3000 := by
    rw [F64.mul_fin]
    exact F64.rnd_pos_eval _ (11) 6597069766656000 _ (by norm_num)
  have hround : mathRound 3000 = 3000 :=
    mathRound_eval_nonneg _ _ 3000 (by norm_num)
  exact feeV2_steps_plain (SetInternationalRate NewShippingCalculator "International" (F64.fin 3)) (F64.fin 10) "International"
    (F64.fin 30) (F64.fin 30) 3000 3000
    (guard_false_fin 10 (by norm_num) (by norm_num))
    (by
    rw [zoneBaseFee_international _ _ (F64.fin 3) (by simp [SetInternationalRate])]
    rw [hbase])
    (by
    rw [insuredFee_not_above _ _ _ (F64.not_lt_of_le ((F64.fin_le_fin 10 20).2 (by norm_num)))])
    default_no_empty_code hy hround

/-- After `AddDiscountCode("X", 0.9999)`, (1, "Domestic", "X"): 0. -/
theorem fee_x9999_1 :
    CalculateShippingFeeV2 (AddDiscountCode NewShippingCalculator "X" (F64.rnd (9999 / 10000))).1 (F64.fin 1) "Domestic" "X" =
      .ok (F64.rnd (0 / 100)) := by
  rw [rnd_9999_tenthousandths]
  have hperkg : F64.fin 1 * F64.fin 1 = F64.fin 1 := by
    rw [F64.mul_fin]
    exact F64.rnd_pos_eval _ (0) 4503599627370496 _ (by norm_num)
  have hbase : F64.fin 5 + F64.fin 1 = F64.fin 6 := by
    rw [F64.add_fin]
    exact F64.rnd_pos_eval _ (2) 6755399441055744 _ (by norm_num)
  have hm : F64.fin 1 - F64.fin (4503149267407759 / 4503599627370496) =
      F64.fin (450359962737 / 4503599627370496) := by
    rw [F64.sub_fin]
    exact F64.rnd_pos_eval _ (-14) 7378697629483008 _ (by norm_num)
  have hx : F64.fin 6 * F64.fin (450359962737 / 4503599627370496) =
      F64.fin (1351079888211 / 2251799813685248) := by
    rw [F64.mul_fin]
    exact F64.rnd_pos_eval _ (-11) 5534023222112256 _ (by norm_num)
  have hy : F64.fin (1351079888211 / 2251799813685248) * F64.fin 100 =
      F64.fin (33776997205275 / 562949953421312) := by
    rw [F64.mul_fin]
    exact F64.rnd_pos_eval _ (-5) 8646911284550400 _ (by norm_num)
  have hround : mathRound (33776997205275 / 562949953421312) = 0 :=
    mathRound_eval_nonneg _ _ 0 (by norm_num)
  exact feeV2_steps_discount (AddDiscountCode NewShippingCalculator "X" (F64.fin (4503149267407759 / 4503599627370496))).1 (F64.fin 1) "Domestic" "X"
    (F64.fin 6) (F64.fin 6) (F64.fin (4503149267407759 / 4503599627370496)) (F64.fin (450359962737 / 4503599627370496)) (F64.fin (1351079888211 / 2251799813685248)) (33776997205275 / 562949953421312) 0
    (guard_false_fin 1 (by norm_num) (by norm_num))
    (by
    rw [zoneBaseFee_addDiscountCode, zoneBaseFee_domestic]
    show some (F64.fin 5 + F64.fin 1 * F64.fin 1) = some (F64.fin 6)
    rw [hperkg, hbase])
    (by
    rw [insuredFee_addDiscountCode, insuredFee_not_above _ _ _ (F64.not_lt_of_le ((F64.fin_le_fin 1 20).2 (by norm_num)))])
    (addDiscountCode_accepted _ _ _ (discount_guard_false_fin (4503149267407759 / 4503599627370496) (by norm_num) (by norm_num))).2.1 hm hx hy hround

/-! ## Helper lemmas: the legacy function -/

theorem legacy_domestic_of_guard (weight : F64)
    (hw : ¬(weight ≤ F64.fin 0 ∨ weight > F64.fin 50)) :
    CalculateShippingFee weight "Domestic" = .ok (F64.fin 5 + weight * F64.fin 1) := by
  unfold CalculateShippingFee
  rw [if_neg hw, if_pos rfl]

theorem legacy_express_of_guard (weight : F64)
    (hw : ¬(weight ≤ F64.fin 0 ∨ weight > F64.fin 50)) :
    CalculateShippingFee weight "Express" = .ok (F64.fin 30 + weight * F64.fin 5) := by
  unfold CalculateShippingFee
  rw [if_neg hw, if_neg (by decide), if_pos rfl]

theorem legacy_invalid_weight (weight : F64) (zone : String)
    (h : weight ≤ F64.fin 0 ∨ weight > F64.fin 50) :
    CalculateShippingFee weight zone = .error "invalid weight: must be between 0 and 50 kg" := by
  unfold CalculateShippingFee
  rw [if_pos h]

/-- A weight in `(0, 50]` is a finite positive number. -/
theorem finite_of_valid {weight : F64} (h0 : F64.fin 0 < weight) (h50 : weight ≤ F64.fin 50) :
    ∃ w : ℚ, weight = F64.fin w ∧ 0 < w ∧ w ≤ 50 := by
  cases weight with
  | nan => exact absurd h0 (F64.not_lt_nan _)
  | inf s =>
    have h1 : s = false := h0
    have h2 : s = true := h50
    rw [h1] at h2
    cases h2
  | fin w => exact ⟨w, rfl, h0, h50⟩

/-! ## Evaluations: calls of `CalculateShippingFee` -/

theorem rnd_neg_hundredth : F64.rnd (-(1 / 100)) =
    F64.fin (-(5764607523034235 / 576460752303423488)) :=
  F64.rnd_neg_eval (1 / 100) (-7) 5764607523034235 (5764607523034235 / 576460752303423488) (by norm_num)

/-- The call (10, "Domestic"): 15. -/
theorem legacy_10_domestic :
    CalculateShippingFee (F64.fin 10) "Domestic" = .ok (F64.fin 15) := by
  have e1 : F64.fin 10 * F64.fin 1 = F64.fin 10 := by
    rw [F64.mul_fin]
    exact F64.rnd_pos_eval _ (3) 5629499534213120 _ (by norm_num)
  have e2 : F64.fin 5 + F64.fin 10 = F64.fin 15 := by
    rw [F64.add_fin]
    exact F64.rnd_pos_eval _ (3) 8444249301319680 _ (by norm_num)
  rw [legacy_domestic_of_guard _ (guard_false_fin 10 (by norm_num) (by norm_num)), e1, e2]

/-- The call (28.5, "Domestic"): 33.5. -/
theorem legacy_28_5_domestic :
    CalculateShippingFee (F64.fin (57 / 2)) "Domestic" = .ok (F64.fin (67 / 2)) := by
  have e1 : F64.fin (57 / 2) * F64.fin 1 = F64.fin (57 / 2) := by
    rw [F64.mul_fin]
    exact F64.rnd_pos_eval _ (4) 8022036836253696 _ (by norm_num)
  have e2 : F64.fin 5 + F64.fin (57 / 2) = F64.fin (67 / 2) := by
    rw [F64.add_fin]
    exact F64.rnd_pos_eval _ (5) 4714705859903488 _ (by norm_num)
  rw [legacy_domestic_of_guard _ (guard_false_fin (57 / 2) (by norm_num) (by norm_num)), e1, e2]

/-- The call (3, "Domestic"): 8. -/
theorem legacy_3_domestic :
    CalculateShippingFee (F64.fin 3) "Domestic" = .ok (F64.fin 8) := by
  have e1 : F64.fin 3 * F64.fin 1 = F64.fin 3 := by
    rw [F64.mul_fin]
    exact F64.rnd_pos_eval _ (1) 6755399441055744 _ (by norm_num)
  have e2 : F64.fin 5 + F64.fin 3 = F64.fin 8 := by
    rw [F64.add_fin]
    exact F64.rnd_pos_eval _ (3) 4503599627370496 _ (by norm_num)
  rw [legacy_domestic_of_guard _ (guard_false_fin 3 (by norm_num) (by norm_num)), e1, e2]

/-- The call (3 + 2^-51, "Domestic"): 8 again. -/
theorem legacy_3_next_domestic :
    CalculateShippingFee (F64.fin (6755399441055745 / 2251799813685248)) "Domestic" = .ok (F64.fin 8) := by
  have e1 : F64.fin (6755399441055745 / 2251799813685248) * F64.fin 1 =
      F64.fin (6755399441055745 / 2251799813685248) := by
    rw [F64.mul_fin]
    exact F64.rnd_pos_eval _ (1) 6755399441055745 _ (by norm_num)
  have e2 : F64.fin 5 + F64.fin (6755399441055745 / 2251799813685248) = F64.fin 8 := by
    rw [F64.add_fin]
    exact F64.rnd_pos_eval _ (3) 4503599627370496 _ (by norm_num)
  rw [legacy_domestic_of_guard _ (guard_false_fin (6755399441055745 / 2251799813685248) (by norm_num) (by norm_num)), e1, e2]

theorem isFloat_3 : F64.IsFloat (F64.fin 3) :=
  F64.rnd_pos_eval _ (1) 6755399441055744 _ (by norm_num)

theorem isFloat_3_next : F64.IsFloat (F64.fin (6755399441055745 / 2251799813685248)) :=
  F64.rnd_pos_eval _ (1) 6755399441055745 _ (by norm_num)

/-! ## Evaluations: the formulas of the claims in binary64 -/

/-- The formula `round2((base*(1+insuranceRate))*(1-d))` in binary64 at base `5 + 26*1`, rate 0.05, `d = 0.5`: 16.28. -/
theorem formula_c4_binary64 :
    round2 (((F64.fin 5 + (F64.fin 26 * F64.fin 1)) * (F64.fin 1 + F64.rnd (1 / 20))) * (F64.fin 1 - F64.fin (1 / 2))) = F64.rnd (1628 / 100) := by
  have e1 : F64.fin 26 * F64.fin 1 = F64.fin 26 := by
    rw [F64.mul_fin]
    exact F64.rnd_pos_eval _ (4) 7318349394477056 _ (by norm_num)
  have e2 : F64.fin 5 + F64.fin 26 = F64.fin 31 := by
    rw [F64.add_fin]
    exact F64.rnd_pos_eval _ (4) 8725724278030336 _ (by norm_num)
  have e3 : F64.fin 1 + F64.fin (3602879701896397 / 72057594037927936) =
      F64.fin (4728779608739021 / 4503599627370496) := by
    rw [F64.add_fin]
    exact F64.rnd_pos_eval _ (0) 4728779608739021 _ (by norm_num)
  have e4 : F64.fin 31 * F64.fin (4728779608739021 / 4503599627370496) =
      F64.fin (4581005245965927 / 140737488355328) := by
    rw [F64.mul_fin]
    exact F64.rnd_pos_eval _ (5) 4581005245965927 _ (by norm_num)
  have e5 : F64.fin 1 - F64.fin (1 / 2) = F64.fin (1 / 2) := by
    rw [F64.sub_fin]
    exact F64.rnd_pos_eval _ (-1) 4503599627370496 _ (by norm_num)
  have e6 : F64.fin (4581005245965927 / 140737488355328) * F64.fin (1 / 2) =
      F64.fin (4581005245965927 / 281474976710656) := by
    rw [F64.mul_fin]
    exact F64.rnd_pos_eval _ (4) 4581005245965927 _ (by norm_num)
  have e7 : F64.fin (4581005245965927 / 281474976710656) * F64.fin 100 =
      F64.fin (7157820696821761 / 4398046511104) := by
    rw [F64.mul_fin]
    exact F64.rnd_pos_eval _ (10) 7157820696821761 _ (by norm_num)
  have hround : mathRound (7157820696821761 / 4398046511104) = 1628 :=
    mathRound_eval_nonneg _ _ 1628 (by norm_num)
  unfold round2
  rw [rnd_one_twentieth, e1, e2, e3, e4, e5, e6, e7, F64.round_fin, hround, F64.div_fin _ _ (by norm_num)]

/-- The formula `round2(base*(1+insuranceRate))` in binary64 at base `5 + 28.5*1`, rate 0.05: 35.18. -/
theorem formula_c5_binary64 :
    round2 ((F64.fin 5 + (F64.fin (57 / 2) * F64.fin 1)) * (F64.fin 1 + F64.rnd (1 / 20))) = F64.rnd (3518 / 100) := by
  have e1 : F64.fin (57 / 2) * F64.fin 1 = F64.fin (57 / 2) := by
    rw [F64.mul_fin]
    exact F64.rnd_pos_eval _ (4) 8022036836253696 _ (by norm_num)
  have e2 : F64.fin 5 + F64.fin (57 / 2) = F64.fin (67 / 2) := by
    rw [F64.add_fin]
    exact F64.rnd_pos_eval _ (5) 4714705859903488 _ (by norm_num)
  have e3 : F64.fin 1 + F64.fin (3602879701896397 / 72057594037927936) =
      F64.fin (4728779608739021 / 4503599627370496) := by
    rw [F64.add_fin]
    exact F64.rnd_pos_eval _ (0) 4728779608739021 _ (by norm_num)
  have e4 : F64.fin (67 / 2) * F64.fin (4728779608739021 / 4503599627370496) =
      F64.fin (4950441152898663 / 140737488355328) := by
    rw [F64.mul_fin]
    exact F64.rnd_pos_eval _ (5) 4950441152898663 _ (by norm_num)
  have e5 : F64.fin (4950441152898663 / 140737488355328) * F64.fin 100 =
      F64.fin (7735064301404161 / 2199023255552) := by
    rw [F64.mul_fin]
    exact F64.rnd_pos_eval _ (11) 7735064301404161 _ (by norm_num)
  have hround : mathRound (7735064301404161 / 2199023255552) = 3518 :=
    mathRound_eval_nonneg _ _ 3518 (by norm_num)
  unfold round2
  rw [rnd_one_twentieth, e1, e2, e3, e4, e5, F64.round_fin, hround, F64.div_fin _ _ (by norm_num)]

/-- The legacy fee 33.5 times 1.05, rounded to two decimals in binary64: 35.18. -/
theorem formula_c15_binary64 :
    round2 (F64.fin (67 / 2) * F64.rnd (105 / 100)) = F64.rnd (3518 / 100) := by
  have e1 : F64.fin (67 / 2) * F64.fin (4728779608739021 / 4503599627370496) =
      F64.fin (4950441152898663 / 140737488355328) := by
    rw [F64.mul_fin]
    exact F64.rnd_pos_eval _ (5) 4950441152898663 _ (by norm_num)
  have e2 : F64.fin (4950441152898663 / 140737488355328) * F64.fin 100 =
      F64.fin (7735064301404161 / 2199023255552) := by
    rw [F64.mul_fin]
    exact F64.rnd_pos_eval _ (11) 7735064301404161 _ (by norm_num)
  have hround : mathRound (7735064301404161 / 2199023255552) = 3518 :=
    mathRound_eval_nonneg _ _ 3518 (by norm_num)
  unfold round2
  rw [rnd_105_hundredths, e1, e2, F64.round_fin, hround, F64.div_fin _ _ (by norm_num)]

/-- The discount-then-insurance amount at base 39.875, rate 0.05, `d = 0.2`, rounded to two decimals: 33.50. -/
theorem discount_first_279_8 :
    round2 (discountThenInsurance (F64.fin (319 / 8)) (F64.rnd (1 / 20)) (F64.rnd (1 / 5))) = F64.rnd (3350 / 100) := by
  have e1 : F64.fin 1 - F64.fin (3602879701896397 / 18014398509481984) =
      F64.fin (3602879701896397 / 4503599627370496) := by
    rw [F64.sub_fin]
    exact F64.rnd_pos_tie _ (-1) 7205759403792794 _ (by norm_num)
  have e2 : F64.fin (319 / 8) * F64.fin (3602879701896397 / 4503599627370496) =
      F64.fin (8979051757069927 / 281474976710656) := by
    rw [F64.mul_fin]
    exact F64.rnd_pos_eval _ (4) 8979051757069927 _ (by norm_num)
  have e3 : F64.fin (8979051757069927 / 281474976710656) * F64.fin (3602879701896397 / 72057594037927936) =
      F64.fin (3591620702827971 / 2251799813685248) := by
    rw [F64.mul_fin]
    exact F64.rnd_pos_eval _ (0) 7183241405655942 _ (by norm_num)
  have e4 : F64.fin (8979051757069927 / 281474976710656) + F64.fin (3591620702827971 / 2251799813685248) =
      F64.fin (294625135778857 / 8796093022208) := by
    rw [F64.add_fin]
    exact F64.rnd_pos_eval _ (5) 4714002172461712 _ (by norm_num)
  have e5 : F64.fin (294625135778857 / 8796093022208) * F64.fin 100 =
      F64.fin (7365628394471425 / 2199023255552) := by
    rw [F64.mul_fin]
    exact F64.rnd_pos_eval _ (11) 7365628394471425 _ (by norm_num)
  have hround : mathRound (7365628394471425 / 2199023255552) = 3350 :=
    mathRound_eval_nonneg _ _ 3350 (by norm_num)
  unfold discountThenInsurance
  unfold round2
  rw [rnd_one_fifth, rnd_one_twentieth, e1, e2, e3, e4, e5, F64.round_fin, hround, F64.div_fin _ _ (by norm_num)]

/-! ## C1: the weight check comes first -/

/-- C1: for every weight with `weight ≤ 0` or `weight > 50`, both
`CalculateShippingFee` and `CalculateShippingFeeV2` return the invalid-weight
error, whatever the zone, the discount code and the configuration. -/
theorem invalid_weight_rejected (sc : ShippingCalculator) (weight : F64) (zone code : String)
    (h : weight ≤ F64.fin 0 ∨ weight > F64.fin 50) :
    CalculateShippingFee weight zone = .error "invalid weight: must be between 0 and 50 kg" ∧
    CalculateShippingFeeV2 sc weight zone code =
      .error "invalid weight: must be between 0 and 50 kg" := by
  constructor
  · unfold CalculateShippingFee
    rw [if_pos h]
  · unfold CalculateShippingFeeV2
    rw [if_pos h]

/-- Witness for C1: the weights -5, -0.01, 0, 50.01 and 51 with zone
"Domestic" (and once with an unknown zone and an unknown discount code). -/
theorem invalid_weight_rejected_witness :
    CalculateShippingFee (F64.fin (-5)) "Domestic" =
      .error "invalid weight: must be between 0 and 50 kg" ∧
    CalculateShippingFee (F64.rnd (-(1 / 100))) "Domestic" =
      .error "invalid weight: must be between 0 and 50 kg" ∧
    CalculateShippingFee (F64.fin 0) "Domestic" =
      .error "invalid weight: must be between 0 and 50 kg" ∧
    CalculateShippingFee (F64.rnd (5001 / 100)) "Domestic" =
      .error "invalid weight: must be between 0 and 50 kg" ∧
    CalculateShippingFee (F64.fin 51) "Domestic" =
      .error "invalid weight: must be between 0 and 50 kg" ∧
    CalculateShippingFeeV2 NewShippingCalculator (F64.fin 51) "Mars" "NOPE" =
      .error "invalid weight: must be between 0 and 50 kg" :=
  ⟨(invalid_weight_rejected NewShippingCalculator (F64.fin (-5)) "Domestic" ""
      (Or.inl ((F64.fin_le_fin _ _).2 (by norm_num)))).1,
   (invalid_weight_rejected NewShippingCalculator (F64.rnd (-(1 / 100))) "Domestic" ""
      (Or.inl (by rw [rnd_neg_hundredth]; exact (F64.fin_le_fin _ _).2 (by norm_num)))).1,
   (invalid_weight_rejected NewShippingCalculator (F64.fin 0) "Domestic" ""
      (Or.inl ((F64.fin_le_fin _ _).2 (le_refl 0)))).1,
   (invalid_weight_rejected NewShippingCalculator (F64.rnd (5001 / 100)) "Domestic" ""
      (Or.inr (by rw [rnd_5001_hundredths]; exact (F64.fin_lt_fin _ _).2 (by norm_num)))).1,
   (invalid_weight_rejected NewShippingCalculator (F64.fin 51) "Domestic" ""
      (Or.inr ((F64.fin_lt_fin _ _).2 (by norm_num)))).1,
   (invalid_weight_rejected NewShippingCalculator (F64.fin 51) "Mars" "NOPE"
      (Or.inr ((F64.fin_lt_fin _ _).2 (by norm_num)))).2⟩

/-! ## C2: the legacy fee formulas -/

/-- For a weight that is a number, `CalculateShippingFee` returns a fee
exactly when `0 < weight ≤ 50` and the zone is "Domestic" or "Express"; with a
valid weight, zone "International" gives the not-implemented error and any
other zone the unknown-zone error carrying the zone. -/
theorem legacy_success_iff_of_number (weight : F64) (zone : String) (hn : weight ≠ F64.nan) :
    ((∃ fee, CalculateShippingFee weight zone = .ok fee) ↔
      (F64.fin 0 < weight ∧ weight ≤ F64.fin 50 ∧ (zone = "Domestic" ∨ zone = "Express"))) ∧
    (F64.fin 0 < weight → weight ≤ F64.fin 50 →
      CalculateShippingFee weight "International" =
        .error "international shipping not implemented") ∧
    (F64.fin 0 < weight → weight ≤ F64.fin 50 → zone ≠ "Domestic" → zone ≠ "Express" →
      zone ≠ "International" →
      CalculateShippingFee weight zone = .error ("invalid zone: " ++ zone)) := by
  refine ⟨⟨?_, ?_⟩, ?_, ?_⟩
  · rintro ⟨fee, hfee⟩
    by_cases hw : weight ≤ F64.fin 0 ∨ weight > F64.fin 50
    · rw [legacy_invalid_weight _ _ hw] at hfee
      cases hfee
    · obtain ⟨h0, h50⟩ := valid_of_guard_false hn hw
      refine ⟨h0, h50, ?_⟩
      unfold CalculateShippingFee at hfee
      rw [if_neg hw] at hfee
      by_cases hD : zone = "Domestic"
      · exact Or.inl hD
      · by_cases hE : zone = "Express"
        · exact Or.inr hE
        · rw [if_neg hD, if_neg hE] at hfee
          split at hfee <;> cases hfee
  · rintro ⟨h0, h50, hz⟩
    have hg := weight_guard_false h0 h50
    rcases hz with hz | hz
    · subst hz
      exact ⟨_, legacy_domestic_of_guard _ hg⟩
    · subst hz
      exact ⟨_, legacy_express_of_guard _ hg⟩
  · intro h0 h50
    unfold CalculateShippingFee
    rw [if_neg (weight_guard_false h0 h50), if_neg (by decide), if_neg (by decide), if_pos rfl]
  · intro h0 h50 hD hE hI
    unfold CalculateShippingFee
    rw [if_neg (weight_guard_false h0 h50), if_neg hD, if_neg hE, if_neg hI]

/-- C3, the failing input: with the weight NaN both comparisons of the guard
are false, so `CalculateShippingFee(NaN, "Domestic")` and
`CalculateShippingFee(NaN, "Express")` return the fee NaN without error,
although `0 < NaN ≤ 50` does not hold. -/
theorem legacy_accepts_nan :
    CalculateShippingFee F64.nan "Domestic" = .ok F64.nan ∧
    CalculateShippingFee F64.nan "Express" = .ok F64.nan ∧
    ¬ (F64.fin 0 < F64.nan ∧ F64.nan ≤ F64.fin 50) := by
  have hg : ¬(F64.nan ≤ F64.fin 0 ∨ F64.nan > F64.fin 50) := by
    rintro (h | h)
    · exact F64.not_nan_le _ h
    · exact F64.not_lt_nan _ h
  refine ⟨?_, ?_, fun h => F64.not_lt_nan _ h.1⟩
  · rw [legacy_domestic_of_guard _ hg, F64.nan_mul, F64.add_nan]
  · rw [legacy_express_of_guard _ hg, F64.nan_mul, F64.add_nan]

/-! ## Helper lemmas: base fees of the examples -/

theorem F64.lt_irrefl_self (x : F64) : ¬ (x < x) := by
  cases x with
  | nan => exact fun h => h
  | inf s =>
    intro h
    have h1 : s = true ∧ s = false := h
    rw [h1.1] at h1
    cases h1.2
  | fin a => exact fun h => absurd ((F64.fin_lt_fin a a).1 h) (by simp)

theorem default_no_winter5 : NewShippingCalculator.volumeDiscounts "WINTER5" = none := by
  show (if "WINTER5" = "SUMMER10" then some (F64.rnd (1 / 10))
    else if "WINTER5" = "BULK20" then some (F64.rnd (1 / 5)) else none) = _
  rw [if_neg (by decide), if_neg (by decide)]

theorem base_default_10 :
    zoneBaseFee NewShippingCalculator (F64.fin 10) "Domestic" = some (F64.fin 15) := by
  have h := legacy_10_domestic
  rw [legacy_domestic_of_guard _ (guard_false_fin 10 (by norm_num) (by norm_num))] at h
  injection h with h
  rw [zoneBaseFee_domestic]
  exact congrArg some h

theorem base_default_28_5 :
    zoneBaseFee NewShippingCalculator (F64.fin (57 / 2)) "Domestic" = some (F64.fin (67 / 2)) := by
  have h := legacy_28_5_domestic
  rw [legacy_domestic_of_guard _ (guard_false_fin (57 / 2) (by norm_num) (by norm_num))] at h
  injection h with h
  rw [zoneBaseFee_domestic]
  exact congrArg some h

/-! ## C4: the discount is applied after the insurance surcharge -/

/-- C4, counterexample: after `AddDiscountCode("VIP", 0.5)` on the default
configuration, the call (26, "Domestic", "VIP") returns 16.27, while the
formula `round2((base * (1 + insuranceRate)) * (1 - d))` with base `5 + 26*1`
gives 16.28, in exact arithmetic (on the stored rate as on 0.05) and in
binary64 arithmetic alike. -/
theorem discount_formula_off_by_a_cent :
    (AddDiscountCode NewShippingCalculator "VIP" (F64.fin (1 / 2))).1.volumeDiscounts "VIP" =
      some (F64.fin (1 / 2)) ∧
    CalculateShippingFeeV2 (AddDiscountCode NewShippingCalculator "VIP" (F64.fin (1 / 2))).1
      (F64.fin 26) "Domestic" "VIP" = .ok (F64.rnd (1627 / 100)) ∧
    (AddDiscountCode NewShippingCalculator "VIP" (F64.fin (1 / 2))).1.insuranceRate =
      F64.fin (3602879701896397 / 72057594037927936) ∧
    exactRound2 (((5 + 26 * 1) * (1 + 3602879701896397 / 72057594037927936)) * (1 - 1 / 2)) =
      1628 / 100 ∧
    exactRound2 (((5 + 26 * 1) * (1 + 1 / 20)) * (1 - 1 / 2)) = 1628 / 100 ∧
    round2 ((F64.fin 5 + F64.fin 26 * F64.fin 1) * (F64.fin 1 + F64.rnd (1 / 20)) *
      (F64.fin 1 - F64.fin (1 / 2))) = F64.rnd (1628 / 100) ∧
    F64.rnd (1627 / 100) ≠ F64.rnd (1628 / 100) ∧
    F64.rnd (1627 / 100) ≠ F64.fin (1628 / 100) ∧
    CalculateShippingFeeV2 (AddDiscountCode NewShippingCalculator "VIP" (F64.fin (1 / 2))).1
      (F64.fin 26) "Domestic" "VIP" ≠
      .ok (round2 ((F64.fin 5 + F64.fin 26 * F64.fin 1) * (F64.fin 1 + F64.rnd (1 / 20)) *
        (F64.fin 1 - F64.fin (1 / 2)))) := by
  have hacc := addDiscountCode_accepted NewShippingCalculator "VIP" (F64.fin (1 / 2))
    (discount_guard_false_fin (1 / 2) (by norm_num) (by norm_num))
  have hrate : (AddDiscountCode NewShippingCalculator "VIP" (F64.fin (1 / 2))).1.insuranceRate =
      F64.fin (3602879701896397 / 72057594037927936) := by
    rw [(addDiscountCode_scalars _ _ _).2.2.2.2.2.1]
    exact rnd_one_twentieth
  have hx1 : mathRound ((((5 : ℚ) + 26 * 1) * (1 + 3602879701896397 / 72057594037927936)) *
      (1 - 1 / 2) * 100) = 1628 := mathRound_eval_nonneg _ _ 1628 (by norm_num)
  have hx2 : mathRound ((((5 : ℚ) + 26 * 1) * (1 + 1 / 20)) * (1 - 1 / 2) * 100) = 1628 :=
    mathRound_eval_nonneg _ _ 1628 (by norm_num)
  refine ⟨hacc.2.1, fee_vip_half_26, hrate, ?_, ?_, formula_c4_binary64, ?_, ?_, ?_⟩
  · unfold exactRound2
    rw [hx1]
  · unfold exactRound2
    rw [hx2]
  · rw [rnd_cents_1627, rnd_cents_1628]
    intro h
    injection h with h
    norm_num at h
  · rw [rnd_cents_1627]
    intro h
    injection h with h
    norm_num at h
  · rw [fee_vip_half_26, formula_c4_binary64, rnd_cents_1627, rnd_cents_1628]
    intro h
    injection h with h
    injection h with h
    norm_num at h

/-- C4, amended: for a valid weight, zone "Domestic" or "Express" and a
discount code registered with `d`, `CalculateShippingFeeV2` succeeds with
`math.Round(x*100)/100` computed in binary64, where
`x = (base + base*insuranceRate if weight > insuranceThreshold, else base) * (1 - d)`
and `base` is the zone's base rate plus the weight times its per-kg rate, every
operation rounded to nearest: the discount is applied after the surcharge. -/
theorem discount_after_insurance (sc : ShippingCalculator) (weight : F64) (zone code : String)
    (d : F64) (h0 : F64.fin 0 < weight) (h50 : weight ≤ F64.fin 50)
    (hz : zone = "Domestic" ∨ zone = "Express")
    (hd : sc.volumeDiscounts code = some d) :
    ∃ base, zoneBaseFee sc weight zone = some base ∧
      base = (if zone = "Domestic" then sc.domesticBaseRate + weight * sc.domesticPerKgRate
        else sc.expressBaseRate + weight * sc.expressPerKgRate) ∧
      CalculateShippingFeeV2 sc weight zone code =
        .ok (round2 ((if weight > sc.insuranceThreshold then base + base * sc.insuranceRate
          else base) * (F64.fin 1 - d))) := by
  have hb : zoneBaseFee sc weight zone =
      some (if zone = "Domestic" then sc.domesticBaseRate + weight * sc.domesticPerKgRate
        else sc.expressBaseRate + weight * sc.expressPerKgRate) := by
    rcases hz with hz | hz
    · subst hz
      rw [zoneBaseFee_domestic, if_pos rfl]
    · subst hz
      rw [zoneBaseFee_express, if_neg (by decide)]
  refine ⟨_, hb, rfl, ?_⟩
  rw [feeV2_of_base sc weight zone code _ h0 h50 hb, hd]
  rfl

/-- Witness for C4 amended: default configuration, (34.875, "Domestic",
"BULK20"): the fee is 33.49, while the discount-then-insurance amount rounds
to 33.50. -/
theorem discount_after_insurance_witness :
    CalculateShippingFeeV2 NewShippingCalculator (F64.fin (279 / 8)) "Domestic" "BULK20" =
      .ok (F64.rnd (3349 / 100)) ∧
    round2 (discountThenInsurance (F64.fin (319 / 8)) (F64.rnd (1 / 20)) (F64.rnd (1 / 5))) =
      F64.rnd (3350 / 100) ∧
    F64.rnd (3349 / 100) ≠ F64.rnd (3350 / 100) ∧
    ∃ base, zoneBaseFee NewShippingCalculator (F64.fin (279 / 8)) "Domestic" = some base ∧
      base = (if "Domestic" = "Domestic" then
          NewShippingCalculator.domesticBaseRate +
            F64.fin (279 / 8) * NewShippingCalculator.domesticPerKgRate
        else NewShippingCalculator.expressBaseRate +
          F64.fin (279 / 8) * NewShippingCalculator.expressPerKgRate) ∧
      CalculateShippingFeeV2 NewShippingCalculator (F64.fin (279 / 8)) "Domestic" "BULK20" =
        .ok (round2 ((if F64.fin (279 / 8) > NewShippingCalculator.insuranceThreshold then
            base + base * NewShippingCalculator.insuranceRate
          else base) * (F64.fin 1 - F64.fin (3602879701896397 / 18014398509481984)))) := by
  refine ⟨fee_default_279_8_bulk20, discount_first_279_8, ?_,
    discount_after_insurance NewShippingCalculator (F64.fin (279 / 8)) "Domestic" "BULK20" _
      ((F64.fin_lt_fin _ _).2 (by norm_num)) ((F64.fin_le_fin _ _).2 (by norm_num))
      (Or.inl rfl) default_bulk20⟩
  rw [rnd_cents_3349, rnd_cents_3350]
  intro h
  injection h with h
  norm_num at h

/-! ## C5: the insurance threshold is strict -/

/-- C5, counterexample: default configuration, (28.5, "Domestic", ""): the
base fee is 33.5 and the call returns 35.17, because the code adds the rounded
product `base * insuranceRate` to the base; the formula
`round2(base * (1 + insuranceRate))` gives 35.18, in exact arithmetic (on the
stored rate as on 0.05) and in binary64 arithmetic alike. -/
theorem surcharge_formula_off_by_a_cent :
    zoneBaseFee NewShippingCalculator (F64.fin (57 / 2)) "Domestic" = some (F64.fin (67 / 2)) ∧
    CalculateShippingFeeV2 NewShippingCalculator (F64.fin (57 / 2)) "Domestic" "" =
      .ok (F64.rnd (3517 / 100)) ∧
    NewShippingCalculator.insuranceRate = F64.fin (3602879701896397 / 72057594037927936) ∧
    exactRound2 ((67 / 2) * (1 + 3602879701896397 / 72057594037927936)) = 3518 / 100 ∧
    exactRound2 ((67 / 2) * (1 + 1 / 20)) = 3518 / 100 ∧
    round2 ((F64.fin 5 + F64.fin (57 / 2) * F64.fin 1) * (F64.fin 1 + F64.rnd (1 / 20))) =
      F64.rnd (3518 / 100) ∧
    F64.rnd (3517 / 100) ≠ F64.rnd (3518 / 100) ∧
    F64.rnd (3517 / 100) ≠ F64.fin (3518 / 100) ∧
    CalculateShippingFeeV2 NewShippingCalculator (F64.fin (57 / 2)) "Domestic" "" ≠
      .ok (round2 ((F64.fin 5 + F64.fin (57 / 2) * F64.fin 1) * (F64.fin 1 + F64.rnd (1 / 20)))) := by
  have hx1 : mathRound (((67 : ℚ) / 2) * (1 + 3602879701896397 / 72057594037927936) * 100) =
      3518 := mathRound_eval_nonneg _ _ 3518 (by norm_num)
  have hx2 : mathRound (((67 : ℚ) / 2) * (1 + 1 / 20) * 100) = 3518 :=
    mathRound_eval_nonneg _ _ 3518 (by norm_num)
  refine ⟨base_default_28_5, fee_default_28_5, rnd_one_twentieth, ?_, ?_, formula_c5_binary64,
    ?_, ?_, ?_⟩
  · unfold exactRound2
    rw [hx1]
  · unfold exactRound2
    rw [hx2]
  · rw [rnd_cents_3517, rnd_cents_3518]
    intro h
    injection h with h
    norm_num at h
  · rw [rnd_cents_3517]
    intro h
    injection h with h
    norm_num at h
  · rw [fee_default_28_5, formula_c5_binary64, rnd_cents_3517, rnd_cents_3518]
    intro h
    injection h with h
    injection h with h
    norm_num at h

/-- C5, amended: the insurance surcharge is applied exactly when
`weight > insuranceThreshold`: with a valid weight, a zone whose base fee `b`
is computable and a discount code registered with `d`, the fee is
`round2 (b * (1 - d))` for `weight ≤ insuranceThreshold` (equality included)
and `round2 ((b + b * insuranceRate) * (1 - d))` above it, in binary64; with
the empty code, not registered, the same without the discount factor.  With
the default configuration, "Domestic" and no code, weight 25 gives 31.5 and
weight 20 gives 25. -/
theorem insurance_threshold_strict (sc : ShippingCalculator) (weight : F64) (zone : String)
    (b : F64) (h0 : F64.fin 0 < weight) (h50 : weight ≤ F64.fin 50)
    (hb : zoneBaseFee sc weight zone = some b) :
    (sc.volumeDiscounts "" = none →
      (weight = sc.insuranceThreshold →
        CalculateShippingFeeV2 sc weight zone "" = .ok (round2 b)) ∧
      (weight ≤ sc.insuranceThreshold →
        CalculateShippingFeeV2 sc weight zone "" = .ok (round2 b)) ∧
      (weight > sc.insuranceThreshold →
        CalculateShippingFeeV2 sc weight zone "" = .ok (round2 (b + b * sc.insuranceRate)))) ∧
    (∀ code d, sc.volumeDiscounts code = some d →
      (weight ≤ sc.insuranceThreshold →
        CalculateShippingFeeV2 sc weight zone code = .ok (round2 (b * (F64.fin 1 - d)))) ∧
      (weight > sc.insuranceThreshold →
        CalculateShippingFeeV2 sc weight zone code =
          .ok (round2 ((b + b * sc.insuranceRate) * (F64.fin 1 - d))))) ∧
    CalculateShippingFeeV2 NewShippingCalculator (F64.fin 25) "Domestic" "" =
      .ok (F64.fin (63 / 2)) ∧
    CalculateShippingFeeV2 NewShippingCalculator (F64.fin 20) "Domestic" "" =
      .ok (F64.fin 25) := by
  refine ⟨?_, ?_, ?_, ?_⟩
  · intro hnone
    have hfee := feeV2_of_base sc weight zone "" b h0 h50 hb
    rw [hnone] at hfee
    simp only [ne_eq, not_true_eq_false, if_false] at hfee
    refine ⟨?_, ?_, ?_⟩
    · intro he
      rw [hfee, insuredFee_not_above _ _ _ (by rw [he]; exact F64.lt_irrefl_self _)]
    · intro hle
      rw [hfee, insuredFee_not_above _ _ _ (F64.not_lt_of_le hle)]
    · intro hgt
      rw [hfee, insuredFee_above _ _ _ hgt]
  · intro code d hd
    have hfee := feeV2_of_base sc weight zone code b h0 h50 hb
    rw [hd] at hfee
    constructor
    · intro hle
      rw [hfee, insuredFee_not_above _ _ _ (F64.not_lt_of_le hle)]
    · intro hgt
      rw [hfee, insuredFee_above _ _ _ hgt]
  · rw [fee_default_25, rnd_cents_3150]
  · rw [fee_default_20, rnd_cents_2500]

/-- Witness for C5 amended: default configuration, zone "Domestic", no code,
at the threshold (20) and above it (25). -/
theorem insurance_threshold_strict_witness :
    CalculateShippingFeeV2 NewShippingCalculator (F64.fin 20) "Domestic" "" =
      .ok (round2 (NewShippingCalculator.domesticBaseRate +
        F64.fin 20 * NewShippingCalculator.domesticPerKgRate)) ∧
    CalculateShippingFeeV2 NewShippingCalculator (F64.fin 25) "Domestic" "" =
      .ok (round2 ((NewShippingCalculator.domesticBaseRate +
          F64.fin 25 * NewShippingCalculator.domesticPerKgRate) +
        (NewShippingCalculator.domesticBaseRate +
          F64.fin 25 * NewShippingCalculator.domesticPerKgRate) *
          NewShippingCalculator.insuranceRate)) ∧
    CalculateShippingFeeV2 NewShippingCalculator (F64.fin 25) "Domestic" "" =
      .ok (F64.fin (63 / 2)) :=
  ⟨((insurance_threshold_strict NewShippingCalculator (F64.fin 20) "Domestic" _
      ((F64.fin_lt_fin _ _).2 (by norm_num)) ((F64.fin_le_fin _ _).2 (by norm_num))
      (zoneBaseFee_domestic _ _)).1 default_no_empty_code).1 rfl,
   ((insurance_threshold_strict NewShippingCalculator (F64.fin 25) "Domestic" _
      ((F64.fin_lt_fin _ _).2 (by norm_num)) ((F64.fin_le_fin _ _).2 (by norm_num))
      (zoneBaseFee_domestic _ _)).1 default_no_empty_code).2.2
      ((F64.fin_lt_fin 20 25).2 (by norm_num)),
   (insurance_threshold_strict NewShippingCalculator (F64.fin 25) "Domestic" _
      ((F64.fin_lt_fin _ _).2 (by norm_num)) ((F64.fin_le_fin _ _).2 (by norm_num))
      (zoneBaseFee_domestic _ _)).2.2.1⟩

/-! ## C6: the empty discount code -/

/-- C6, counterexample: after `AddDiscountCode("", 0.5)` on the default
configuration (a reachable configuration), the call with weight 10, zone
"Domestic" and the empty code returns 7.5, the base fee 15 with the 50 %
discount applied, and not the undiscounted 15: the discount step is not
skipped for the empty code in every reachable configuration. -/
theorem empty_code_not_always_skipped :
    Reachable (AddDiscountCode NewShippingCalculator "" (F64.fin (1 / 2))).1 ∧
    zoneBaseFee (AddDiscountCode NewShippingCalculator "" (F64.fin (1 / 2))).1 (F64.fin 10)
      "Domestic" = some (F64.fin 15) ∧
    round2 (insuredFee (AddDiscountCode NewShippingCalculator "" (F64.fin (1 / 2))).1
      (F64.fin 10) (F64.fin 15)) = F64.fin 15 ∧
    CalculateShippingFeeV2 (AddDiscountCode NewShippingCalculator "" (F64.fin (1 / 2))).1
      (F64.fin 10) "Domestic" "" = .ok (F64.fin (15 / 2)) ∧
    ¬ (∀ (sc : ShippingCalculator) (weight : F64) (zone : String) (b : F64), Reachable sc →
        F64.fin 0 < weight → weight ≤ F64.fin 50 → zoneBaseFee sc weight zone = some b →
        CalculateShippingFeeV2 sc weight zone "" = .ok (round2 (insuredFee sc weight b))) := by
  have hreach : Reachable (AddDiscountCode NewShippingCalculator "" (F64.fin (1 / 2))).1 :=
    Reachable.addCode _ _ _ Reachable.init
  have hbase : zoneBaseFee (AddDiscountCode NewShippingCalculator "" (F64.fin (1 / 2))).1
      (F64.fin 10) "Domestic" = some (F64.fin 15) := by
    rw [zoneBaseFee_addDiscountCode]
    exact base_default_10
  have hround : round2 (insuredFee (AddDiscountCode NewShippingCalculator ""
      (F64.fin (1 / 2))).1 (F64.fin 10) (F64.fin 15)) = F64.fin 15 := by
    rw [insuredFee_addDiscountCode]
    have h := fee_default_10
    rw [feeV2_of_guard _ _ _ _ _ (guard_false_fin 10 (by norm_num) (by norm_num))
      base_default_10, default_no_empty_code] at h
    simp only [ne_eq, not_true_eq_false, if_false] at h
    injection h with h
    rw [h, rnd_cents_1500]
  have hfee : CalculateShippingFeeV2 (AddDiscountCode NewShippingCalculator ""
      (F64.fin (1 / 2))).1 (F64.fin 10) "Domestic" "" = .ok (F64.fin (15 / 2)) := by
    rw [fee_empty_half_10, rnd_cents_750]
  refine ⟨hreach, hbase, hround, hfee, ?_⟩
  intro hall
  have h := hall _ (F64.fin 10) "Domestic" (F64.fin 15) hreach ((F64.fin_lt_fin _ _).2 (by norm_num))
    ((F64.fin_le_fin _ _).2 (by norm_num)) hbase
  rw [hfee, hround] at h
  injection h with h
  injection h with h
  norm_num at h

/-- C6, amended: for every configuration in which the empty string is not a
key of `volumeDiscounts`, every valid weight and every zone whose base fee `b`
is computable, the call with the empty discount code succeeds with the insured
base fee rounded to two decimals, no discount applied; in a configuration where
the empty string is registered with `d`, that discount is applied. -/
theorem empty_code_skips_discount (sc : ShippingCalculator) (weight : F64) (zone : String)
    (b : F64) (h0 : F64.fin 0 < weight) (h50 : weight ≤ F64.fin 50)
    (hb : zoneBaseFee sc weight zone = some b) :
    (sc.volumeDiscounts "" = none →
      CalculateShippingFeeV2 sc weight zone "" = .ok (round2 (insuredFee sc weight b))) ∧
    (∀ d, sc.volumeDiscounts "" = some d →
      CalculateShippingFeeV2 sc weight zone "" =
        .ok (round2 (insuredFee sc weight b * (F64.fin 1 - d)))) := by
  have hfee := feeV2_of_base sc weight zone "" b h0 h50 hb
  constructor
  · intro hnone
    rw [hnone] at hfee
    simpa using hfee
  · intro d hd
    rw [hd] at hfee
    exact hfee

/-- Witness for C6 amended: the default configuration has no empty code and
charges the undiscounted fee for (10, "Domestic", ""); once the empty code is
registered with 0.5 the same call applies that discount. -/
theorem empty_code_skips_discount_witness :
    CalculateShippingFeeV2 NewShippingCalculator (F64.fin 10) "Domestic" "" =
      .ok (round2 (insuredFee NewShippingCalculator (F64.fin 10) (F64.fin 15))) ∧
    CalculateShippingFeeV2 (AddDiscountCode NewShippingCalculator "" (F64.fin (1 / 2))).1
      (F64.fin 10) "Domestic" "" =
      .ok (round2 (insuredFee (AddDiscountCode NewShippingCalculator "" (F64.fin (1 / 2))).1
        (F64.fin 10) (F64.fin 15) * (F64.fin 1 - F64.fin (1 / 2)))) :=
  ⟨(empty_code_skips_discount NewShippingCalculator (F64.fin 10) "Domestic" (F64.fin 15)
      ((F64.fin_lt_fin _ _).2 (by norm_num)) ((F64.fin_le_fin _ _).2 (by norm_num))
      base_default_10).1 default_no_empty_code,
   (empty_code_skips_discount (AddDiscountCode NewShippingCalculator "" (F64.fin (1 / 2))).1
      (F64.fin 10) "Domestic" (F64.fin 15) ((F64.fin_lt_fin _ _).2 (by norm_num))
      ((F64.fin_le_fin _ _).2 (by norm_num))
      (by rw [zoneBaseFee_addDiscountCode]; exact base_default_10)).2 (F64.fin (1 / 2))
      (addDiscountCode_accepted _ _ _
        (discount_guard_false_fin (1 / 2) (by norm_num) (by norm_num))).2.1⟩

/-! ## C7: unknown discount codes -/

/-- C7: for every configuration, valid weight and zone whose base fee is
computable, a non-empty discount code that is not a key of `volumeDiscounts`
makes `CalculateShippingFeeV2` fail with the unknown-discount-code error naming
the code. -/
theorem unknown_discount_code_rejected (sc : ShippingCalculator) (weight : F64)
    (zone code : String) (b : F64) (h0 : F64.fin 0 < weight) (h50 : weight ≤ F64.fin 50)
    (hb : zoneBaseFee sc weight zone = some b) (hne : code ≠ "")
    (hnone : sc.volumeDiscounts code = none) :
    CalculateShippingFeeV2 sc weight zone code = .error ("invalid discount code: " ++ code) := by
  have hfee := feeV2_of_base sc weight zone code b h0 h50 hb
  rw [hnone] at hfee
  simpa [hne] using hfee

/-- Witness for C7: the default configuration rejects the code "WINTER5" for
(10, "Express"), and for (10, "International") once a rate is registered under
"International". -/
theorem unknown_discount_code_rejected_witness :
    CalculateShippingFeeV2 NewShippingCalculator (F64.fin 10) "Express" "WINTER5" =
      .error "invalid discount code: WINTER5" ∧
    CalculateShippingFeeV2
      (SetInternationalRate NewShippingCalculator "International" (F64.fin 3)) (F64.fin 10)
      "International" "WINTER5" = .error "invalid discount code: WINTER5" :=
  ⟨unknown_discount_code_rejected NewShippingCalculator (F64.fin 10) "Express" "WINTER5" _
      ((F64.fin_lt_fin _ _).2 (by norm_num)) ((F64.fin_le_fin _ _).2 (by norm_num))
      (zoneBaseFee_express _ _) (by decide) default_no_winter5,
   unknown_discount_code_rejected
      (SetInternationalRate NewShippingCalculator "International" (F64.fin 3)) (F64.fin 10)
      "International" "WINTER5" _ ((F64.fin_lt_fin _ _).2 (by norm_num))
      ((F64.fin_le_fin _ _).2 (by norm_num))
      (zoneBaseFee_international _ _ (F64.fin 3) (by simp [SetInternationalRate]))
      (by decide) default_no_winter5⟩

/-! ## C8: the international rate is looked up under "International" -/

/-- C8: with a valid weight and zone "International" the rate is looked up
under the key "International": absent, the call fails with the
rate-unavailable error naming the zone; present, the base fee is the binary64
product `rate * weight`.  Hence after `SetInternationalRate(z, r)` with `z`
none of "International", "Domestic", "Express", a call with zone `z` still
fails with the unknown-zone error, and a call with zone "International" still
fails with rate-unavailable when no rate was registered under "International"
itself. -/
theorem international_rate_lookup (sc : ShippingCalculator) (weight : F64) (code : String)
    (h0 : F64.fin 0 < weight) (h50 : weight ≤ F64.fin 50) :
    (sc.internationalRates "International" = none →
      CalculateShippingFeeV2 sc weight "International" code =
        .error "shipping rate not available for zone: International") ∧
    (∀ rate, sc.internationalRates "International" = some rate →
      zoneBaseFee sc weight "International" = some (rate * weight) ∧
      (sc.volumeDiscounts code = none → code = "" →
        CalculateShippingFeeV2 sc weight "International" code =
          .ok (round2 (insuredFee sc weight (rate * weight)))) ∧
      (∀ d, sc.volumeDiscounts code = some d →
        CalculateShippingFeeV2 sc weight "International" code =
          .ok (round2 (insuredFee sc weight (rate * weight) * (F64.fin 1 - d))))) ∧
    (∀ z r, z ≠ "International" → z ≠ "Domestic" → z ≠ "Express" →
      CalculateShippingFeeV2 (SetInternationalRate sc z r) weight z code =
        .error ("invalid zone: " ++ z)) ∧
    (∀ z r, z ≠ "International" → sc.internationalRates "International" = none →
      CalculateShippingFeeV2 (SetInternationalRate sc z r) weight "International" code =
        .error "shipping rate not available for zone: International") := by
  have hw := weight_guard_false h0 h50
  have hmiss : ∀ sc' : ShippingCalculator, sc'.internationalRates "International" = none →
      CalculateShippingFeeV2 sc' weight "International" code =
        .error "shipping rate not available for zone: International" := by
    intro sc' hnone
    unfold CalculateShippingFeeV2
    rw [if_neg hw]
    simp only [if_neg (show ¬ ("International" = "Domestic") by decide),
      if_neg (show ¬ ("International" = "Express") by decide), if_true, hnone]
    rfl
  refine ⟨hmiss sc, ?_, ?_, ?_⟩
  · intro rate hrate
    have hb := zoneBaseFee_international sc weight rate hrate
    have hfee := feeV2_of_base sc weight "International" code (rate * weight) h0 h50 hb
    refine ⟨hb, ?_, ?_⟩
    · intro hnone hempty
      rw [hnone] at hfee
      simpa [hempty] using hfee
    · intro d hd
      rw [hd] at hfee
      exact hfee
  · intro z r hI hD hE
    unfold CalculateShippingFeeV2
    rw [if_neg hw]
    simp only [if_neg hD, if_neg hE, if_neg hI]
  · intro z r hI hnone
    apply hmiss
    have hne : ¬ ("International" = z) := fun h => hI h.symm
    simp only [SetInternationalRate, if_neg hne, hnone]

/-- Witness for C8: a rate registered for "Canada" on the default
configuration is unreachable (zone "Canada" is unknown, zone "International"
has no rate), while a rate 3 registered under "International" prices 10 kg at
30. -/
theorem international_rate_lookup_witness :
    CalculateShippingFeeV2 (SetInternationalRate NewShippingCalculator "Canada" (F64.fin 3))
      (F64.fin 10) "Canada" "" = .error "invalid zone: Canada" ∧
    CalculateShippingFeeV2 (SetInternationalRate NewShippingCalculator "Canada" (F64.fin 3))
      (F64.fin 10) "International" "" =
      .error "shipping rate not available for zone: International" ∧
    CalculateShippingFeeV2 NewShippingCalculator (F64.fin 10) "International" "" =
      .error "shipping rate not available for zone: International" ∧
    CalculateShippingFeeV2
      (SetInternationalRate NewShippingCalculator "International" (F64.fin 3)) (F64.fin 10)
      "International" "" =
      .ok (round2 (insuredFee
        (SetInternationalRate NewShippingCalculator "International" (F64.fin 3)) (F64.fin 10)
        (F64.fin 3 * F64.fin 10))) ∧
    CalculateShippingFeeV2
      (SetInternationalRate NewShippingCalculator "International" (F64.fin 3)) (F64.fin 10)
      "International" "" = .ok (F64.fin 30) :=
  ⟨(international_rate_lookup NewShippingCalculator (F64.fin 10) ""
      ((F64.fin_lt_fin _ _).2 (by norm_num)) ((F64.fin_le_fin _ _).2 (by norm_num))).2.2.1
      "Canada" (F64.fin 3) (by decide) (by decide) (by decide),
   (international_rate_lookup NewShippingCalculator (F64.fin 10) ""
      ((F64.fin_lt_fin _ _).2 (by norm_num)) ((F64.fin_le_fin _ _).2 (by norm_num))).2.2.2
      "Canada" (F64.fin 3) (by decide) rfl,
   (international_rate_lookup NewShippingCalculator (F64.fin 10) ""
      ((F64.fin_lt_fin _ _).2 (by norm_num)) ((F64.fin_le_fin _ _).2 (by norm_num))).1 rfl,
   ((international_rate_lookup
      (SetInternationalRate NewShippingCalculator "International" (F64.fin 3)) (F64.fin 10) ""
      ((F64.fin_lt_fin _ _).2 (by norm_num)) ((F64.fin_le_fin _ _).2 (by norm_num))).2.1
      (F64.fin 3) (by simp [SetInternationalRate])).2.1 default_no_empty_code rfl,
   by rw [fee_intl3_10, rnd_cents_3000]⟩

/-! ## Helper lemmas: `AddDiscountCode` and the stored discounts -/

/-- The guard of `AddDiscountCode` on a percentage that is a number: it passes
exactly the percentages strictly between 0 and 1. -/
theorem discount_guard_iff_of_number (p : F64) (hp : p ≠ F64.nan) :
    ¬(p ≤ F64.fin 0 ∨ p ≥ F64.fin 1) ↔ (F64.fin 0 < p ∧ p < F64.fin 1) := by
  constructor
  · intro h
    exact ⟨F64.lt_of_not_le hp (by intro h'; cases h') (fun hc => h (Or.inl hc)),
      F64.lt_of_not_le (by intro h'; cases h') hp (fun hc => h (Or.inr hc))⟩
  · rintro ⟨h0, h1⟩ (h | h)
    · exact F64.not_le_of_lt h0 h
    · exact F64.not_le_of_lt h1 h

/-- The specification of `AddDiscountCode`, for a percentage that is a number
(not NaN). -/
theorem add_discount_code_spec_of_number (sc : ShippingCalculator) (code : String) (p : F64)
    (hp : p ≠ F64.nan) :
    ((AddDiscountCode sc code p).2 = some "discount percentage must be between 0 and 1" ↔
      (p ≤ F64.fin 0 ∨ p ≥ F64.fin 1)) ∧
    ((AddDiscountCode sc code p).2 = none ↔ (F64.fin 0 < p ∧ p < F64.fin 1)) ∧
    ((AddDiscountCode sc code p).2 ≠ none → (AddDiscountCode sc code p).1 = sc) ∧
    ((AddDiscountCode sc code p).2 = none →
      (AddDiscountCode sc code p).1.volumeDiscounts code = some p ∧
      (∀ k, k ≠ code →
        (AddDiscountCode sc code p).1.volumeDiscounts k = sc.volumeDiscounts k) ∧
      (AddDiscountCode sc code p).1.internationalRates = sc.internationalRates ∧
      (AddDiscountCode sc code p).1.domesticBaseRate = sc.domesticBaseRate ∧
      (AddDiscountCode sc code p).1.domesticPerKgRate = sc.domesticPerKgRate ∧
      (AddDiscountCode sc code p).1.expressBaseRate = sc.expressBaseRate ∧
      (AddDiscountCode sc code p).1.expressPerKgRate = sc.expressPerKgRate ∧
      (AddDiscountCode sc code p).1.insuranceThreshold = sc.insuranceThreshold ∧
      (AddDiscountCode sc code p).1.insuranceRate = sc.insuranceRate) := by
  obtain ⟨f1, f2, f3, f4, f5, f6, f7⟩ := addDiscountCode_scalars sc code p
  by_cases hg : p ≤ F64.fin 0 ∨ p ≥ F64.fin 1
  · have hbad : ¬ (F64.fin 0 < p ∧ p < F64.fin 1) :=
      fun h => (discount_guard_iff_of_number p hp).2 h hg
    have hrej := addDiscountCode_rejected sc code p hg
    refine ⟨?_, ?_, ?_, ?_⟩
    · rw [hrej]
      exact ⟨fun _ => hg, fun _ => rfl⟩
    · rw [hrej]
      exact ⟨fun h => (by cases h), fun h => absurd h hbad⟩
    · intro _
      rw [hrej]
    · intro h
      rw [hrej] at h
      cases h
  · have hgood := (discount_guard_iff_of_number p hp).1 hg
    obtain ⟨a1, a2, a3⟩ := addDiscountCode_accepted sc code p hg
    refine ⟨?_, ?_, ?_, ?_⟩
    · rw [a1]
      exact ⟨fun h => (by cases h), fun h => absurd h hg⟩
    · rw [a1]
      exact ⟨fun _ => hgood, fun _ => rfl⟩
    · intro h
      exact absurd a1 h
    · intro _
      exact ⟨a2, a3, f7, f1, f2, f3, f4, f5, f6⟩

/-- Every discount stored in a reachable configuration passed the guard of
`AddDiscountCode` (the two default discounts pass it as well). -/
theorem reachable_discounts {sc : ShippingCalculator} (h : Reachable sc) :
    ∀ k d, sc.volumeDiscounts k = some d → ¬(d ≤ F64.fin 0 ∨ d ≥ F64.fin 1) := by
  induction h with
  | init =>
    intro k d hk
    have hk' : (if k = "SUMMER10" then some (F64.rnd (1 / 10))
        else if k = "BULK20" then some (F64.rnd (1 / 5)) else none) = some d := hk
    split at hk'
    · cases hk'
      rw [rnd_one_tenth]
      exact discount_guard_false_fin _ (by norm_num) (by norm_num)
    · split at hk'
      · cases hk'
        rw [rnd_one_fifth]
        exact discount_guard_false_fin _ (by norm_num) (by norm_num)
      · cases hk'
  | setRate sc zone r _ ih => exact ih
  | addCode sc code p _ ih =>
    intro k d hk
    by_cases hp : p ≤ F64.fin 0 ∨ p ≥ F64.fin 1
    · rw [addDiscountCode_rejected sc code p hp] at hk
      exact ih k d hk
    · obtain ⟨-, a2, a3⟩ := addDiscountCode_accepted sc code p hp
      by_cases hkc : k = code
      · rw [hkc, a2] at hk
        cases hk
        exact hp
      · rw [a3 k hkc] at hk
        exact ih k d hk

/-- In a reachable configuration every stored discount that is a number lies
strictly between 0 and 1. -/
theorem reachable_discounts_of_number {sc : ShippingCalculator} (h : Reachable sc) (k : String)
    (d : F64) (hk : sc.volumeDiscounts k = some d) (hd : d ≠ F64.nan) :
    F64.fin 0 < d ∧ d < F64.fin 1 :=
  (discount_guard_iff_of_number d hd).1 (reachable_discounts h k d hk)

theorem nan_passes_discount_guard : ¬(F64.nan ≤ F64.fin 0 ∨ F64.nan ≥ F64.fin 1) := by
  rintro (h | h)
  · exact F64.not_nan_le _ h
  · exact F64.not_le_nan _ h

theorem default_no_x : NewShippingCalculator.volumeDiscounts "X" = none := by
  show (if "X" = "SUMMER10" then some (F64.rnd (1 / 10))
    else if "X" = "BULK20" then some (F64.rnd (1 / 5)) else none) = _
  rw [if_neg (by decide), if_neg (by decide)]

/-! ## C9: `AddDiscountCode` -/

/-- C9, the code at the failing input: `AddDiscountCode("X", NaN)` on the
default configuration returns no error and stores NaN under "X", so the
configuration changes, although NaN is not strictly between 0 and 1: both
comparisons of the guard `p <= 0 || p >= 1` are false for NaN. -/
theorem add_discount_code_accepts_nan :
    (AddDiscountCode NewShippingCalculator "X" F64.nan).2 = none ∧
    (AddDiscountCode NewShippingCalculator "X" F64.nan).1.volumeDiscounts "X" = some F64.nan ∧
    NewShippingCalculator.volumeDiscounts "X" = none ∧
    (AddDiscountCode NewShippingCalculator "X" F64.nan).1 ≠ NewShippingCalculator ∧
    ¬ (F64.fin 0 < F64.nan ∧ F64.nan < F64.fin 1) ∧
    ¬ (F64.nan ≤ F64.fin 0 ∨ F64.nan ≥ F64.fin 1) := by
  obtain ⟨a1, a2, -⟩ := addDiscountCode_accepted NewShippingCalculator "X" F64.nan
    nan_passes_discount_guard
  refine ⟨a1, a2, default_no_x, ?_, ?_, nan_passes_discount_guard⟩
  · intro h
    rw [h, default_no_x] at a2
    cases a2
  · intro h
    exact F64.not_nan_lt _ h.2

/-! ## C10: a registered discount code is used by the next fee computation -/

/-- C10: for every configuration, code and `p`, `p'` strictly between 0 and
1, `AddDiscountCode(code, p)` succeeds and a following `CalculateShippingFeeV2`
call with that code, a valid weight and zone "Domestic" or "Express" returns
the insured base fee (the base fee `b`, plus `b * insuranceRate` above the
threshold) times `1 - p`, rounded to two decimals by `math.Round(x*100)/100`,
all in binary64; after a second `AddDiscountCode(code, p')` the fee uses
`p'`. -/
theorem discount_read_after_write (sc : ShippingCalculator) (code : String) (p p' : F64)
    (weight : F64) (zone : String) (hp : F64.fin 0 < p ∧ p < F64.fin 1)
    (hp' : F64.fin 0 < p' ∧ p' < F64.fin 1)
    (h0 : F64.fin 0 < weight) (h50 : weight ≤ F64.fin 50)
    (hz : zone = "Domestic" ∨ zone = "Express") :
    ∃ b, zoneBaseFee sc weight zone = some b ∧
      (b = if zone = "Domestic" then sc.domesticBaseRate + weight * sc.domesticPerKgRate
        else sc.expressBaseRate + weight * sc.expressPerKgRate) ∧
      (AddDiscountCode sc code p).2 = none ∧
      CalculateShippingFeeV2 (AddDiscountCode sc code p).1 weight zone code =
        .ok (round2 ((if weight > sc.insuranceThreshold then b + b * sc.insuranceRate else b)
          * (F64.fin 1 - p))) ∧
      (AddDiscountCode (AddDiscountCode sc code p).1 code p').2 = none ∧
      CalculateShippingFeeV2 (AddDiscountCode (AddDiscountCode sc code p).1 code p').1
        weight zone code =
        .ok (round2 ((if weight > sc.insuranceThreshold then b + b * sc.insuranceRate else b)
          * (F64.fin 1 - p'))) := by
  have hpn : ¬ (p ≤ F64.fin 0 ∨ p ≥ F64.fin 1) := by
    rintro (h | h)
    · exact F64.not_le_of_lt hp.1 h
    · exact F64.not_le_of_lt hp.2 h
  have hpn' : ¬ (p' ≤ F64.fin 0 ∨ p' ≥ F64.fin 1) := by
    rintro (h | h)
    · exact F64.not_le_of_lt hp'.1 h
    · exact F64.not_le_of_lt hp'.2 h
  have key : ∀ (sc' : ShippingCalculator) (q b : F64), ¬ (q ≤ F64.fin 0 ∨ q ≥ F64.fin 1) →
      zoneBaseFee sc' weight zone = some b →
      CalculateShippingFeeV2 (AddDiscountCode sc' code q).1 weight zone code =
        .ok (round2 (insuredFee sc' weight b * (F64.fin 1 - q))) := by
    intro sc' q b hq hb
    have hb' : zoneBaseFee (AddDiscountCode sc' code q).1 weight zone = some b := by
      rw [zoneBaseFee_addDiscountCode, hb]
    have hfee := feeV2_of_base _ weight zone code b h0 h50 hb'
    rw [(addDiscountCode_accepted sc' code q hq).2.1] at hfee
    rw [hfee, insuredFee_addDiscountCode]
  have hb : zoneBaseFee sc weight zone =
      some (if zone = "Domestic" then sc.domesticBaseRate + weight * sc.domesticPerKgRate
        else sc.expressBaseRate + weight * sc.expressPerKgRate) := by
    rcases hz with hz | hz
    · subst hz
      rw [zoneBaseFee_domestic, if_pos rfl]
    · subst hz
      rw [zoneBaseFee_express, if_neg (by decide)]
  refine ⟨_, hb, rfl, (addDiscountCode_accepted sc code p hpn).1, key sc p _ hpn hb,
    (addDiscountCode_accepted _ code p' hpn').1, ?_⟩
  have hb1 : zoneBaseFee (AddDiscountCode sc code p).1 weight zone =
      some (if zone = "Domestic" then sc.domesticBaseRate + weight * sc.domesticPerKgRate
        else sc.expressBaseRate + weight * sc.expressPerKgRate) := by
    rw [zoneBaseFee_addDiscountCode, hb]
  rw [key (AddDiscountCode sc code p).1 p' _ hpn' hb1, insuredFee_addDiscountCode]
  rfl

/-- Witness for C10: on the default configuration, "VIP" registered with 1/4
and then with 1/2, zone "Domestic", weight 10 (base fee 15): the fee is
11.25 after the first registration and 7.5 after the second. -/
theorem discount_read_after_write_witness :
    CalculateShippingFeeV2 (AddDiscountCode NewShippingCalculator "VIP" (F64.fin (1 / 4))).1
      (F64.fin 10) "Domestic" "VIP" = .ok (F64.fin (45 / 4)) ∧
    CalculateShippingFeeV2
      (AddDiscountCode (AddDiscountCode NewShippingCalculator "VIP" (F64.fin (1 / 4))).1 "VIP"
        (F64.fin (1 / 2))).1 (F64.fin 10) "Domestic" "VIP" = .ok (F64.fin (15 / 2)) ∧
    ∃ b, zoneBaseFee NewShippingCalculator (F64.fin 10) "Domestic" = some b ∧
      (b = if "Domestic" = "Domestic" then
          NewShippingCalculator.domesticBaseRate +
            F64.fin 10 * NewShippingCalculator.domesticPerKgRate
        else NewShippingCalculator.expressBaseRate +
          F64.fin 10 * NewShippingCalculator.expressPerKgRate) ∧
      (AddDiscountCode NewShippingCalculator "VIP" (F64.fin (1 / 4))).2 = none ∧
      CalculateShippingFeeV2 (AddDiscountCode NewShippingCalculator "VIP" (F64.fin (1 / 4))).1
        (F64.fin 10) "Domestic" "VIP" =
        .ok (round2 ((if F64.fin 10 > NewShippingCalculator.insuranceThreshold then
            b + b * NewShippingCalculator.insuranceRate else b) * (F64.fin 1 - F64.fin (1 / 4)))) ∧
      (AddDiscountCode (AddDiscountCode NewShippingCalculator "VIP" (F64.fin (1 / 4))).1 "VIP"
        (F64.fin (1 / 2))).2 = none ∧
      CalculateShippingFeeV2
        (AddDiscountCode (AddDiscountCode NewShippingCalculator "VIP" (F64.fin (1 / 4))).1 "VIP"
          (F64.fin (1 / 2))).1 (F64.fin 10) "Domestic" "VIP" =
        .ok (round2 ((if F64.fin 10 > NewShippingCalculator.insuranceThreshold then
            b + b * NewShippingCalculator.insuranceRate else b) *
          (F64.fin 1 - F64.fin (1 / 2)))) :=
  ⟨by rw [fee_vip_quarter_10, rnd_cents_1125], by rw [fee_vip_quarter_half_10, rnd_cents_750],
   discount_read_after_write NewShippingCalculator "VIP" (F64.fin (1 / 4)) (F64.fin (1 / 2))
    (F64.fin 10) "Domestic"
    ⟨(F64.fin_lt_fin _ _).2 (by norm_num), (F64.fin_lt_fin _ _).2 (by norm_num)⟩
    ⟨(F64.fin_lt_fin _ _).2 (by norm_num), (F64.fin_lt_fin _ _).2 (by norm_num)⟩
    ((F64.fin_lt_fin _ _).2 (by norm_num)) ((F64.fin_le_fin _ _).2 (by norm_num)) (Or.inl rfl)⟩

/-! ## C11: `SetInternationalRate` is idempotent and last-write-wins -/

/-- C11: applying `SetInternationalRate(z, r)` twice gives the same
configuration, hence the same result of every `CalculateShippingFeeV2` call, as
applying it once; `SetInternationalRate(z, r)` followed by
`SetInternationalRate(z, r')` gives the same configuration as
`SetInternationalRate(z, r')` alone.  The call has no error result and stores
any rate under any zone name, whatever its sign. -/
theorem set_international_rate_idempotent (sc : ShippingCalculator) (z : String) (r r' : F64) :
    SetInternationalRate (SetInternationalRate sc z r) z r = SetInternationalRate sc z r ∧
    SetInternationalRate (SetInternationalRate sc z r) z r' = SetInternationalRate sc z r' ∧
    (∀ weight zone code,
      CalculateShippingFeeV2 (SetInternationalRate (SetInternationalRate sc z r) z r)
        weight zone code = CalculateShippingFeeV2 (SetInternationalRate sc z r) weight zone code) ∧
    (∀ weight zone code,
      CalculateShippingFeeV2 (SetInternationalRate (SetInternationalRate sc z r) z r')
        weight zone code =
        CalculateShippingFeeV2 (SetInternationalRate sc z r') weight zone code) ∧
    (SetInternationalRate sc z r).internationalRates z = some r := by
  have hover : ∀ a b : F64,
      SetInternationalRate (SetInternationalRate sc z a) z b = SetInternationalRate sc z b := by
    intro a b
    unfold SetInternationalRate
    congr 1
    funext k
    by_cases hk : k = z
    · simp only [if_pos hk]
    · simp only [if_neg hk]
  refine ⟨hover r r, hover r r', ?_, ?_, ?_⟩
  · intro weight zone code
    rw [hover r r]
  · intro weight zone code
    rw [hover r r']
  · simp only [SetInternationalRate, if_true]

/-! ## C12: every stored discount lies strictly between 0 and 1 -/

/-- C12, the code at the failing input: the configuration after
`AddDiscountCode("X", NaN)` on the default configuration is reachable and
holds NaN under "X", a value that is not strictly between 0 and 1. -/
theorem nan_discount_is_reachable :
    Reachable (AddDiscountCode NewShippingCalculator "X" F64.nan).1 ∧
    (AddDiscountCode NewShippingCalculator "X" F64.nan).1.volumeDiscounts "X" = some F64.nan ∧
    ¬ (F64.fin 0 < F64.nan ∧ F64.nan < F64.fin 1) ∧
    ¬ (∀ (sc : ShippingCalculator) (k : String) (d : F64), Reachable sc →
        sc.volumeDiscounts k = some d → F64.fin 0 < d ∧ d < F64.fin 1) := by
  have hr : Reachable (AddDiscountCode NewShippingCalculator "X" F64.nan).1 :=
    Reachable.addCode _ _ _ Reachable.init
  have hk := (addDiscountCode_accepted NewShippingCalculator "X" F64.nan
    nan_passes_discount_guard).2.1
  have hnot : ¬ (F64.fin 0 < F64.nan ∧ F64.nan < F64.fin 1) := fun h => F64.not_nan_lt _ h.2
  exact ⟨hr, hk, hnot, fun hall => hnot (hall _ "X" F64.nan hr hk)⟩

/-! ## C13: signs of the rate fields -/

theorem fee_negative_rate :
    CalculateShippingFeeV2
      (SetInternationalRate NewShippingCalculator "International" (F64.fin (-1))) (F64.fin 10)
      "International" "" = .ok (F64.fin (-10)) := by
  have hbase : F64.fin (-1) * F64.fin 10 = F64.fin (-10) := by
    rw [F64.mul_fin]
    have h : ((-1 : ℚ) * 10) = -10 := by norm_num
    rw [h]
    exact F64.rnd_neg_eval 10 3 5629499534213120 10 (by norm_num)
  have hy : F64.fin (-10) * F64.fin 100 = F64.fin (-1000) := by
    rw [F64.mul_fin]
    have h : ((-10 : ℚ) * 100) = -1000 := by norm_num
    rw [h]
    exact F64.rnd_neg_eval 1000 9 8796093022208000 1000 (by norm_num)
  have hround : mathRound (-1000) = -1000 := mathRound_eval_neg _ _ 1000 (by norm_num)
  have hfee := feeV2_steps_plain
    (SetInternationalRate NewShippingCalculator "International" (F64.fin (-1))) (F64.fin 10)
    "International" (F64.fin (-10)) (F64.fin (-10)) (-1000) (-1000)
    (guard_false_fin 10 (by norm_num) (by norm_num))
    (by
      rw [zoneBaseFee_international _ _ (F64.fin (-1)) (by simp [SetInternationalRate])]
      rw [hbase])
    (by
      rw [insuredFee_not_above _ _ _
        (F64.not_lt_of_le ((F64.fin_le_fin 10 20).2 (by norm_num)))])
    default_no_empty_code hy hround
  rw [hfee]
  have h : ((-1000 : ℚ) / 100) = -10 := by norm_num
  rw [h]
  exact congrArg _ (F64.rnd_neg_eval 10 3 5629499534213120 10 (by norm_num))

/-- C13, counterexample: `SetInternationalRate("International", -1)` on the
default configuration yields a reachable configuration whose international
rate table holds the negative rate -1 (the call (10, "International", "") then
returns the fee -10), so not every stored per-kilogram rate is non-negative in
every reachable configuration. -/
theorem negative_rate_is_reachable :
    Reachable (SetInternationalRate NewShippingCalculator "International" (F64.fin (-1))) ∧
    (SetInternationalRate NewShippingCalculator "International"
      (F64.fin (-1))).internationalRates "International" = some (F64.fin (-1)) ∧
    CalculateShippingFeeV2
      (SetInternationalRate NewShippingCalculator "International" (F64.fin (-1))) (F64.fin 10)
      "International" "" = .ok (F64.fin (-10)) ∧
    ¬ (∀ sc : ShippingCalculator, Reachable sc →
        F64.fin 0 ≤ sc.domesticBaseRate ∧ F64.fin 0 ≤ sc.domesticPerKgRate ∧
        F64.fin 0 ≤ sc.expressBaseRate ∧ F64.fin 0 ≤ sc.expressPerKgRate ∧
        F64.fin 0 ≤ sc.insuranceThreshold ∧ F64.fin 0 ≤ sc.insuranceRate ∧
        ∀ k r, sc.internationalRates k = some r → F64.fin 0 ≤ r) := by
  have hreach : Reachable
      (SetInternationalRate NewShippingCalculator "International" (F64.fin (-1))) :=
    Reachable.setRate _ _ _ Reachable.init
  have hrate : (SetInternationalRate NewShippingCalculator "International"
      (F64.fin (-1))).internationalRates "International" = some (F64.fin (-1)) := by
    simp only [SetInternationalRate, if_true]
  refine ⟨hreach, hrate, fee_negative_rate, ?_⟩
  intro hall
  have h := (hall _ hreach).2.2.2.2.2.2 "International" (F64.fin (-1)) hrate
  have h' := (F64.fin_le_fin 0 (-1)).1 h
  norm_num at h'

/-- C13, amended: in every reachable configuration the scalar fields
`domesticBaseRate`, `domesticPerKgRate`, `expressBaseRate`, `expressPerKgRate`,
`insuranceThreshold` and `insuranceRate` are non-negative (they keep their
default values); the rates stored in `internationalRates` are non-negative
when every `SetInternationalRate` call was given a non-negative rate. -/
theorem scalar_fields_nonneg (sc : ShippingCalculator) (h : Reachable sc) :
    F64.fin 0 ≤ sc.domesticBaseRate ∧ F64.fin 0 ≤ sc.domesticPerKgRate ∧
    F64.fin 0 ≤ sc.expressBaseRate ∧ F64.fin 0 ≤ sc.expressPerKgRate ∧
    F64.fin 0 ≤ sc.insuranceThreshold ∧ F64.fin 0 ≤ sc.insuranceRate ∧
    (ReachableNonnegRates sc → ∀ k r, sc.internationalRates k = some r → F64.fin 0 ≤ r) := by
  obtain ⟨h1, h2, h3, h4, h5, h6⟩ := reachable_scalars h
  rw [h1, h2, h3, h4, h5, h6, rnd_one_twentieth]
  refine ⟨(F64.fin_le_fin _ _).2 (by norm_num), (F64.fin_le_fin _ _).2 (by norm_num),
    (F64.fin_le_fin _ _).2 (by norm_num), (F64.fin_le_fin _ _).2 (by norm_num),
    (F64.fin_le_fin _ _).2 (by norm_num), (F64.fin_le_fin _ _).2 (by norm_num), ?_⟩
  intro hn
  exact nonnegRates_stored hn

/-- Witness for C13 amended: the configuration after
`SetInternationalRate("Canada", 3)` and `AddDiscountCode("VIP", 1/4)`. -/
theorem scalar_fields_nonneg_witness :
    Reachable (AddDiscountCode (SetInternationalRate NewShippingCalculator "Canada" (F64.fin 3))
      "VIP" (F64.fin (1 / 4))).1 ∧
    F64.fin 0 ≤ (AddDiscountCode (SetInternationalRate NewShippingCalculator "Canada"
      (F64.fin 3)) "VIP" (F64.fin (1 / 4))).1.insuranceRate ∧
    (∀ k r, (AddDiscountCode (SetInternationalRate NewShippingCalculator "Canada" (F64.fin 3))
      "VIP" (F64.fin (1 / 4))).1.internationalRates k = some r → F64.fin 0 ≤ r) := by
  have hr : Reachable (AddDiscountCode
      (SetInternationalRate NewShippingCalculator "Canada" (F64.fin 3)) "VIP"
      (F64.fin (1 / 4))).1 := Reachable.addCode _ _ _ (Reachable.setRate _ _ _ Reachable.init)
  have hn : ReachableNonnegRates (AddDiscountCode
      (SetInternationalRate NewShippingCalculator "Canada" (F64.fin 3)) "VIP"
      (F64.fin (1 / 4))).1 :=
    ReachableNonnegRates.addCode _ _ _
      (ReachableNonnegRates.setRate _ _ _ ((F64.fin_le_fin _ _).2 (by norm_num))
        ReachableNonnegRates.init)
  exact ⟨hr, (scalar_fields_nonneg _ hr).2.2.2.2.2.1, (scalar_fields_nonneg _ hr).2.2.2.2.2.2 hn⟩

/-! ## C14: the result is rounded to two decimals, halves away from zero -/

/-- Default configuration, (26, "Domestic", "SUMMER10"): the base fee 31, the
unrounded amount computed by the code, and its binary64 product with 100,
which is exactly 2929.5. -/
theorem amount_default_26_summer10 :
    zoneBaseFee NewShippingCalculator (F64.fin 26) "Domestic" = some (F64.fin 31) ∧
    insuredFee NewShippingCalculator (F64.fin 26) (F64.fin 31) *
      (F64.fin 1 - F64.rnd (1 / 10)) = F64.fin (8245809442738667 / 281474976710656) ∧
    F64.fin (8245809442738667 / 281474976710656) * F64.fin 100 = F64.fin (5859 / 2) := by
  have hperkg : F64.fin 26 * F64.fin 1 = F64.fin 26 := by
    rw [F64.mul_fin]
    exact F64.rnd_pos_eval _ (4) 7318349394477056 _ (by norm_num)
  have hbase : F64.fin 5 + F64.fin 26 = F64.fin 31 := by
    rw [F64.add_fin]
    exact F64.rnd_pos_eval _ (4) 8725724278030336 _ (by norm_num)
  have hsur : F64.fin 31 * F64.fin (3602879701896397 / 72057594037927936) =
      F64.fin (6980579422424269 / 4503599627370496) := by
    rw [F64.mul_fin]
    exact F64.rnd_pos_eval _ (0) 6980579422424269 _ (by norm_num)
  have hins : F64.fin 31 + F64.fin (6980579422424269 / 4503599627370496) =
      F64.fin (2290502622982963 / 70368744177664) := by
    rw [F64.add_fin]
    exact F64.rnd_pos_eval _ (5) 4581005245965926 _ (by norm_num)
  have hm : F64.fin 1 - F64.fin (3602879701896397 / 36028797018963968) =
      F64.fin (8106479329266893 / 9007199254740992) := by
    rw [F64.sub_fin]
    exact F64.rnd_pos_eval _ (-1) 8106479329266893 _ (by norm_num)
  have hx : F64.fin (2290502622982963 / 70368744177664) *
      F64.fin (8106479329266893 / 9007199254740992) =
      F64.fin (8245809442738667 / 281474976710656) := by
    rw [F64.mul_fin]
    exact F64.rnd_pos_eval _ (4) 8245809442738667 _ (by norm_num)
  have hy : F64.fin (8245809442738667 / 281474976710656) * F64.fin 100 =
      F64.fin (5859 / 2) := by
    rw [F64.mul_fin]
    exact F64.rnd_pos_eval _ (11) 6442038627139584 _ (by norm_num)
  refine ⟨?_, ?_, hy⟩
  · rw [zoneBaseFee_domestic]
    show some (F64.fin 5 + F64.fin 26 * F64.fin 1) = some (F64.fin 31)
    rw [hperkg, hbase]
  · rw [insuredFee_above _ _ _ ((F64.fin_lt_fin 20 26).2 (by norm_num))]
    show (F64.fin 31 + F64.fin 31 * F64.rnd (1 / 20)) * (F64.fin 1 - F64.rnd (1 / 10)) = _
    rw [rnd_one_twentieth, rnd_one_tenth, hsur, hins, hm, hx]

/-- C14, counterexample: default configuration, (26, "Domestic", "SUMMER10").
The unrounded amount computed by the code is the binary64 value
`a = 8245809442738667 / 2^48`, just below 29.295; its binary64 product with 100
is exactly 2929.5, so the code returns the binary64 value nearest to 29.30.
That result differs from `a` by more than 0.005, is not `a` rounded to two
decimals (which is 29.29), and its exact product with 100 is not an
integer. -/
theorem cent_rounding_misses_amount :
    CalculateShippingFeeV2 NewShippingCalculator (F64.fin 26) "Domestic" "SUMMER10" =
      .ok (F64.fin (8247216817622221 / 281474976710656)) ∧
    zoneBaseFee NewShippingCalculator (F64.fin 26) "Domestic" = some (F64.fin 31) ∧
    NewShippingCalculator.volumeDiscounts "SUMMER10" = some (F64.rnd (1 / 10)) ∧
    insuredFee NewShippingCalculator (F64.fin 26) (F64.fin 31) *
      (F64.fin 1 - F64.rnd (1 / 10)) = F64.fin (8245809442738667 / 281474976710656) ∧
    F64.fin (8245809442738667 / 281474976710656) * F64.fin 100 = F64.fin (5859 / 2) ∧
    exactRound2 (8245809442738667 / 281474976710656) = 2929 / 100 ∧
    ¬ (|(8247216817622221 / 281474976710656 : ℚ) - 8245809442738667 / 281474976710656| ≤
      5 / 1000) ∧
    ¬ (∃ n : ℤ, (8247216817622221 / 281474976710656 : ℚ) * 100 = (n : ℚ)) ∧
    F64.rnd (2929 / 100) ≠ F64.fin (8247216817622221 / 281474976710656) := by
  obtain ⟨hb, ha, hy⟩ := amount_default_26_summer10
  have hx : mathRound ((8245809442738667 / 281474976710656 : ℚ) * 100) = 2929 :=
    mathRound_eval_nonneg _ _ 2929 (by norm_num)
  refine ⟨?_, hb, rfl, ha, hy, ?_, ?_, ?_, ?_⟩
  · rw [fee_default_26_summer10, rnd_cents_2930]
  · unfold exactRound2
    rw [hx]
  · intro h
    have h2 := (abs_le.1 h).2
    norm_num at h2
  · rintro ⟨n, hn⟩
    have h1 : ((206180420440555525 : ℤ) : ℚ) = ((n * 70368744177664 : ℤ) : ℚ) := by
      push_cast
      linarith
    have h2 : (206180420440555525 : ℤ) = n * 70368744177664 := by exact_mod_cast h1
    omega
  · rw [rnd_cents_2929]
    intro h
    injection h with h
    norm_num at h

/-- C14, amended: every successful result of `CalculateShippingFeeV2` is
`math.Round(a*100)/100` evaluated in binary64, `a` being the unrounded amount
(insured, discounted base fee) the code computed.  When the binary64 product
`y = a*100` is finite, the result is the binary64 value nearest to `n/100`,
where the integer `n` is `y` rounded to the nearest integer, halves away from
zero: `|n - y| ≤ 1/2`, and when `y` lies exactly halfway between two integers
the one farther from zero is chosen. -/
theorem result_rounded_half_away (sc : ShippingCalculator) (weight : F64) (zone code : String)
    (fee : F64) (h : CalculateShippingFeeV2 sc weight zone code = .ok fee) :
    ∃ b a, zoneBaseFee sc weight zone = some b ∧
      ((∃ d, sc.volumeDiscounts code = some d ∧
          a = insuredFee sc weight b * (F64.fin 1 - d)) ∨
        (sc.volumeDiscounts code = none ∧ code = "" ∧ a = insuredFee sc weight b)) ∧
      fee = F64.round (a * F64.fin 100) / F64.fin 100 ∧
      (∀ y : ℚ, a * F64.fin 100 = F64.fin y →
        ∃ n : ℤ, mathRound y = (n : ℚ) ∧ fee = F64.rnd ((n : ℚ) / 100) ∧
          |(n : ℚ) - y| ≤ 1 / 2 ∧
          (∀ k : ℤ, y = (k : ℚ) + 1 / 2 → |(n : ℚ)| = |y| + 1 / 2)) := by
  have key : ∀ a : F64, fee = round2 a →
      fee = F64.round (a * F64.fin 100) / F64.fin 100 ∧
      (∀ y : ℚ, a * F64.fin 100 = F64.fin y →
        ∃ n : ℤ, mathRound y = (n : ℚ) ∧ fee = F64.rnd ((n : ℚ) / 100) ∧
          |(n : ℚ) - y| ≤ 1 / 2 ∧
          (∀ k : ℤ, y = (k : ℚ) + 1 / 2 → |(n : ℚ)| = |y| + 1 / 2)) := by
    intro a hfee
    refine ⟨hfee, ?_⟩
    intro y hy
    obtain ⟨n, hn⟩ := mathRound_isInt y
    refine ⟨n, hn, ?_, ?_, ?_⟩
    · rw [hfee]
      unfold round2
      rw [hy, F64.round_fin, F64.div_fin _ _ (by norm_num), hn]
    · rw [← hn]
      exact mathRound_abs_sub_le y
    · intro k hk
      rw [← hn]
      exact mathRound_half y k hk
  obtain ⟨-, b, hb, hcase⟩ := feeV2_ok_inv sc weight zone code fee h
  rcases hcase with ⟨d, hd, hfee⟩ | ⟨hnone, hempty, hfee⟩
  · exact ⟨b, _, hb, Or.inl ⟨d, hd, rfl⟩, key _ hfee⟩
  · exact ⟨b, _, hb, Or.inr ⟨hnone, hempty, rfl⟩, key _ hfee⟩

/-- Witness for C14 amended: default configuration, (26, "Domestic",
"SUMMER10"), whose result is the binary64 value nearest to 29.30. -/
theorem result_rounded_half_away_witness :
    CalculateShippingFeeV2 NewShippingCalculator (F64.fin 26) "Domestic" "SUMMER10" =
      .ok (F64.rnd (2930 / 100)) ∧
    ∃ b a, zoneBaseFee NewShippingCalculator (F64.fin 26) "Domestic" = some b ∧
      ((∃ d, NewShippingCalculator.volumeDiscounts "SUMMER10" = some d ∧
          a = insuredFee NewShippingCalculator (F64.fin 26) b * (F64.fin 1 - d)) ∨
        (NewShippingCalculator.volumeDiscounts "SUMMER10" = none ∧ "SUMMER10" = "" ∧
          a = insuredFee NewShippingCalculator (F64.fin 26) b)) ∧
      F64.rnd (2930 / 100) = F64.round (a * F64.fin 100) / F64.fin 100 ∧
      (∀ y : ℚ, a * F64.fin 100 = F64.fin y →
        ∃ n : ℤ, mathRound y = (n : ℚ) ∧ F64.rnd (2930 / 100) = F64.rnd ((n : ℚ) / 100) ∧
          |(n : ℚ) - y| ≤ 1 / 2 ∧
          (∀ k : ℤ, y = (k : ℚ) + 1 / 2 → |(n : ℚ)| = |y| + 1 / 2)) :=
  ⟨fee_default_26_summer10,
   result_rounded_half_away NewShippingCalculator (F64.fin 26) "Domestic" "SUMMER10"
    (F64.rnd (2930 / 100)) fee_default_26_summer10⟩

/-! ## C15: the legacy function against the default configuration -/

/-- C15, counterexample: weight 28.5, zone "Domestic": the legacy function
returns 33.5 and `CalculateShippingFeeV2` with the default configuration and no
code returns 35.17, whereas the legacy fee times 1.05 rounded to two decimals
is 35.18, in exact arithmetic and in binary64 arithmetic alike. -/
theorem legacy_times_rate_off_by_a_cent :
    CalculateShippingFee (F64.fin (57 / 2)) "Domestic" = .ok (F64.fin (67 / 2)) ∧
    CalculateShippingFeeV2 NewShippingCalculator (F64.fin (57 / 2)) "Domestic" "" =
      .ok (F64.rnd (3517 / 100)) ∧
    F64.fin (57 / 2) > F64.fin 20 ∧
    exactRound2 ((67 / 2) * (105 / 100)) = 3518 / 100 ∧
    round2 (F64.fin (67 / 2) * F64.rnd (105 / 100)) = F64.rnd (3518 / 100) ∧
    F64.rnd (3517 / 100) ≠ F64.rnd (3518 / 100) ∧
    F64.rnd (3517 / 100) ≠ F64.fin (3518 / 100) ∧
    CalculateShippingFeeV2 NewShippingCalculator (F64.fin (57 / 2)) "Domestic" "" ≠
      .ok (round2 (F64.fin (67 / 2) * F64.rnd (105 / 100))) := by
  have hx : mathRound (((67 : ℚ) / 2) * (105 / 100) * 100) = 3518 :=
    mathRound_eval_nonneg _ _ 3518 (by norm_num)
  refine ⟨legacy_28_5_domestic, fee_default_28_5, (F64.fin_lt_fin _ _).2 (by norm_num), ?_,
    formula_c15_binary64, ?_, ?_, ?_⟩
  · unfold exactRound2
    rw [hx]
  · rw [rnd_cents_3517, rnd_cents_3518]
    intro h
    injection h with h
    norm_num at h
  · rw [rnd_cents_3517]
    intro h
    injection h with h
    norm_num at h
  · rw [fee_default_28_5, formula_c15_binary64, rnd_cents_3517, rnd_cents_3518]
    intro h
    injection h with h
    injection h with h
    norm_num at h

/-- C15, amended: with the configuration of `NewShippingCalculator` and the
empty discount code, for every weight and zone `CalculateShippingFeeV2` fails
exactly when `CalculateShippingFee` fails; and when the legacy function returns
`f`, V2 returns `f` rounded to two decimals if the weight is not above 20, and
`f + f * 0.05` rounded to two decimals if `weight > 20`, the product and the
sum each rounded to binary64 (not `f * 1.05`). -/
theorem legacy_is_default_v2 (weight : F64) (zone : String) :
    ((∃ e, CalculateShippingFeeV2 NewShippingCalculator weight zone "" = .error e) ↔
      (∃ e, CalculateShippingFee weight zone = .error e)) ∧
    (∀ f, CalculateShippingFee weight zone = .ok f →
      CalculateShippingFeeV2 NewShippingCalculator weight zone "" =
        .ok (round2 (if weight > F64.fin 20 then f + f * F64.rnd (1 / 20) else f))) := by
  by_cases hw : weight ≤ F64.fin 0 ∨ weight > F64.fin 50
  · have hV := feeV2_invalid_weight NewShippingCalculator weight zone "" hw
    have hL := legacy_invalid_weight weight zone hw
    rw [hV, hL]
    refine ⟨⟨fun _ => ⟨_, rfl⟩, fun _ => ⟨_, rfl⟩⟩, ?_⟩
    intro f hf
    cases hf
  · have hok : ∀ b : F64, zoneBaseFee NewShippingCalculator weight zone = some b →
        CalculateShippingFeeV2 NewShippingCalculator weight zone "" =
          .ok (round2 (if weight > F64.fin 20 then b + b * F64.rnd (1 / 20) else b)) := by
      intro b hb
      have hfee := feeV2_of_guard NewShippingCalculator weight zone "" b hw hb
      rw [default_no_empty_code] at hfee
      simp only [ne_eq, not_true_eq_false, if_false] at hfee
      rw [hfee]
      rfl
    by_cases hD : zone = "Domestic"
    · subst hD
      have hL := legacy_domestic_of_guard weight hw
      have hV := hok _ (zoneBaseFee_domestic _ _)
      rw [hL]
      refine ⟨⟨fun ⟨e, he⟩ => (by rw [hV] at he; cases he), fun ⟨e, he⟩ => (by cases he)⟩, ?_⟩
      intro f hf
      injection hf with hf
      subst hf
      exact hV
    · by_cases hE : zone = "Express"
      · subst hE
        have hL := legacy_express_of_guard weight hw
        have hV := hok _ (zoneBaseFee_express _ _)
        rw [hL]
        refine ⟨⟨fun ⟨e, he⟩ => (by rw [hV] at he; cases he), fun ⟨e, he⟩ => (by cases he)⟩, ?_⟩
        intro f hf
        injection hf with hf
        subst hf
        exact hV
      · have hbnone : zoneBaseFee NewShippingCalculator weight zone = none := by
          unfold zoneBaseFee
          rw [if_neg hD, if_neg hE]
          split <;> rfl
        have hV := feeV2_zone_error NewShippingCalculator weight zone "" hw hbnone
        have hL : ∃ e, CalculateShippingFee weight zone = .error e := by
          unfold CalculateShippingFee
          rw [if_neg hw, if_neg hD, if_neg hE]
          split
          · exact ⟨_, rfl⟩
          · exact ⟨_, rfl⟩
        refine ⟨⟨fun _ => hL, fun _ => ⟨_, hV⟩⟩, ?_⟩
        intro f hf
        obtain ⟨e, he⟩ := hL
        rw [he] at hf
        cases hf

/-! ## C16: when `CalculateShippingFeeV2` succeeds, and which error comes first -/

theorem nan_passes_weight_guard : ¬(F64.nan ≤ F64.fin 0 ∨ F64.nan > F64.fin 50) := by
  rintro (h | h)
  · exact F64.not_nan_le _ h
  · exact F64.not_lt_nan _ h

/-- For a weight that is a number, `CalculateShippingFeeV2` succeeds exactly
when `0 < weight ≤ 50`, the zone is "Domestic", "Express" or "International"
with the key "International" present in `internationalRates`, and the discount
code is empty or a key of `volumeDiscounts`; otherwise the error is the first
in the order weight, zone or rate availability, discount code. -/
theorem feeV2_success_iff_of_number (sc : ShippingCalculator) (weight : F64)
    (zone code : String) (hn : weight ≠ F64.nan) :
    ((∃ fee, CalculateShippingFeeV2 sc weight zone code = .ok fee) ↔
      (F64.fin 0 < weight ∧ weight ≤ F64.fin 50 ∧
        (zone = "Domestic" ∨ zone = "Express" ∨
          (zone = "International" ∧ ∃ r, sc.internationalRates "International" = some r)) ∧
        (code = "" ∨ ∃ d, sc.volumeDiscounts code = some d))) ∧
    ((weight ≤ F64.fin 0 ∨ weight > F64.fin 50) →
      CalculateShippingFeeV2 sc weight zone code =
        .error "invalid weight: must be between 0 and 50 kg") ∧
    (F64.fin 0 < weight → weight ≤ F64.fin 50 → zone = "International" →
      sc.internationalRates "International" = none →
      CalculateShippingFeeV2 sc weight zone code =
        .error "shipping rate not available for zone: International") ∧
    (F64.fin 0 < weight → weight ≤ F64.fin 50 → zone ≠ "Domestic" → zone ≠ "Express" →
      zone ≠ "International" →
      CalculateShippingFeeV2 sc weight zone code = .error ("invalid zone: " ++ zone)) ∧
    (F64.fin 0 < weight → weight ≤ F64.fin 50 →
      (zone = "Domestic" ∨ zone = "Express" ∨
        (zone = "International" ∧ ∃ r, sc.internationalRates "International" = some r)) →
      code ≠ "" → sc.volumeDiscounts code = none →
      CalculateShippingFeeV2 sc weight zone code = .error ("invalid discount code: " ++ code)) := by
  refine ⟨⟨?_, ?_⟩, feeV2_invalid_weight sc weight zone code, ?_, ?_, ?_⟩
  · rintro ⟨fee, hfee⟩
    obtain ⟨hg, b, hb, hcase⟩ := feeV2_ok_inv sc weight zone code fee hfee
    obtain ⟨h0, h50⟩ := valid_of_guard_false hn hg
    refine ⟨h0, h50, (zoneBaseFee_isSome_iff sc weight zone).1 ⟨b, hb⟩, ?_⟩
    rcases hcase with ⟨d, hd, _⟩ | ⟨_, hempty, _⟩
    · exact Or.inr ⟨d, hd⟩
    · exact Or.inl hempty
  · rintro ⟨h0, h50, hz, hc⟩
    obtain ⟨b, hb⟩ := (zoneBaseFee_isSome_iff sc weight zone).2 hz
    have hfee := feeV2_of_base sc weight zone code b h0 h50 hb
    cases hd : sc.volumeDiscounts code with
    | some d =>
      rw [hd] at hfee
      exact ⟨_, hfee⟩
    | none =>
      rcases hc with hc | ⟨d, hd'⟩
      · rw [hd] at hfee
        simp only [hc, ne_eq, not_true_eq_false, if_false] at hfee
        exact ⟨_, hc ▸ hfee⟩
      · rw [hd] at hd'
        cases hd'
  · intro h0 h50 hI hnone
    have hb : zoneBaseFee sc weight zone = none := by
      subst hI
      simp [zoneBaseFee, hnone]
    rw [feeV2_zone_error sc weight zone code (weight_guard_false h0 h50) hb, if_pos hI, hI]
    rfl
  · intro h0 h50 hD hE hI
    have hb : zoneBaseFee sc weight zone = none := by
      simp [zoneBaseFee, hD, hE, hI]
    rw [feeV2_zone_error sc weight zone code (weight_guard_false h0 h50) hb, if_neg hI]
  · intro h0 h50 hz hne hnone
    obtain ⟨b, hb⟩ := (zoneBaseFee_isSome_iff sc weight zone).2 hz
    have hfee := feeV2_of_base sc weight zone code b h0 h50 hb
    rw [hnone] at hfee
    simpa [hne] using hfee

/-- C16, the code at the failing input: with the weight NaN both comparisons
of the weight guard are false, so on the default configuration
(NaN, "Express", "") succeeds with the fee NaN, and (NaN, "Mars", "NOPE")
returns the unknown-zone error and not the invalid-weight error, although
`0 < NaN ≤ 50` does not hold. -/
theorem feeV2_accepts_nan :
    CalculateShippingFeeV2 NewShippingCalculator F64.nan "Express" "" = .ok F64.nan ∧
    CalculateShippingFeeV2 NewShippingCalculator F64.nan "Mars" "NOPE" =
      .error "invalid zone: Mars" ∧
    ¬ (F64.fin 0 < F64.nan ∧ F64.nan ≤ F64.fin 50) := by
  refine ⟨?_, ?_, fun h => F64.not_lt_nan _ h.1⟩
  · have hb : zoneBaseFee NewShippingCalculator F64.nan "Express" = some F64.nan := by
      rw [zoneBaseFee_express, F64.nan_mul, F64.add_nan]
    have hfee := feeV2_of_guard NewShippingCalculator F64.nan "Express" "" F64.nan
      nan_passes_weight_guard hb
    rw [default_no_empty_code] at hfee
    simp only [ne_eq, not_true_eq_false, if_false] at hfee
    rw [hfee, insuredFee_not_above _ _ _ (F64.not_lt_nan _)]
    unfold round2
    rw [F64.nan_mul]
    rfl
  · have hb : zoneBaseFee NewShippingCalculator F64.nan "Mars" = none := by
      unfold zoneBaseFee
      rw [if_neg (by decide), if_neg (by decide), if_neg (by decide)]
    rw [feeV2_zone_error NewShippingCalculator F64.nan "Mars" "NOPE" nan_passes_weight_guard hb,
      if_neg (by decide)]
    rfl

/-! ## Helper lemmas: order of the amounts in reachable configurations -/

namespace F64

theorem roundToUlp_of_isFloat {a : ℚ} {k : ℕ} (h0 : 0 ≤ a) (hk : a ≤ (2 : ℚ) ^ k)
    (hk' : k ≤ 1023) (hf : IsFloat (fin a)) : roundToUlp a = a := by
  have h := rnd_of_bounded h0 hk hk'
  have hf' : rnd a = fin a := hf
  rw [hf'] at h
  injection h with h
  exact h.symm

/-- A binary64 sum of bounded values is a binary64 value. -/
theorem BoundedLe.isFloat_add {k : ℕ} {y v : F64} (hy : BoundedLe k y y) (hv : BoundedLe k v v)
    (hk : k + 1 ≤ 1023) : IsFloat (y + v) := by
  obtain ⟨b, rfl, hb, hbk⟩ := hy.fin_of_self
  obtain ⟨d, rfl, hd, hdk⟩ := hv.fin_of_self
  have hbd : b + d ≤ (2 : ℚ) ^ (k + 1) := by rw [pow_succ]; linarith
  have hsum : fin b + fin d = fin (roundToUlp (b + d)) := by
    rw [add_fin]
    exact rnd_of_bounded (by linarith) hbd hk
  rw [hsum]
  show rnd (roundToUlp (b + d)) = fin (roundToUlp (b + d))
  rw [rnd_of_bounded (roundToUlp_nonneg (by linarith)) (roundToUlp_le_npow (by linarith) hbd) hk,
    roundToUlp_idem (by linarith)]

/-- Adding a non-negative amount to a binary64 value `y` does not take it
below `x ≤ y`. -/
theorem BoundedLe.add_right {k : ℕ} {x y t : F64} (h : BoundedLe k x y) (hf : IsFloat y)
    (ht : BoundedLe k t t) (hk : k + 1 ≤ 1023) : BoundedLe (k + 1) x (y + t) := by
  obtain ⟨c, rfl, hc, hck⟩ := ht.fin_of_self
  obtain ⟨a, s, rfl, rfl, ha, has, hsk⟩ := h
  have hs0 : 0 ≤ s := le_trans ha has
  have hsc : s + c ≤ (2 : ℚ) ^ (k + 1) := by rw [pow_succ]; linarith
  have hidem : roundToUlp s = s := roundToUlp_of_isFloat hs0 hsk (by omega) hf
  refine ⟨a, roundToUlp (s + c), rfl, ?_, ha, ?_, roundToUlp_le_npow (by linarith) hsc⟩
  · rw [add_fin]
    exact rnd_of_bounded (by linarith) hsc hk
  · calc a ≤ s := has
      _ = roundToUlp s := hidem.symm
      _ ≤ roundToUlp (s + c) := roundToUlp_mono hs0 (by linarith)

/-- Multiplying a binary64 value `x ≥ 0` by a factor in `[0, 1]` does not take
it above `x`. -/
theorem BoundedLe.mul_le_self {k : ℕ} {x m : F64} (hx : BoundedLe k x x) (hf : IsFloat x)
    (hm : BoundedLe 0 m m) (hk : k ≤ 1023) : BoundedLe k (x * m) x := by
  obtain ⟨a, rfl, ha, hak⟩ := hx.fin_of_self
  obtain ⟨c, rfl, hc, hc1⟩ := hm.fin_of_self
  have hc1' : c ≤ 1 := by simpa using hc1
  have hprod : a * c ≤ a := by nlinarith
  have hidem := roundToUlp_of_isFloat ha hak hk hf
  refine ⟨roundToUlp (a * c), a, ?_, rfl, roundToUlp_nonneg (mul_nonneg ha hc), ?_, hak⟩
  · rw [mul_fin]
    exact rnd_of_bounded (mul_nonneg ha hc) (le_trans hprod hak) hk
  · calc roundToUlp (a * c) ≤ roundToUlp a := roundToUlp_mono (mul_nonneg ha hc) hprod
      _ = a := hidem

/-- Multiplication by a factor in `[0, 1]` keeps the order and the bound. -/
theorem BoundedLe.mul_unit {k : ℕ} {x y m : F64} (h : BoundedLe k x y) (hm : BoundedLe 0 m m)
    (hk : k ≤ 1023) : BoundedLe k (x * m) (y * m) :=
  BoundedLe.mul h hm (by omega)

/-- For `0 < q < 1` the binary64 difference `1 - q` lies in `[0, 1]`. -/
theorem one_sub_bounded (q : ℚ) (h0 : 0 < q) (h1 : q < 1) :
    BoundedLe 0 (fin 1 - fin q) (fin 1 - fin q) := by
  have hq0 : 0 ≤ 1 + -q := by linarith
  have hq1 : 1 + -q ≤ (2 : ℚ) ^ (0 : ℕ) := by norm_num; exact le_of_lt h0
  have hsub : fin 1 - fin q = fin (roundToUlp (1 + -q)) := by
    rw [sub_fin]
    exact rnd_of_bounded hq0 hq1 (by norm_num)
  rw [hsub]
  exact boundedLe_refl _ 0 (roundToUlp_nonneg hq0) (roundToUlp_le_npow hq0 hq1)

end F64

theorem boundedLe_hundred : F64.BoundedLe 7 (F64.fin 100) (F64.fin 100) :=
  F64.boundedLe_refl 100 7 (by norm_num) (by norm_num)

/-- The rounding `math.Round(x*100)/100` keeps the order of bounded amounts. -/
theorem round2_boundedLe {k : ℕ} {x y : F64} (h : F64.BoundedLe k x y) (hk : k + 8 ≤ 1023) :
    F64.BoundedLe (k + 8) (round2 x) (round2 y) := by
  unfold round2
  have h1 := F64.BoundedLe.mul h boundedLe_hundred (by omega)
  exact (h1.round.div100 (by omega)).weaken (by omega)

theorem isFloat_five : F64.IsFloat (F64.fin 5) :=
  F64.rnd_pos_eval 5 2 5629499534213120 5 (by norm_num)

theorem isFloat_thirty : F64.IsFloat (F64.fin 30) :=
  F64.rnd_pos_eval 30 4 8444249301319680 30 (by norm_num)

/-- The base fee `R + w * P` is a binary64 value, at least the base rate
`R`, and grows with the weight. -/
theorem base_boundedLe (R P a b : ℚ) (hR0 : 0 ≤ R) (hR : R ≤ (2 : ℚ) ^ 9) (hP0 : 0 ≤ P)
    (hP : P ≤ (2 : ℚ) ^ 3) (hRf : F64.IsFloat (F64.fin R)) (ha : 0 ≤ a) (hab : a ≤ b)
    (hb : b ≤ (2 : ℚ) ^ 6) :
    F64.BoundedLe 10 (F64.fin R) (F64.fin R + F64.fin a * F64.fin P) ∧
    F64.BoundedLe 10 (F64.fin R + F64.fin a * F64.fin P) (F64.fin R + F64.fin b * F64.fin P) ∧
    F64.IsFloat (F64.fin R + F64.fin a * F64.fin P) ∧
    F64.IsFloat (F64.fin R + F64.fin b * F64.fin P) := by
  have hw : F64.BoundedLe 6 (F64.fin a) (F64.fin b) := ⟨a, b, rfl, rfl, ha, hab, hb⟩
  have hP' : F64.BoundedLe 3 (F64.fin P) (F64.fin P) := F64.boundedLe_refl P 3 hP0 hP
  have hR' : F64.BoundedLe 9 (F64.fin R) (F64.fin R) := F64.boundedLe_refl R 9 hR0 hR
  have hprod : F64.BoundedLe 9 (F64.fin a * F64.fin P) (F64.fin b * F64.fin P) :=
    F64.BoundedLe.mul hw hP' (by norm_num)
  exact ⟨F64.BoundedLe.add_right hR' hRf hprod.left (by norm_num),
    F64.BoundedLe.add hR' hprod (by norm_num),
    F64.BoundedLe.isFloat_add hR' hprod.left (by norm_num),
    F64.BoundedLe.isFloat_add hR' hprod.right (by norm_num)⟩

/-- In a reachable configuration the insurance step keeps the order of base
fees of weights in the same order, does not lower a base fee and yields a
binary64 value. -/
theorem insured_boundedLe {sc : ShippingCalculator} (hr : Reachable sc) (a b : ℚ) (hab : a ≤ b)
    {x y : F64} (h : F64.BoundedLe 10 x y) (hx : F64.IsFloat x) (hy : F64.IsFloat y) :
    F64.BoundedLe 11 x (insuredFee sc (F64.fin a) x) ∧
    F64.BoundedLe 11 (insuredFee sc (F64.fin a) x) (insuredFee sc (F64.fin b) y) ∧
    F64.IsFloat (insuredFee sc (F64.fin a) x) ∧
    F64.IsFloat (insuredFee sc (F64.fin b) y) := by
  obtain ⟨-, -, -, -, h5, h6⟩ := reachable_scalars hr
  have hc : F64.BoundedLe 0 (F64.rnd (1 / 20)) (F64.rnd (1 / 20)) := by
    rw [rnd_one_twentieth]
    exact F64.boundedLe_refl _ 0 (by norm_num) (by norm_num)
  have hxs : F64.BoundedLe 10 (x * F64.rnd (1 / 20)) (x * F64.rnd (1 / 20)) :=
    F64.BoundedLe.mul_unit h.left hc (by norm_num)
  have hys : F64.BoundedLe 10 (y * F64.rnd (1 / 20)) (y * F64.rnd (1 / 20)) :=
    F64.BoundedLe.mul_unit h.right hc (by norm_num)
  unfold insuredFee
  rw [h5, h6]
  by_cases ha : F64.fin a > F64.fin 20
  · have hb : F64.fin b > F64.fin 20 :=
      (F64.fin_lt_fin 20 b).2 (lt_of_lt_of_le ((F64.fin_lt_fin 20 a).1 ha) hab)
    rw [if_pos ha, if_pos hb]
    exact ⟨F64.BoundedLe.add_right h.left hx hxs (by norm_num),
      F64.BoundedLe.add h (F64.BoundedLe.mul_unit h hc (by norm_num)) (by norm_num),
      F64.BoundedLe.isFloat_add h.left hxs (by norm_num),
      F64.BoundedLe.isFloat_add h.right hys (by norm_num)⟩
  · rw [if_neg ha]
    by_cases hb : F64.fin b > F64.fin 20
    · rw [if_pos hb]
      exact ⟨h.left.weaken (by norm_num), F64.BoundedLe.add_right h hy hys (by norm_num), hx,
        F64.BoundedLe.isFloat_add h.right hys (by norm_num)⟩
    · rw [if_neg hb]
      exact ⟨h.left.weaken (by norm_num), h.weaken (by norm_num), hx, hy⟩

/-- In a reachable configuration, for zone "Domestic" or "Express" and
weights `0 ≤ a ≤ b ≤ 50`: both base fees exist, the insured amounts are
binary64 values in the order of the weights, and the first is at least the
base rate of the zone. -/
theorem reachable_amounts {sc : ShippingCalculator} (hr : Reachable sc) (zone : String)
    (hz : zone = "Domestic" ∨ zone = "Express") (a b : ℚ) (ha : 0 ≤ a) (hab : a ≤ b)
    (hb : b ≤ 50) :
    ∃ b1 b2, zoneBaseFee sc (F64.fin a) zone = some b1 ∧
      zoneBaseFee sc (F64.fin b) zone = some b2 ∧
      F64.BoundedLe 11 (if zone = "Domestic" then sc.domesticBaseRate else sc.expressBaseRate)
        (insuredFee sc (F64.fin a) b1) ∧
      F64.BoundedLe 11 (insuredFee sc (F64.fin a) b1) (insuredFee sc (F64.fin b) b2) ∧
      F64.IsFloat (insuredFee sc (F64.fin a) b1) ∧
      F64.IsFloat (insuredFee sc (F64.fin b) b2) := by
  obtain ⟨h1, h2, h3, h4, -, -⟩ := reachable_scalars hr
  have hb64 : b ≤ (2 : ℚ) ^ 6 := by norm_num; linarith
  rcases hz with hz | hz
  · subst hz
    obtain ⟨c1, c2, c3, c4⟩ := base_boundedLe 5 1 a b (by norm_num) (by norm_num) (by norm_num)
      (by norm_num) isFloat_five ha hab hb64
    obtain ⟨i1, i2, i3, i4⟩ := insured_boundedLe hr a b hab c2 c3 c4
    refine ⟨_, _, zoneBaseFee_domestic _ _, zoneBaseFee_domestic _ _, ?_, ?_, ?_, ?_⟩
    · rw [if_pos rfl, h1, h2]
      exact (c1.weaken (by norm_num)).trans i1
    · rw [h1, h2]
      exact i2
    · rw [h1, h2]
      exact i3
    · rw [h1, h2]
      exact i4
  · subst hz
    obtain ⟨c1, c2, c3, c4⟩ := base_boundedLe 30 5 a b (by norm_num) (by norm_num) (by norm_num)
      (by norm_num) isFloat_thirty ha hab hb64
    obtain ⟨i1, i2, i3, i4⟩ := insured_boundedLe hr a b hab c2 c3 c4
    refine ⟨_, _, zoneBaseFee_express _ _, zoneBaseFee_express _ _, ?_, ?_, ?_, ?_⟩
    · rw [if_neg (by decide), h3, h4]
      exact (c1.weaken (by norm_num)).trans i1
    · rw [h3, h4]
      exact i2
    · rw [h3, h4]
      exact i3
    · rw [h3, h4]
      exact i4

/-- In a reachable configuration a stored discount `d` that is a number gives
a factor `1 - d` in `[0, 1]`. -/
theorem reachable_factor {sc : ShippingCalculator} (hr : Reachable sc) (code : String) (d : F64)
    (hd : sc.volumeDiscounts code = some d) (hn : d ≠ F64.nan) :
    F64.BoundedLe 0 (F64.fin 1 - d) (F64.fin 1 - d) := by
  obtain ⟨h0, h1⟩ := reachable_discounts_of_number hr code d hd hn
  cases d with
  | nan => exact absurd rfl hn
  | inf s => exact absurd h0 (by
      intro h
      have h1' : s = true := h1
      have h0' : s = false := h
      rw [h1'] at h0'
      cases h0')
  | fin q => exact F64.one_sub_bounded q ((F64.fin_lt_fin 0 q).1 h0) ((F64.fin_lt_fin q 1).1 h1)

theorem round2_nonneg {x : F64} (hx : F64.Nonneg x) : F64.Nonneg (round2 x) := by
  unfold round2
  exact (F64.Nonneg.mul_pos hx (by norm_num)).round_nonneg.div100_nonneg

/-- Two weights with `0 < w1 ≤ w2 ≤ 50` are finite numbers. -/
theorem weights_finite {w1 w2 : F64} (h0 : F64.fin 0 < w1) (h12 : w1 ≤ w2)
    (h50 : w2 ≤ F64.fin 50) :
    ∃ a b : ℚ, w1 = F64.fin a ∧ w2 = F64.fin b ∧ 0 < a ∧ a ≤ b ∧ b ≤ 50 := by
  cases w1 with
  | nan => exact absurd h0 (F64.not_lt_nan _)
  | inf s =>
    have hs : s = false := h0
    subst hs
    cases w2 with
    | nan => exact absurd h12 (F64.not_le_nan _)
    | inf t =>
      have h1 : false = true ∨ t = false := h12
      have h2 : t = true := h50
      rcases h1 with h1 | h1
      · cases h1
      · rw [h1] at h2
        cases h2
    | fin b =>
      have h1 : false = true := h12
      cases h1
  | fin a =>
    cases w2 with
    | nan => exact absurd h12 (F64.not_le_nan _)
    | inf t =>
      have h1 : t = false := h12
      have h2 : t = true := h50
      rw [h1] at h2
      cases h2
    | fin b => exact ⟨a, b, rfl, rfl, h0, h12, h50⟩

/-! ## C17: sign of the fee -/

/-- C17, counterexample: after `AddDiscountCode("X", 0.9999)` on the default
configuration (reachable, no international rate at all), the call
(1, "Domestic", "X") succeeds with fee 0 (6 times 0.0001 is 0.0006, which
rounds to 0.00): a successful "Domestic" result is not always strictly
positive. -/
theorem domestic_fee_can_be_zero :
    Reachable (AddDiscountCode NewShippingCalculator "X" (F64.rnd (9999 / 10000))).1 ∧
    F64.IsFloat (F64.rnd (9999 / 10000)) ∧
    (∀ r, (AddDiscountCode NewShippingCalculator "X"
      (F64.rnd (9999 / 10000))).1.internationalRates "International" = some r →
      F64.fin 0 ≤ r) ∧
    CalculateShippingFeeV2 (AddDiscountCode NewShippingCalculator "X"
      (F64.rnd (9999 / 10000))).1 (F64.fin 1) "Domestic" "X" = .ok (F64.fin 0) ∧
    ¬ (∀ (sc : ShippingCalculator) (weight : F64) (zone code : String) (fee : F64),
        Reachable sc →
        (∀ r, sc.internationalRates "International" = some r → F64.fin 0 ≤ r) →
        CalculateShippingFeeV2 sc weight zone code = .ok fee →
        F64.fin 0 ≤ fee ∧ ((zone = "Domestic" ∨ zone = "Express") → F64.fin 0 < fee)) := by
  have hreach : Reachable (AddDiscountCode NewShippingCalculator "X"
      (F64.rnd (9999 / 10000))).1 := Reachable.addCode _ _ _ Reachable.init
  have hfloat : F64.IsFloat (F64.rnd (9999 / 10000)) := by
    rw [rnd_9999_tenthousandths]
    exact F64.rnd_pos_eval _ (-1) 9006298534815518 _ (by norm_num)
  have hrates : ∀ r, (AddDiscountCode NewShippingCalculator "X"
      (F64.rnd (9999 / 10000))).1.internationalRates "International" = some r →
      F64.fin 0 ≤ r := by
    intro r hr
    rw [(addDiscountCode_scalars _ _ _).2.2.2.2.2.2] at hr
    cases hr
  have hfee : CalculateShippingFeeV2 (AddDiscountCode NewShippingCalculator "X"
      (F64.rnd (9999 / 10000))).1 (F64.fin 1) "Domestic" "X" = .ok (F64.fin 0) := by
    rw [fee_x9999_1]
    have h : ((0 : ℚ) / 100) = 0 := by norm_num
    rw [h, F64.rnd_zero]
  refine ⟨hreach, hfloat, hrates, hfee, ?_⟩
  intro hall
  have h := (hall _ (F64.fin 1) "Domestic" "X" (F64.fin 0) hreach hrates hfee).2 (Or.inl rfl)
  exact F64.lt_irrefl_self _ h

/-- C17, amended: in every reachable configuration whose rate under
"International" (if any) is non-negative, every successful result of
`CalculateShippingFeeV2` for a weight that is a number and a discount (if any)
that is a number is `≥ 0`; for "Domestic" and "Express" it is at least the
base rate of the zone, discounted by the factor `1 - d` when a code is given,
and rounded to two decimals, all in binary64.  That lower bound, and the fee,
can be 0. -/
theorem fee_nonneg (sc : ShippingCalculator) (weight : F64) (zone code : String) (fee : F64)
    (hr : Reachable sc)
    (hrate : ∀ r, sc.internationalRates "International" = some r → F64.fin 0 ≤ r)
    (hw : weight ≠ F64.nan)
    (hd : ∀ d, sc.volumeDiscounts code = some d → d ≠ F64.nan ∧ F64.IsFloat d)
    (h : CalculateShippingFeeV2 sc weight zone code = .ok fee) :
    F64.fin 0 ≤ fee ∧
    ((zone = "Domestic" ∨ zone = "Express") →
      (∀ d, sc.volumeDiscounts code = some d →
        round2 ((if zone = "Domestic" then sc.domesticBaseRate else sc.expressBaseRate) *
          (F64.fin 1 - d)) ≤ fee) ∧
      (sc.volumeDiscounts code = none →
        round2 (if zone = "Domestic" then sc.domesticBaseRate else sc.expressBaseRate) ≤
          fee)) := by
  obtain ⟨hg, b, hb, hcase⟩ := feeV2_ok_inv sc weight zone code fee h
  obtain ⟨h0, h50⟩ := valid_of_guard_false hw hg
  obtain ⟨w, rfl, hw0, hw50⟩ := finite_of_valid h0 h50
  obtain ⟨s1, s2, s3, s4, s5, s6⟩ := reachable_scalars hr
  constructor
  · have hwn : F64.Nonneg (F64.fin w) := le_of_lt hw0
    have hbn : F64.Nonneg b := by
      rcases (zoneBaseFee_isSome_iff sc (F64.fin w) zone).1 ⟨b, hb⟩ with hD | hE | ⟨hI, r, hr'⟩
      · subst hD
        rw [zoneBaseFee_domestic, s1, s2] at hb
        injection hb with hb
        rw [← hb]
        exact F64.Nonneg.add_nonneg (show (0 : ℚ) ≤ 5 by norm_num)
          (F64.Nonneg.mul_pos hwn (by norm_num))
      · subst hE
        rw [zoneBaseFee_express, s3, s4] at hb
        injection hb with hb
        rw [← hb]
        exact F64.Nonneg.add_nonneg (show (0 : ℚ) ≤ 30 by norm_num)
          (F64.Nonneg.mul_pos hwn (by norm_num))
      · subst hI
        rw [zoneBaseFee_international _ _ r hr'] at hb
        injection hb with hb
        rw [← hb]
        exact F64.Nonneg.mul_pos (F64.nonneg_of_zero_le (hrate r hr')) hw0
    have hin : F64.Nonneg (insuredFee sc (F64.fin w) b) := by
      unfold insuredFee
      rw [s5, s6, rnd_one_twentieth]
      split
      · exact F64.Nonneg.add_nonneg hbn (F64.Nonneg.mul_pos hbn (by norm_num))
      · exact hbn
    rcases hcase with ⟨d, hd', hfee⟩ | ⟨-, -, hfee⟩
    · obtain ⟨hdn, hdf⟩ := hd d hd'
      obtain ⟨hd0, hd1⟩ := reachable_discounts_of_number hr code d hd' hdn
      cases d with
      | nan => exact absurd rfl hdn
      | inf s =>
        have e1 : s = false := hd0
        have e2 : s = true := hd1
        rw [e1] at e2
        cases e2
      | fin q =>
        obtain ⟨m, hm, hm0, -⟩ := F64.one_sub_pos q hdf ((F64.fin_lt_fin 0 q).1 hd0)
          ((F64.fin_lt_fin q 1).1 hd1)
        rw [hfee, hm]
        exact (round2_nonneg (F64.Nonneg.mul_pos hin hm0)).zero_le
    · rw [hfee]
      exact (round2_nonneg hin).zero_le
  · intro hz
    obtain ⟨b1, -, hb1, -, hlow, -, -, -⟩ := reachable_amounts hr zone hz w w (le_of_lt hw0)
      (le_refl w) hw50
    rw [hb] at hb1
    injection hb1 with hb1
    subst hb1
    constructor
    · intro d hdl
      rcases hcase with ⟨d', hd', hfee⟩ | ⟨hnone, -, -⟩
      · rw [hdl] at hd'
        injection hd' with hd'
        subst hd'
        rw [hfee]
        exact (round2_boundedLe (F64.BoundedLe.mul_unit hlow
          (reachable_factor hr code d hdl (hd d hdl).1) (by norm_num)) (by norm_num)).le
      · rw [hnone] at hdl
        cases hdl
    · intro hnone
      rcases hcase with ⟨d', hd', -⟩ | ⟨-, -, hfee⟩
      · rw [hnone] at hd'
        cases hd'
      · rw [hfee]
        exact (round2_boundedLe hlow (by norm_num)).le

/-- Witness for C17 amended: default configuration, (10, "Domestic",
"SUMMER10"), whose fee is 13.5. -/
theorem fee_nonneg_witness :
    CalculateShippingFeeV2 NewShippingCalculator (F64.fin 10) "Domestic" "SUMMER10" =
      .ok (F64.fin (27 / 2)) ∧
    F64.fin 0 ≤ F64.fin (27 / 2) ∧
    (("Domestic" = "Domestic" ∨ "Domestic" = "Express") →
      (∀ d, NewShippingCalculator.volumeDiscounts "SUMMER10" = some d →
        round2 ((if "Domestic" = "Domestic" then NewShippingCalculator.domesticBaseRate
          else NewShippingCalculator.expressBaseRate) * (F64.fin 1 - d)) ≤ F64.fin (27 / 2)) ∧
      (NewShippingCalculator.volumeDiscounts "SUMMER10" = none →
        round2 (if "Domestic" = "Domestic" then NewShippingCalculator.domesticBaseRate
          else NewShippingCalculator.expressBaseRate) ≤ F64.fin (27 / 2))) := by
  have hfee : CalculateShippingFeeV2 NewShippingCalculator (F64.fin 10) "Domestic" "SUMMER10" =
      .ok (F64.fin (27 / 2)) := by
    rw [fee_default_10_summer10, rnd_cents_1350]
  exact ⟨hfee, fee_nonneg NewShippingCalculator (F64.fin 10) "Domestic" "SUMMER10"
    (F64.fin (27 / 2)) Reachable.init (fun r hr => (by cases hr)) (by intro h; cases h)
    (fun d hd => by
      rw [default_summer10] at hd
      injection hd with hd
      rw [← hd]
      exact ⟨(by intro h; cases h),
        F64.rnd_pos_eval _ (-4) 7205759403792794 _ (by norm_num)⟩)
    hfee⟩

/-! ## C18: the fee grows with the weight -/

/-- C18, counterexample: the weights 3 and `3 + 2^-51` are binary64 values in
`(0, 50]`, the second strictly larger, and `CalculateShippingFee` returns
exactly 8 for both with zone "Domestic": the legacy fee is not strictly
increasing in the weight. -/
theorem legacy_not_strictly_increasing :
    F64.IsFloat (F64.fin 3) ∧
    F64.IsFloat (F64.fin (6755399441055745 / 2251799813685248)) ∧
    F64.fin 0 < F64.fin 3 ∧
    F64.fin 3 < F64.fin (6755399441055745 / 2251799813685248) ∧
    F64.fin (6755399441055745 / 2251799813685248) ≤ F64.fin 50 ∧
    CalculateShippingFee (F64.fin 3) "Domestic" = .ok (F64.fin 8) ∧
    CalculateShippingFee (F64.fin (6755399441055745 / 2251799813685248)) "Domestic" =
      .ok (F64.fin 8) ∧
    ¬ (F64.fin 8 < F64.fin 8) :=
  ⟨isFloat_3, isFloat_3_next, (F64.fin_lt_fin _ _).2 (by norm_num),
    (F64.fin_lt_fin _ _).2 (by norm_num), (F64.fin_le_fin _ _).2 (by norm_num),
    legacy_3_domestic, legacy_3_next_domestic, F64.lt_irrefl_self _⟩

/-- C18, amended: in every reachable configuration, for zone "Domestic" or
"Express" and a discount code that is empty and not registered, or registered
with a discount that is a number, `0 < w1 ≤ w2 ≤ 50` implies that both
`CalculateShippingFeeV2` calls succeed and the fee at `w1` is at most the fee
at `w2`, the insurance threshold included; likewise `CalculateShippingFee`
succeeds at both weights and is non-decreasing (not strictly increasing) in
the weight. -/
theorem fee_monotone_in_weight (sc : ShippingCalculator) (zone code : String) (w1 w2 : F64)
    (hr : Reachable sc) (hz : zone = "Domestic" ∨ zone = "Express")
    (hc : (sc.volumeDiscounts code = none ∧ code = "") ∨
      ∃ d, sc.volumeDiscounts code = some d ∧ d ≠ F64.nan)
    (h0 : F64.fin 0 < w1) (h12 : w1 ≤ w2) (h50 : w2 ≤ F64.fin 50) :
    (∃ f1 f2, CalculateShippingFeeV2 sc w1 zone code = .ok f1 ∧
      CalculateShippingFeeV2 sc w2 zone code = .ok f2 ∧ f1 ≤ f2) ∧
    (∃ g1 g2, CalculateShippingFee w1 zone = .ok g1 ∧
      CalculateShippingFee w2 zone = .ok g2 ∧ g1 ≤ g2) := by
  obtain ⟨a, b, rfl, rfl, ha0, hab, hb50⟩ := weights_finite h0 h12 h50
  have ha50 : a ≤ 50 := le_trans hab hb50
  have hb0 : 0 < b := lt_of_lt_of_le ha0 hab
  obtain ⟨b1, b2, hb1, hb2, -, hmono, -, -⟩ := reachable_amounts hr zone hz a b (le_of_lt ha0)
    hab hb50
  have hfee1 := feeV2_of_guard sc (F64.fin a) zone code b1 (guard_false_fin a ha0 ha50) hb1
  have hfee2 := feeV2_of_guard sc (F64.fin b) zone code b2 (guard_false_fin b hb0 hb50) hb2
  constructor
  · rcases hc with ⟨hnone, hempty⟩ | ⟨d, hd, hn⟩
    · subst hempty
      rw [hnone] at hfee1 hfee2
      simp only [ne_eq, not_true_eq_false, if_false] at hfee1 hfee2
      exact ⟨_, _, hfee1, hfee2, (round2_boundedLe hmono (by norm_num)).le⟩
    · rw [hd] at hfee1 hfee2
      exact ⟨_, _, hfee1, hfee2, (round2_boundedLe (F64.BoundedLe.mul_unit hmono
        (reachable_factor hr code d hd hn) (by norm_num)) (by norm_num)).le⟩
  · have hb64 : b ≤ (2 : ℚ) ^ 6 := by norm_num; linarith
    rcases hz with hz | hz
    · subst hz
      exact ⟨_, _, legacy_domestic_of_guard _ (guard_false_fin a ha0 ha50),
        legacy_domestic_of_guard _ (guard_false_fin b hb0 hb50),
        (base_boundedLe 5 1 a b (by norm_num) (by norm_num) (by norm_num) (by norm_num)
          isFloat_five (le_of_lt ha0) hab hb64).2.1.le⟩
    · subst hz
      exact ⟨_, _, legacy_express_of_guard _ (guard_false_fin a ha0 ha50),
        legacy_express_of_guard _ (guard_false_fin b hb0 hb50),
        (base_boundedLe 30 5 a b (by norm_num) (by norm_num) (by norm_num) (by norm_num)
          isFloat_thirty (le_of_lt ha0) hab hb64).2.1.le⟩

/-- Witness for C18 amended: default configuration, zone "Domestic", no
discount code, weights 20 and 25 on either side of the insurance threshold
(fees 25 and 31.5). -/
theorem fee_monotone_in_weight_witness :
    CalculateShippingFeeV2 NewShippingCalculator (F64.fin 20) "Domestic" "" =
      .ok (F64.fin 25) ∧
    CalculateShippingFeeV2 NewShippingCalculator (F64.fin 25) "Domestic" "" =
      .ok (F64.fin (63 / 2)) ∧
    (∃ f1 f2, CalculateShippingFeeV2 NewShippingCalculator (F64.fin 20) "Domestic" "" = .ok f1 ∧
      CalculateShippingFeeV2 NewShippingCalculator (F64.fin 25) "Domestic" "" = .ok f2 ∧
      f1 ≤ f2) ∧
    (∃ g1 g2, CalculateShippingFee (F64.fin 20) "Domestic" = .ok g1 ∧
      CalculateShippingFee (F64.fin 25) "Domestic" = .ok g2 ∧ g1 ≤ g2) :=
  ⟨by rw [fee_default_20, rnd_cents_2500], by rw [fee_default_25, rnd_cents_3150],
   fee_monotone_in_weight NewShippingCalculator "Domestic" "" (F64.fin 20) (F64.fin 25)
    Reachable.init (Or.inl rfl) (Or.inl ⟨default_no_empty_code, rfl⟩)
    ((F64.fin_lt_fin _ _).2 (by norm_num)) ((F64.fin_le_fin _ _).2 (by norm_num))
    ((F64.fin_le_fin _ _).2 (by norm_num))⟩

/-! ## C19: a discount never increases the fee -/

/-- In a reachable configuration in which the empty string is not registered,
for a valid weight, zone "Domestic" or "Express" and a code registered with a
discount that is a number, the fee with the code is at most the fee without
code. -/
theorem discount_never_increases_of_number (sc : ShippingCalculator) (weight : F64)
    (zone c : String) (d : F64) (hr : Reachable sc) (hempty : sc.volumeDiscounts "" = none)
    (h0 : F64.fin 0 < weight) (h50 : weight ≤ F64.fin 50)
    (hz : zone = "Domestic" ∨ zone = "Express") (hd : sc.volumeDiscounts c = some d)
    (hn : d ≠ F64.nan) :
    ∃ f1 f2, CalculateShippingFeeV2 sc weight zone c = .ok f1 ∧
      CalculateShippingFeeV2 sc weight zone "" = .ok f2 ∧ f1 ≤ f2 := by
  obtain ⟨w, rfl, hw0, hw50⟩ := finite_of_valid h0 h50
  obtain ⟨b1, b2, hb1, -, -, hself, hfl, -⟩ := reachable_amounts hr zone hz w w (le_of_lt hw0)
    (le_refl w) hw50
  have hfee1 := feeV2_of_base sc (F64.fin w) zone c b1 h0 h50 hb1
  have hfee2 := feeV2_of_base sc (F64.fin w) zone "" b1 h0 h50 hb1
  rw [hd] at hfee1
  rw [hempty] at hfee2
  simp only [ne_eq, not_true_eq_false, if_false] at hfee2
  exact ⟨_, _, hfee1, hfee2, (round2_boundedLe (F64.BoundedLe.mul_le_self hself.left hfl
    (reachable_factor hr c d hd hn) (by norm_num)) (by norm_num)).le⟩

/-- C19, the code at the failing input: after `AddDiscountCode("X", NaN)` on
the default configuration (accepted, because both comparisons of its guard are
false for NaN), the empty string is still not registered and "X" is registered
with NaN; the call (10, "Domestic", "X") returns the fee NaN, the call
(10, "Domestic", "") returns 15, and `NaN ≤ 15` does not hold. -/
theorem nan_discount_not_below_plain :
    Reachable (AddDiscountCode NewShippingCalculator "X" F64.nan).1 ∧
    (AddDiscountCode NewShippingCalculator "X" F64.nan).1.volumeDiscounts "" = none ∧
    (AddDiscountCode NewShippingCalculator "X" F64.nan).1.volumeDiscounts "X" =
      some F64.nan ∧
    CalculateShippingFeeV2 (AddDiscountCode NewShippingCalculator "X" F64.nan).1 (F64.fin 10)
      "Domestic" "X" = .ok F64.nan ∧
    CalculateShippingFeeV2 (AddDiscountCode NewShippingCalculator "X" F64.nan).1 (F64.fin 10)
      "Domestic" "" = .ok (F64.fin 15) ∧
    ¬ (F64.nan ≤ F64.fin 15) := by
  obtain ⟨-, a2, a3⟩ := addDiscountCode_accepted NewShippingCalculator "X" F64.nan
    nan_passes_discount_guard
  obtain ⟨f1, f2, f3, f4, f5, f6, f7⟩ := addDiscountCode_scalars NewShippingCalculator "X" F64.nan
  have hempty : (AddDiscountCode NewShippingCalculator "X" F64.nan).1.volumeDiscounts "" =
      none := by
    rw [a3 "" (by decide)]
    exact default_no_empty_code
  have hb : zoneBaseFee (AddDiscountCode NewShippingCalculator "X" F64.nan).1 (F64.fin 10)
      "Domestic" = some (F64.fin 15) := by
    rw [zoneBaseFee_addDiscountCode]
    exact base_default_10
  refine ⟨Reachable.addCode _ _ _ Reachable.init, hempty, a2, ?_, ?_, F64.not_nan_le _⟩
  · have hfee := feeV2_of_guard (AddDiscountCode NewShippingCalculator "X" F64.nan).1
      (F64.fin 10) "Domestic" "X" (F64.fin 15) (guard_false_fin 10 (by norm_num) (by norm_num)) hb
    rw [a2] at hfee
    have hfee' : CalculateShippingFeeV2 (AddDiscountCode NewShippingCalculator "X" F64.nan).1
        (F64.fin 10) "Domestic" "X" =
        .ok (round2 (insuredFee (AddDiscountCode NewShippingCalculator "X" F64.nan).1
          (F64.fin 10) (F64.fin 15) * (F64.fin 1 - F64.nan))) := hfee
    rw [hfee', F64.sub_nan, F64.mul_nan]
    unfold round2
    rw [F64.nan_mul]
    rfl
  · rw [feeV2_congr (AddDiscountCode NewShippingCalculator "X" F64.nan).1 NewShippingCalculator
      (F64.fin 10) "Domestic" "" f1 f2 f3 f4 f5 f6 (fun _ => by rw [f7]) (a3 "" (by decide)),
      fee_default_10, rnd_cents_1500]

/-! ## C20: what the mutators leave alone -/

/-- C20: `SetInternationalRate(z, r)` changes only the entry
`internationalRates[z]`, so it leaves the result of every
`CalculateShippingFeeV2` call with zone "Domestic" or "Express" unchanged, and
of every call when `z` is not "International"; a successful
`AddDiscountCode(c, p)` changes only the entry `volumeDiscounts[c]`, so it
leaves the result of every call whose discount code differs from `c`
unchanged. -/
theorem mutators_frame (sc : ShippingCalculator) (z c : String) (r p : F64) :
    ((∀ k, k ≠ z → (SetInternationalRate sc z r).internationalRates k = sc.internationalRates k) ∧
      (SetInternationalRate sc z r).volumeDiscounts = sc.volumeDiscounts ∧
      (SetInternationalRate sc z r).domesticBaseRate = sc.domesticBaseRate ∧
      (SetInternationalRate sc z r).domesticPerKgRate = sc.domesticPerKgRate ∧
      (SetInternationalRate sc z r).expressBaseRate = sc.expressBaseRate ∧
      (SetInternationalRate sc z r).expressPerKgRate = sc.expressPerKgRate ∧
      (SetInternationalRate sc z r).insuranceThreshold = sc.insuranceThreshold ∧
      (SetInternationalRate sc z r).insuranceRate = sc.insuranceRate) ∧
    (∀ weight zone code, (zone = "Domestic" ∨ zone = "Express") →
      CalculateShippingFeeV2 (SetInternationalRate sc z r) weight zone code =
        CalculateShippingFeeV2 sc weight zone code) ∧
    (z ≠ "International" → ∀ weight zone code,
      CalculateShippingFeeV2 (SetInternationalRate sc z r) weight zone code =
        CalculateShippingFeeV2 sc weight zone code) ∧
    ((AddDiscountCode sc c p).2 = none →
      (∀ k, k ≠ c → (AddDiscountCode sc c p).1.volumeDiscounts k = sc.volumeDiscounts k) ∧
      (AddDiscountCode sc c p).1.internationalRates = sc.internationalRates ∧
      ∀ weight zone code, code ≠ c →
        CalculateShippingFeeV2 (AddDiscountCode sc c p).1 weight zone code =
          CalculateShippingFeeV2 sc weight zone code) := by
  have hentry : ∀ k, k ≠ z →
      (SetInternationalRate sc z r).internationalRates k = sc.internationalRates k := by
    intro k hk
    simp only [SetInternationalRate, if_neg hk]
  refine ⟨⟨hentry, rfl, rfl, rfl, rfl, rfl, rfl, rfl⟩, ?_, ?_, ?_⟩
  · intro weight zone code hz
    refine feeV2_congr (SetInternationalRate sc z r) sc weight zone code rfl rfl rfl rfl rfl rfl
      ?_ rfl
    intro hI
    rcases hz with hz | hz
    · rw [hz] at hI
      exact absurd hI (by decide)
    · rw [hz] at hI
      exact absurd hI (by decide)
  · intro hz weight zone code
    refine feeV2_congr (SetInternationalRate sc z r) sc weight zone code rfl rfl rfl rfl rfl rfl
      ?_ rfl
    intro _
    exact hentry "International" (fun h => hz h.symm)
  · intro hok
    have hp : ¬ (p ≤ F64.fin 0 ∨ p ≥ F64.fin 1) := by
      intro hp
      rw [addDiscountCode_rejected sc c p hp] at hok
      cases hok
    obtain ⟨-, -, hentry'⟩ := addDiscountCode_accepted sc c p hp
    obtain ⟨f1, f2, f3, f4, f5, f6, f0⟩ := addDiscountCode_scalars sc c p
    refine ⟨hentry', f0, ?_⟩
    intro weight zone code hcode
    exact feeV2_congr _ _ _ _ _ f1 f2 f3 f4 f5 f6 (fun _ => by rw [f0]) (hentry' code hcode)

/-- Witness for C20: on the default configuration, registering a rate under
"International" leaves (10, "Express", "BULK20") unchanged, registering one
under "Canada" leaves (10, "International", "") unchanged, and the accepted
`AddDiscountCode("VIP", 1/4)` leaves (10, "Domestic", "SUMMER10") unchanged. -/
theorem mutators_frame_witness :
    CalculateShippingFeeV2 (SetInternationalRate NewShippingCalculator "International"
      (F64.fin 3)) (F64.fin 10) "Express" "BULK20" =
      CalculateShippingFeeV2 NewShippingCalculator (F64.fin 10) "Express" "BULK20" ∧
    CalculateShippingFeeV2 (SetInternationalRate NewShippingCalculator "Canada" (F64.fin 3))
      (F64.fin 10) "International" "" =
      CalculateShippingFeeV2 NewShippingCalculator (F64.fin 10) "International" "" ∧
    CalculateShippingFeeV2 (AddDiscountCode NewShippingCalculator "VIP" (F64.fin (1 / 4))).1
      (F64.fin 10) "Domestic" "SUMMER10" =
      CalculateShippingFeeV2 NewShippingCalculator (F64.fin 10) "Domestic" "SUMMER10" :=
  ⟨(mutators_frame NewShippingCalculator "International" "VIP" (F64.fin 3)
      (F64.fin (1 / 4))).2.1 (F64.fin 10) "Express" "BULK20" (Or.inr rfl),
   (mutators_frame NewShippingCalculator "Canada" "VIP" (F64.fin 3)
      (F64.fin (1 / 4))).2.2.1 (by decide) (F64.fin 10) "International" "",
   ((mutators_frame NewShippingCalculator "International" "VIP" (F64.fin 3)
      (F64.fin (1 / 4))).2.2.2
      (addDiscountCode_accepted _ _ _
        (discount_guard_false_fin (1 / 4) (by norm_num) (by norm_num))).1).2.2
      (F64.fin 10) "Domestic" "SUMMER10" (by decide)⟩

end Shipping
